import Mathlib

/-!
# NPCX GPIO driver: pin multiplexing and wake-unit interrupt routing

A shallow embedding of `chip/npcx/gpio.c`.

* The memory-mapped registers are an inductive type `Reg`; a register file maps
  each register to an 8-bit value (`Fin 256`), as the C code accesses them
  through `REG8`.
* Every store goes through a `Bus`, the device's reaction to a store.  Two buses
  are given: `mem_bus` (the register keeps what was stored, nothing else moves)
  and `miwu_bus` (in addition, a store to `WKPCL` clears the written bits of
  `WKPND`, the write-one-to-clear behaviour of the wake-unit).
* A machine state carries the register file and a chronological log of the
  stores the driver made and of the interrupt handlers it called.
* Tables and constants that come from headers outside `gpio.c`
  (`gpio_wui_table` from `gpio.wrap`, `gpio_irq_handlers`, the `GPIO_*` flag
  bits) are parameters of the functions that use them.
-/

namespace Npcx

/-! ## Registers and machine state -/

/-- Registers of the NPCX chip that `gpio.c` reads or writes.  The index
arguments are those of the `NPCX_*` register macros. -/
inductive Reg where
  | DEVALT (n : Nat)
  | DEVCNT
  | LV_GPIO_CTL (n : Nat)
  | PDIN (port : Nat)
  | PDOUT (port : Nat)
  | PDIR (port : Nat)
  | PTYPE (port : Nat)
  | PPULL (port : Nat)
  | PPUD (port : Nat)
  | WKEDG (table group : Nat)
  | WKAEDG (table group : Nat)
  | WKMOD (table group : Nat)
  | WKPND (table group : Nat)
  | WKPCL (table group : Nat)
  | WKEN (table group : Nat)
  | WKINEN (table group : Nat)
  deriving DecidableEq, Repr

/-- Register file: every register holds a `uint8_t`. -/
abbrev Regs := Reg → Fin 256

/-- Observable actions of the driver: a store of an 8-bit value to a register,
and a call `gpio_irq_handlers[signal](signal)`. -/
inductive Event where
  | store (r : Reg) (v : Nat)
  | call (signal : Nat)
  deriving DecidableEq, Repr

/-- Machine state: the register file and the log of actions, oldest first. -/
structure Machine where
  regs : Regs
  log : List Event

/-- Reaction of the hardware to a store of `v` to register `r`. -/
abbrev Bus := Reg → Nat → Regs → Regs

/-- Conversion to `uint8_t`. -/
def u8 (x : Nat) : Fin 256 := ⟨x % 256, Nat.mod_lt x (by decide)⟩

/-- The low eight bits of the C expression `~mask`. -/
def lnot8 (mask : Nat) : Nat := 255 ^^^ (mask % 256)

/-- Plain memory: the addressed register takes the stored value. -/
def mem_bus : Bus := fun r v s => Function.update s r (u8 v)

/-- Wake-unit hardware: `WKPCL` is a pending-clear register, a store of `v`
to `WKPCL(table, group)` clears in `WKPND(table, group)` every bit that is set
in `v`.  All other stores behave as plain memory. -/
def miwu_bus : Bus := fun r v s =>
  match r with
  | Reg.WKPCL table group =>
      Function.update (Function.update s (Reg.WKPCL table group) (u8 v))
        (Reg.WKPND table group) (u8 ((s (Reg.WKPND table group)).val &&& lnot8 v))
  | _ => Function.update s r (u8 v)

/-- Bit `k` of register `r`. -/
def bit_of (s : Regs) (r : Reg) (k : Nat) : Bool := (s r).val.testBit k

/-- Load from a register. -/
def reg_read (m : Machine) (r : Reg) : Nat := (m.regs r).val

/-- Store to a register: `REG = v`. -/
def reg_write (bus : Bus) (r : Reg) (v : Nat) (m : Machine) : Machine :=
  { regs := bus r v m.regs, log := m.log ++ [Event.store r (v % 256)] }

/-- Read-modify-write `REG |= mask`. -/
def reg_set_bits (bus : Bus) (r : Reg) (mask : Nat) (m : Machine) : Machine :=
  reg_write bus r (reg_read m r ||| mask) m

/-- Read-modify-write `REG &= ~mask`. -/
def reg_clear_bits (bus : Bus) (r : Reg) (mask : Nat) (m : Machine) : Machine :=
  reg_write bus r (reg_read m r &&& lnot8 mask) m

/-- The machine that starts in register state `s` with an empty log. -/
def Machine.start (s : Regs) : Machine := { regs := s, log := [] }

/-- The handler calls recorded in a log, in order. -/
def calls : List Event → List Nat
  | [] => []
  | Event.call i :: rest => i :: calls rest
  | Event.store _ _ :: rest => calls rest

/-- The stores recorded in a log, in order. -/
def stores : List Event → List (Reg × Nat)
  | [] => []
  | Event.store r v :: rest => (r, v) :: stores rest
  | Event.call _ :: rest => stores rest

/-! ## Data model of `gpio.c` -/

/-- Wake-unit location `struct npcx_wui`: bit-fields `table : 2`, `group : 3`,
`bit : 3`. -/
structure npcx_wui where
  table : Fin 4
  group : Fin 8
  bit : Fin 8
  deriving DecidableEq, Repr

/-- Physical pin `struct npcx_gpio`: bit-fields `port : 4`, `bit : 3`,
`valid : 1`. -/
structure npcx_gpio where
  port : Fin 16
  bit : Fin 8
  valid : Bool
  deriving DecidableEq, Repr

/-- Alternate-function location `struct npcx_alt`: bit-fields `group : 4`,
`bit : 3`, `inverted : 1`. -/
structure npcx_alt where
  group : Fin 16
  bit : Fin 8
  inverted : Bool
  deriving DecidableEq, Repr

/-- One row of `gpio_alt_table`. -/
structure gpio_alt_map where
  gpio : npcx_gpio
  alt : npcx_alt
  deriving DecidableEq, Repr

/-- The `GPIO_*` flag bits of `include/gpio.h` that `gpio.c` tests.  The header
is outside `gpio.c`, so the bit values are parameters. -/
structure gpio_flag_bits where
  GPIO_OPEN_DRAIN : Nat
  GPIO_PULL_UP : Nat
  GPIO_PULL_DOWN : Nat
  GPIO_LOW : Nat
  GPIO_HIGH : Nat
  GPIO_OUTPUT : Nat
  GPIO_INT_F_RISING : Nat
  GPIO_INT_F_FALLING : Nat
  GPIO_INT_F_HIGH : Nat
  GPIO_INT_F_LOW : Nat
  GPIO_DEFAULT : Nat
  GPIO_SEL_1P8V : Nat
  GPIO_INT_ANY : Nat

/-- Return codes used by the interrupt operations. -/
inductive ec_error_list where
  | EC_SUCCESS
  | EC_ERROR_PARAM1
  deriving DecidableEq, Repr

/-- Truth value of the C condition `flags & bits`. -/
def flag_set (flags bits : Nat) : Bool := (flags &&& bits) != 0

/-- Number of interrupt-capable signals: `gpio_wui_table` has one row per
`GPIO_INT` line of `gpio.wrap`, and `GPIO_IH_COUNT` counts the same lines. -/
def GPIO_IH_COUNT (gpio_wui_table : List npcx_wui) : Nat := gpio_wui_table.length

/-- The row `gpio_wui_table[signal]`. -/
def wui_at (gpio_wui_table : List npcx_wui) (signal : Nat) : npcx_wui :=
  gpio_wui_table.getD signal ⟨0, 0, 0⟩

/-! ## Internal functions -/

/-- Embedding of `gpio_match`. -/
def gpio_match (port mask : Nat) (gpio : npcx_gpio) : Bool :=
  gpio.valid && (gpio.port.val == port) && ((1 <<< gpio.bit.val) == mask)

/-- Embedding of `gpio_alt_sel(uint8_t port, uint8_t bit, int8_t func)`: scan
`gpio_alt_table` for the first row matching `(port, 1 << bit)`, then clear or
set its `DEVALT` bit according to `(func < 0) ^ inverted`.  Returns `1` when a
row matched and `-1` otherwise. -/
def gpio_alt_sel (bus : Bus) (gpio_alt_table : List gpio_alt_map) (port bit : Nat)
    (func : Int) (m : Machine) : Int × Machine :=
  match gpio_alt_table with
  | [] => (-1, m)
  | map :: rest =>
    if gpio_match port ((1 <<< bit) % 256) map.gpio then
      let alt_mask := (1 <<< map.alt.bit.val) % 256
      if (decide (func < 0)) != map.alt.inverted then
        (1, reg_clear_bits bus (Reg.DEVALT map.alt.group.val) alt_mask m)
      else
        (1, reg_set_bits bus (Reg.DEVALT map.alt.group.val) alt_mask m)
    else
      gpio_alt_sel bus rest port bit func m

/-- Embedding of `gpio_interrupt_type_sel`. -/
def gpio_interrupt_type_sel (bus : Bus) (F : gpio_flag_bits) (gpio_wui_table : List npcx_wui)
    (signal : Nat) (flags : Nat) (m : Machine) : Machine :=
  if signal ≥ gpio_wui_table.length then m
  else
    let table := (wui_at gpio_wui_table signal).table.val
    let group := (wui_at gpio_wui_table signal).group.val
    let pmask := (1 <<< (wui_at gpio_wui_table signal).bit.val) % 256
    if flag_set flags F.GPIO_INT_F_HIGH || flag_set flags F.GPIO_INT_F_LOW then
      let m1 := reg_set_bits bus (Reg.WKMOD table group) pmask m
      let m2 :=
        if flag_set flags F.GPIO_INT_F_HIGH then
          reg_clear_bits bus (Reg.WKEDG table group) pmask m1
        else if flag_set flags F.GPIO_INT_F_LOW then
          reg_set_bits bus (Reg.WKEDG table group) pmask m1
        else m1
      let m3 := reg_set_bits bus (Reg.WKINEN table group) pmask m2
      reg_set_bits bus (Reg.WKPCL table group) pmask m3
    else if flag_set flags F.GPIO_INT_F_RISING || flag_set flags F.GPIO_INT_F_FALLING then
      let m1 := reg_clear_bits bus (Reg.WKMOD table group) pmask m
      let m2 :=
        if flag_set flags F.GPIO_INT_F_RISING && flag_set flags F.GPIO_INT_F_FALLING then
          reg_set_bits bus (Reg.WKAEDG table group) pmask m1
        else if flag_set flags F.GPIO_INT_F_RISING then
          reg_clear_bits bus (Reg.WKEDG table group) pmask
            (reg_clear_bits bus (Reg.WKAEDG table group) pmask m1)
        else if flag_set flags F.GPIO_INT_F_FALLING then
          reg_set_bits bus (Reg.WKEDG table group) pmask
            (reg_clear_bits bus (Reg.WKAEDG table group) pmask m1)
        else m1
      let m3 := reg_set_bits bus (Reg.WKINEN table group) pmask m2
      reg_set_bits bus (Reg.WKPCL table group) pmask m3
    else
      reg_clear_bits bus (Reg.WKEN table group) pmask m

/-! ## Chip-specific low-level driver -/

/-- Conversion of an `int` to `int8_t` (wrap modulo 256, as the compiler does). -/
def to_int8 (x : Int) : Int := (x + 128) % 256 - 128

/-- Embedding of `gpio_set_alternate_function(uint32_t port, uint32_t mask,
int func)`: for each of the pins 0..7 selected by `mask`, call `gpio_alt_sel`
with the arguments converted to its parameter types. -/
def gpio_set_alternate_function (bus : Bus) (gpio_alt_table : List gpio_alt_map)
    (port mask : Nat) (func : Int) (m : Machine) : Machine :=
  (List.range 8).foldl
    (fun acc pin =>
      if mask &&& (1 <<< pin) ≠ 0 then
        (gpio_alt_sel bus gpio_alt_table (port % 256) pin (to_int8 func) acc).2
      else acc)
    m

/-- Embedding of `gpio_enable_interrupt`. -/
def gpio_enable_interrupt (bus : Bus) (gpio_wui_table : List npcx_wui) (signal : Nat)
    (m : Machine) : ec_error_list × Machine :=
  if signal ≥ GPIO_IH_COUNT gpio_wui_table then (ec_error_list.EC_ERROR_PARAM1, m)
  else
    let wui := wui_at gpio_wui_table signal
    (ec_error_list.EC_SUCCESS,
      reg_set_bits bus (Reg.WKEN wui.table.val wui.group.val) (1 <<< wui.bit.val) m)

/-- Embedding of `gpio_disable_interrupt`. -/
def gpio_disable_interrupt (bus : Bus) (gpio_wui_table : List npcx_wui) (signal : Nat)
    (m : Machine) : ec_error_list × Machine :=
  if signal ≥ GPIO_IH_COUNT gpio_wui_table then (ec_error_list.EC_ERROR_PARAM1, m)
  else
    let wui := wui_at gpio_wui_table signal
    (ec_error_list.EC_SUCCESS,
      reg_clear_bits bus (Reg.WKEN wui.table.val wui.group.val) (1 <<< wui.bit.val) m)

/-- Embedding of `gpio_clear_pending_interrupt`. -/
def gpio_clear_pending_interrupt (bus : Bus) (gpio_wui_table : List npcx_wui) (signal : Nat)
    (m : Machine) : ec_error_list × Machine :=
  if signal ≥ GPIO_IH_COUNT gpio_wui_table then (ec_error_list.EC_ERROR_PARAM1, m)
  else
    let wui := wui_at gpio_wui_table signal
    (ec_error_list.EC_SUCCESS,
      reg_set_bits bus (Reg.WKPCL wui.table.val wui.group.val) (1 <<< wui.bit.val) m)

/-! ## Interrupt dispatch -/

/-- The call `gpio_irq_handlers[i](i)`: the handler acts on the registers and
the call is recorded in the log. -/
def call_handler (gpio_irq_handlers : Nat → Regs → Regs) (i : Nat) (m : Machine) : Machine :=
  { regs := gpio_irq_handlers i m.regs, log := m.log ++ [Event.call i] }

/-- The `for` loop of `gpio_interrupt`, from index `i` over the remaining rows
`gpio_wui_table[i..]`, with the local variable `wui_mask`.  Returns the final
`wui_mask` and machine state. -/
def gpio_interrupt_scan (bus : Bus) (gpio_irq_handlers : Nat → Regs → Regs)
    (table group : Nat) : List npcx_wui → Nat → Nat → Machine → Nat × Machine
  | [], _, wui_mask, m => (wui_mask, m)
  | row :: rest, i, wui_mask, m =>
    if wui_mask = 0 then (wui_mask, m)
    else
      let pin_mask := (1 <<< row.bit.val) % 256
      if row.table.val = table ∧ row.group.val = group ∧ wui_mask &&& pin_mask ≠ 0 then
        let m1 := reg_write bus (Reg.WKPCL table group) pin_mask m
        let m2 := call_handler gpio_irq_handlers i m1
        gpio_interrupt_scan bus gpio_irq_handlers table group rest (i + 1)
          (wui_mask &&& lnot8 pin_mask) m2
      else
        gpio_interrupt_scan bus gpio_irq_handlers table group rest (i + 1) wui_mask m

/-- Embedding of `gpio_interrupt(struct npcx_wui wui_int)`. -/
def gpio_interrupt (bus : Bus) (gpio_wui_table : List npcx_wui)
    (gpio_irq_handlers : Nat → Regs → Regs) (wui_int : npcx_wui) (m : Machine) : Machine :=
  let table := wui_int.table.val
  let group := wui_int.group.val
  let wui_mask := reg_read m (Reg.WKPND table group) &&& reg_read m (Reg.WKEN table group)
  (gpio_interrupt_scan bus gpio_irq_handlers table group gpio_wui_table 0 wui_mask m).2

/-- The hardware latches an event on the wake-unit input `w`: the pending bit
`WKPND(w.table, w.group)[w.bit]` becomes set. -/
def hw_set_pending (w : npcx_wui) (m : Machine) : Machine :=
  { regs := Function.update m.regs (Reg.WKPND w.table.val w.group.val)
      (u8 (reg_read m (Reg.WKPND w.table.val w.group.val) ||| (1 <<< w.bit.val))),
    log := m.log }

/-! ## Static tables and build configuration -/

/-- Build options that `gpio.c` tests with the preprocessor. -/
structure build_config where
  NPCX_UART_MODULE2 : Bool
  NPCX_TACH_SEL2 : Bool
  CONFIG_PECI : Bool
  CONFIG_HOSTCMD_SPS : Bool

/-- Modelled from the spec: the enumeration `GPIO_PORT_0 .. GPIO_PORT_F` of
registers.h is not among the sources; the port index named by the hexadecimal
digit `x` is taken to be `x` (a port index fits the 4-bit `port` field). -/
def GPIO_PORT (x : Fin 16) : Fin 16 := x

/-- Modelled from the spec: the enumeration `ALT_GROUP_0 .. ALT_GROUP_F` of
registers.h is not among the sources; the function-group id named by the
hexadecimal digit `x` is taken to be `x`, as `gpio_pre_init` uses
`NPCX_DEVALT(1)` and `NPCX_DEVALT(ALT_GROUP_1)` for bits of the same register. -/
def ALT_GROUP (x : Fin 16) : Fin 16 := x

/-- Names of the `DEVALT` bit positions (`NPCX_DEVALTx_*` of registers.h) that
`gpio.c` uses. -/
inductive devalt_bit_name where
  | NPCX_DEVALT2_I2C0_1_SL | NPCX_DEVALT2_I2C0_0_SL | NPCX_DEVALT2_I2C1_0_SL
  | NPCX_DEVALT2_I2C2_0_SL | NPCX_DEVALT2_I2C3_0_SL
  | NPCX_DEVALT6_ADC0_SL | NPCX_DEVALT6_ADC1_SL | NPCX_DEVALT6_ADC2_SL
  | NPCX_DEVALT6_ADC3_SL | NPCX_DEVALT6_ADC4_SL
  | NPCX_DEVALTC_UART_SL2
  | NPCX_DEVALT0_SPIP_SL
  | NPCX_DEVALT4_PWM0_SL | NPCX_DEVALT4_PWM1_SL | NPCX_DEVALT4_PWM2_SL | NPCX_DEVALT4_PWM3_SL
  | NPCX_DEVALT4_PWM4_SL | NPCX_DEVALT4_PWM5_SL | NPCX_DEVALT4_PWM6_SL | NPCX_DEVALT4_PWM7_SL
  | NPCX_DEVALTC_TA1_TACH1_SL2 | NPCX_DEVALTC_TB1_TACH2_SL2
  | NPCX_DEVALT3_TA1_TACH1_SL1 | NPCX_DEVALT3_TB1_TACH2_SL1
  | NPCX_DEVALT7_NO_KSI0_SL | NPCX_DEVALT7_NO_KSI1_SL | NPCX_DEVALT7_NO_KSI2_SL
  | NPCX_DEVALT7_NO_KSI3_SL | NPCX_DEVALT7_NO_KSI4_SL | NPCX_DEVALT7_NO_KSI5_SL
  | NPCX_DEVALT7_NO_KSI6_SL | NPCX_DEVALT7_NO_KSI7_SL
  | NPCX_DEVALT8_NO_KSO00_SL | NPCX_DEVALT8_NO_KSO01_SL | NPCX_DEVALT8_NO_KSO02_SL
  | NPCX_DEVALT8_NO_KSO03_SL | NPCX_DEVALT8_NO_KSO04_SL | NPCX_DEVALT8_NO_KSO05_SL
  | NPCX_DEVALT8_NO_KSO06_SL | NPCX_DEVALT8_NO_KSO07_SL
  | NPCX_DEVALT9_NO_KSO08_SL | NPCX_DEVALT9_NO_KSO09_SL | NPCX_DEVALT9_NO_KSO10_SL
  | NPCX_DEVALT9_NO_KSO11_SL | NPCX_DEVALT9_NO_KSO12_SL | NPCX_DEVALT9_NO_KSO13_SL
  | NPCX_DEVALT9_NO_KSO14_SL | NPCX_DEVALT9_NO_KSO15_SL
  | NPCX_DEVALTA_NO_KSO16_SL | NPCX_DEVALTA_NO_KSO17_SL
  | NPCX_DEVALTA_32K_OUT_SL | NPCX_DEVALTA_32KCLKIN_SL
  | NPCX_DEVALT0_GPIO_NO_SPIP | NPCX_DEVALT0_NO_F_SPI | NPCX_DEVALT1_NO_PWRGD
  | NPCX_DEVALTA_NO_PECI_EN | NPCX_DEVALT1_NO_LPC_ESPI
  deriving DecidableEq, Repr

/-- Values of the `DEVALT` bit positions; registers.h is outside `gpio.c`, so
they are a parameter. -/
abbrev devalt_bits := devalt_bit_name → Fin 8

/-- The initialiser `NPCX_GPIO_NONE`. -/
def NPCX_GPIO_NONE : npcx_gpio := ⟨0, 0, false⟩

/-- The initialiser `NPCX_GPIO(port, pin)`. -/
def NPCX_GPIO (port : Fin 16) (pin : Fin 8) : npcx_gpio := ⟨ GPIO_PORT port, pin, true⟩

/-- The initialiser `NPCX_ALT(grp, pin)`. -/
def NPCX_ALT (D : devalt_bits) (grp : Fin 16) (pin : devalt_bit_name) : npcx_alt :=
  ⟨ ALT_GROUP grp, D pin, false⟩

/-- The initialiser `NPCX_ALT_INV(grp, pin)`. -/
def NPCX_ALT_INV (D : devalt_bits) (grp : Fin 16) (pin : devalt_bit_name) : npcx_alt :=
  ⟨ ALT_GROUP grp, D pin, true⟩

open devalt_bit_name in
/-- The table `gpio_alt_table`, for a build configuration `cfg` and `DEVALT`
bit positions `D`. -/
def gpio_alt_table (cfg : build_config) (D : devalt_bits) : List gpio_alt_map :=
  [ -- I2C Module
    ⟨ NPCX_GPIO 0xB 2, NPCX_ALT D 2 NPCX_DEVALT2_I2C0_1_SL⟩,
    ⟨ NPCX_GPIO 0xB 3, NPCX_ALT D 2 NPCX_DEVALT2_I2C0_1_SL⟩,
    ⟨ NPCX_GPIO 0xB 4, NPCX_ALT D 2 NPCX_DEVALT2_I2C0_0_SL⟩,
    ⟨ NPCX_GPIO 0xB 5, NPCX_ALT D 2 NPCX_DEVALT2_I2C0_0_SL⟩,
    ⟨ NPCX_GPIO 8 7, NPCX_ALT D 2 NPCX_DEVALT2_I2C1_0_SL⟩,
    ⟨ NPCX_GPIO 9 0, NPCX_ALT D 2 NPCX_DEVALT2_I2C1_0_SL⟩,
    ⟨ NPCX_GPIO 9 1, NPCX_ALT D 2 NPCX_DEVALT2_I2C2_0_SL⟩,
    ⟨ NPCX_GPIO 9 2, NPCX_ALT D 2 NPCX_DEVALT2_I2C2_0_SL⟩,
    ⟨ NPCX_GPIO 0xD 0, NPCX_ALT D 2 NPCX_DEVALT2_I2C3_0_SL⟩,
    ⟨ NPCX_GPIO 0xD 1, NPCX_ALT D 2 NPCX_DEVALT2_I2C3_0_SL⟩,
    -- ADC Module
    ⟨ NPCX_GPIO 4 5, NPCX_ALT D 6 NPCX_DEVALT6_ADC0_SL⟩,
    ⟨ NPCX_GPIO 4 4, NPCX_ALT D 6 NPCX_DEVALT6_ADC1_SL⟩,
    ⟨ NPCX_GPIO 4 3, NPCX_ALT D 6 NPCX_DEVALT6_ADC2_SL⟩,
    ⟨ NPCX_GPIO 4 2, NPCX_ALT D 6 NPCX_DEVALT6_ADC3_SL⟩,
    ⟨ NPCX_GPIO 4 1, NPCX_ALT D 6 NPCX_DEVALT6_ADC4_SL⟩ ]
  ++ -- UART Module 1/2
  (if cfg.NPCX_UART_MODULE2 then
    [ ⟨ NPCX_GPIO 6 4, NPCX_ALT D 0xC NPCX_DEVALTC_UART_SL2⟩,
      ⟨ NPCX_GPIO 6 5, NPCX_ALT D 0xC NPCX_DEVALTC_UART_SL2⟩ ]
  else
    [ ⟨ NPCX_GPIO 1 0, NPCX_ALT D 9 NPCX_DEVALT9_NO_KSO08_SL⟩,
      ⟨ NPCX_GPIO 1 1, NPCX_ALT D 9 NPCX_DEVALT9_NO_KSO09_SL⟩ ])
  ++
  [ -- SPI Module
    ⟨ NPCX_GPIO 9 5, NPCX_ALT D 0 NPCX_DEVALT0_SPIP_SL⟩,
    ⟨ NPCX_GPIO 0xA 5, NPCX_ALT D 0 NPCX_DEVALT0_SPIP_SL⟩,
    ⟨ NPCX_GPIO 0xA 3, NPCX_ALT D 0 NPCX_DEVALT0_SPIP_SL⟩,
    ⟨ NPCX_GPIO 0xA 1, NPCX_ALT D 0 NPCX_DEVALT0_SPIP_SL⟩,
    -- PWM Module
    ⟨ NPCX_GPIO 0xC 3, NPCX_ALT D 4 NPCX_DEVALT4_PWM0_SL⟩,
    ⟨ NPCX_GPIO 0xC 2, NPCX_ALT D 4 NPCX_DEVALT4_PWM1_SL⟩,
    ⟨ NPCX_GPIO 0xC 4, NPCX_ALT D 4 NPCX_DEVALT4_PWM2_SL⟩,
    ⟨ NPCX_GPIO 8 0, NPCX_ALT D 4 NPCX_DEVALT4_PWM3_SL⟩,
    ⟨ NPCX_GPIO 0xB 6, NPCX_ALT D 4 NPCX_DEVALT4_PWM4_SL⟩,
    ⟨ NPCX_GPIO 0xB 7, NPCX_ALT D 4 NPCX_DEVALT4_PWM5_SL⟩,
    ⟨ NPCX_GPIO 0xC 0, NPCX_ALT D 4 NPCX_DEVALT4_PWM6_SL⟩,
    ⟨ NPCX_GPIO 6 0, NPCX_ALT D 4 NPCX_DEVALT4_PWM7_SL⟩ ]
  ++ -- MFT Module
  (if cfg.NPCX_TACH_SEL2 then
    [ ⟨ NPCX_GPIO 9 3, NPCX_ALT D 0xC NPCX_DEVALTC_TA1_TACH1_SL2⟩,
      ⟨ NPCX_GPIO 0xD 3, NPCX_ALT D 0xC NPCX_DEVALTC_TB1_TACH2_SL2⟩ ]
  else
    [ ⟨ NPCX_GPIO 4 0, NPCX_ALT D 3 NPCX_DEVALT3_TA1_TACH1_SL1⟩,
      ⟨ NPCX_GPIO 0xA 4, NPCX_ALT D 3 NPCX_DEVALT3_TB1_TACH2_SL1⟩ ])
  ++
  [ -- Keyboard Scan Module (Inputs)
    ⟨ NPCX_GPIO 3 1, NPCX_ALT_INV D 7 NPCX_DEVALT7_NO_KSI0_SL⟩,
    ⟨ NPCX_GPIO 3 0, NPCX_ALT_INV D 7 NPCX_DEVALT7_NO_KSI1_SL⟩,
    ⟨ NPCX_GPIO 2 7, NPCX_ALT_INV D 7 NPCX_DEVALT7_NO_KSI2_SL⟩,
    ⟨ NPCX_GPIO 2 6, NPCX_ALT_INV D 7 NPCX_DEVALT7_NO_KSI3_SL⟩,
    ⟨ NPCX_GPIO 2 5, NPCX_ALT_INV D 7 NPCX_DEVALT7_NO_KSI4_SL⟩,
    ⟨ NPCX_GPIO 2 4, NPCX_ALT_INV D 7 NPCX_DEVALT7_NO_KSI5_SL⟩,
    ⟨ NPCX_GPIO 2 3, NPCX_ALT_INV D 7 NPCX_DEVALT7_NO_KSI6_SL⟩,
    ⟨ NPCX_GPIO 2 2, NPCX_ALT_INV D 7 NPCX_DEVALT7_NO_KSI7_SL⟩,
    -- Keyboard Scan Module (Outputs)
    ⟨ NPCX_GPIO 2 1, NPCX_ALT_INV D 8 NPCX_DEVALT8_NO_KSO00_SL⟩,
    ⟨ NPCX_GPIO 2 0, NPCX_ALT_INV D 8 NPCX_DEVALT8_NO_KSO01_SL⟩,
    ⟨ NPCX_GPIO 1 7, NPCX_ALT_INV D 8 NPCX_DEVALT8_NO_KSO02_SL⟩,
    ⟨ NPCX_GPIO 1 6, NPCX_ALT_INV D 8 NPCX_DEVALT8_NO_KSO03_SL⟩,
    ⟨ NPCX_GPIO 1 5, NPCX_ALT_INV D 8 NPCX_DEVALT8_NO_KSO04_SL⟩,
    ⟨ NPCX_GPIO 1 4, NPCX_ALT_INV D 8 NPCX_DEVALT8_NO_KSO05_SL⟩,
    ⟨ NPCX_GPIO 1 3, NPCX_ALT_INV D 8 NPCX_DEVALT8_NO_KSO06_SL⟩,
    ⟨ NPCX_GPIO 1 2, NPCX_ALT_INV D 8 NPCX_DEVALT8_NO_KSO07_SL⟩,
    ⟨ NPCX_GPIO 1 1, NPCX_ALT_INV D 9 NPCX_DEVALT9_NO_KSO08_SL⟩,
    ⟨ NPCX_GPIO 1 0, NPCX_ALT_INV D 9 NPCX_DEVALT9_NO_KSO09_SL⟩,
    ⟨ NPCX_GPIO 0 7, NPCX_ALT_INV D 9 NPCX_DEVALT9_NO_KSO10_SL⟩,
    ⟨ NPCX_GPIO 0 6, NPCX_ALT_INV D 9 NPCX_DEVALT9_NO_KSO11_SL⟩,
    ⟨ NPCX_GPIO 0 5, NPCX_ALT_INV D 9 NPCX_DEVALT9_NO_KSO12_SL⟩,
    ⟨ NPCX_GPIO 0 4, NPCX_ALT_INV D 9 NPCX_DEVALT9_NO_KSO13_SL⟩,
    ⟨ NPCX_GPIO 8 2, NPCX_ALT_INV D 9 NPCX_DEVALT9_NO_KSO14_SL⟩,
    ⟨ NPCX_GPIO 8 3, NPCX_ALT_INV D 9 NPCX_DEVALT9_NO_KSO15_SL⟩,
    ⟨ NPCX_GPIO 0 3, NPCX_ALT_INV D 0xA NPCX_DEVALTA_NO_KSO16_SL⟩,
    ⟨ NPCX_GPIO 0xB 1, NPCX_ALT_INV D 0xA NPCX_DEVALTA_NO_KSO17_SL⟩,
    -- Clock module
    ⟨ NPCX_GPIO 7 5, NPCX_ALT D 0xA NPCX_DEVALTA_32K_OUT_SL⟩,
    ⟨ NPCX_GPIO 0xE 7, NPCX_ALT D 0xA NPCX_DEVALTA_32KCLKIN_SL⟩ ]

/-- One block of the low-voltage table, `struct gpio_lvol_item`: the pins of
the eight bits of one `LV_GPIO_CTL` register. -/
structure gpio_lvol_item where
  lvol_gpio : List npcx_gpio
  deriving DecidableEq, Repr

/-- The table `gpio_lvol_table`. -/
def gpio_lvol_table : List gpio_lvol_item :=
  [ -- Low-Voltage GPIO Control 0
    ⟨[ NPCX_GPIO 0xB 5, NPCX_GPIO 0xB 4, NPCX_GPIO 0xB 3, NPCX_GPIO 0xB 2,
       NPCX_GPIO 9 0, NPCX_GPIO 8 7, NPCX_GPIO 0 0, NPCX_GPIO 3 3 ]⟩,
    -- Low-Voltage GPIO Control 1
    ⟨[ NPCX_GPIO 9 2, NPCX_GPIO 9 1, NPCX_GPIO 0xD 1, NPCX_GPIO 0xD 0,
       NPCX_GPIO 3 6, NPCX_GPIO 6 4, NPCX_GPIO 6 5, NPCX_GPIO_NONE ]⟩,
    -- Low-Voltage GPIO Control 2
    ⟨[ NPCX_GPIO 7 4, NPCX_GPIO 8 4, NPCX_GPIO 8 5, NPCX_GPIO 7 3,
       NPCX_GPIO 0xC 1, NPCX_GPIO 0xC 7, NPCX_GPIO 0xE 7, NPCX_GPIO 3 4 ]⟩,
    -- Low-Voltage GPIO Control 3
    ⟨[ NPCX_GPIO 0xC 6, NPCX_GPIO 3 7, NPCX_GPIO 4 0, NPCX_GPIO 7 1,
       NPCX_GPIO 8 2, NPCX_GPIO 7 5, NPCX_GPIO 8 0, NPCX_GPIO 0xC 5 ]⟩ ]

/-- One row of `gpio_list`, `struct gpio_info`: port, mask and default flags of
a signal.  The list itself comes from the board, so it is a parameter. -/
structure gpio_info where
  port : Nat
  mask : Nat
  flags : Nat
  deriving DecidableEq, Repr

/-- The row `gpio_list[signal]`. -/
def gpio_list_at (gpio_list : List gpio_info) (signal : Nat) : gpio_info :=
  gpio_list.getD signal ⟨0, 0, 0⟩

/-- The C expression `x & ~bits` on unsigned values: `x` with the bits of
`bits` cleared. -/
def and_not (x bits : Nat) : Nat := x ^^^ (x &&& bits)

/-! ## Low-voltage selection, pin flags and initialisation -/

/-- The inner `for` loop of `gpio_low_voltage_level_sel` over the pins
`gpio[j..]` of block `i`: on the first match set or clear bit `j` of
`LV_GPIO_CTL(i)` and report that the function returns. -/
def lvol_scan_block (bus : Bus) (port mask low_voltage i : Nat) :
    List npcx_gpio → Nat → Machine → Bool × Machine
  | [], _, m => (false, m)
  | gpio :: rest, j, m =>
    if gpio_match port mask gpio then
      if low_voltage ≠ 0 then
        (true, reg_set_bits bus (Reg.LV_GPIO_CTL i) (1 <<< j) m)
      else
        (true, reg_clear_bits bus (Reg.LV_GPIO_CTL i) (1 <<< j) m)
    else lvol_scan_block bus port mask low_voltage i rest (j + 1) m

/-- The outer `for` loop of `gpio_low_voltage_level_sel` over the blocks
`gpio_lvol_table[i..]`. -/
def lvol_scan_table (bus : Bus) (port mask low_voltage : Nat) :
    List gpio_lvol_item → Nat → Machine → Machine
  | [], _, m => m
  | item :: rest, i, m =>
    if (lvol_scan_block bus port mask low_voltage i item.lvol_gpio 0 m).1 then
      (lvol_scan_block bus port mask low_voltage i item.lvol_gpio 0 m).2
    else lvol_scan_table bus port mask low_voltage rest (i + 1) m

/-- Embedding of `gpio_low_voltage_level_sel(uint8_t port, uint8_t mask,
uint8_t low_voltage)`. -/
def gpio_low_voltage_level_sel (bus : Bus) (gpio_lvol_table : List gpio_lvol_item)
    (port mask low_voltage : Nat) (m : Machine) : Machine :=
  lvol_scan_table bus port mask low_voltage gpio_lvol_table 0 m

/-- Embedding of `gpio_get_level`. -/
def gpio_get_level (gpio_list : List gpio_info) (signal : Nat) (m : Machine) : Nat :=
  if reg_read m (Reg.PDIN (gpio_list_at gpio_list signal).port)
      &&& (gpio_list_at gpio_list signal).mask ≠ 0 then 1 else 0

/-- Embedding of `gpio_set_level`. -/
def gpio_set_level (bus : Bus) (gpio_list : List gpio_info) (signal : Nat) (value : Int)
    (m : Machine) : Machine :=
  if value ≠ 0 then
    reg_set_bits bus (Reg.PDOUT (gpio_list_at gpio_list signal).port)
      (gpio_list_at gpio_list signal).mask m
  else
    reg_clear_bits bus (Reg.PDOUT (gpio_list_at gpio_list signal).port)
      (gpio_list_at gpio_list signal).mask m

/-- The interrupt set-up loop of `gpio_set_flags_by_mask`: for every
`gpio_int < GPIO_IH_COUNT` whose `gpio_list` row is on `port` and overlaps
`mask`, call `gpio_interrupt_type_sel(gpio_int, flags)`. -/
def set_flags_interrupts (bus : Bus) (F : gpio_flag_bits) (gpio_list : List gpio_info)
    (gpio_wui_table : List npcx_wui) (port mask flags : Nat) (m : Machine) : Machine :=
  (List.range (GPIO_IH_COUNT gpio_wui_table)).foldl
    (fun acc gpio_int =>
      if (gpio_list_at gpio_list gpio_int).port = port
          ∧ (gpio_list_at gpio_list gpio_int).mask &&& mask ≠ 0 then
        gpio_interrupt_type_sel bus F gpio_wui_table gpio_int flags acc
      else acc)
    m

/-- Embedding of `gpio_set_flags_by_mask(uint32_t port, uint32_t mask,
uint32_t flags)`. -/
def gpio_set_flags_by_mask (bus : Bus) (F : gpio_flag_bits) (gpio_list : List gpio_info)
    (gpio_wui_table : List npcx_wui) (gpio_lvol_table : List gpio_lvol_item)
    (port mask flags : Nat) (m : Machine) : Machine :=
  let m1 :=
    if !flag_set flags F.GPIO_OUTPUT then reg_clear_bits bus (Reg.PDIR port) mask m else m
  let m2 :=
    if flag_set flags F.GPIO_OPEN_DRAIN then reg_set_bits bus (Reg.PTYPE port) mask m1
    else reg_clear_bits bus (Reg.PTYPE port) mask m1
  let m3 :=
    if flag_set flags F.GPIO_PULL_UP then
      reg_set_bits bus (Reg.PPULL port) mask (reg_clear_bits bus (Reg.PPUD port) mask m2)
    else if flag_set flags F.GPIO_PULL_DOWN then
      reg_set_bits bus (Reg.PPULL port) mask (reg_set_bits bus (Reg.PPUD port) mask m2)
    else reg_clear_bits bus (Reg.PPULL port) mask m2
  let m4 :=
    if flag_set flags F.GPIO_SEL_1P8V then
      gpio_low_voltage_level_sel bus gpio_lvol_table (port % 256) (mask % 256) 1
        (reg_clear_bits bus (Reg.PPULL port) mask (reg_set_bits bus (Reg.PTYPE port) mask m3))
    else gpio_low_voltage_level_sel bus gpio_lvol_table (port % 256) (mask % 256) 0 m3
  let m5 :=
    if flag_set flags F.GPIO_INT_ANY then
      set_flags_interrupts bus F gpio_list gpio_wui_table port mask flags m4
    else m4
  let m6 :=
    if flag_set flags F.GPIO_HIGH then reg_set_bits bus (Reg.PDOUT port) mask m5
    else if flag_set flags F.GPIO_LOW then reg_clear_bits bus (Reg.PDOUT port) mask m5
    else m5
  if flag_set flags F.GPIO_OUTPUT then reg_set_bits bus (Reg.PDIR port) mask m6 else m6

/-- The loop of `gpio_pre_init` that clears the pending and enable bits:
`WKPCL(i, j) = 0xFF; WKEN(i, j) = 0` for `i < 2`, `j < 8`. -/
def pre_init_clear_wake (bus : Bus) (m : Machine) : Machine :=
  (List.range 2).foldl
    (fun acc i =>
      (List.range 8).foldl
        (fun acc2 j => reg_write bus (Reg.WKEN i j) 0 (reg_write bus (Reg.WKPCL i j) 0xFF acc2))
        acc)
    m

/-- The body of the `gpio_list` loop of `gpio_pre_init` for one row `g`. -/
def pre_init_signal (bus : Bus) (F : gpio_flag_bits) (gpio_list : List gpio_info)
    (gpio_wui_table : List npcx_wui) (gpio_alt_table : List gpio_alt_map)
    (gpio_lvol_table : List gpio_lvol_item) (is_warm : Bool) (m : Machine) (g : gpio_info) :
    Machine :=
  if flag_set g.flags F.GPIO_DEFAULT then m
  else
    gpio_set_alternate_function bus gpio_alt_table g.port g.mask (-1)
      (gpio_set_flags_by_mask bus F gpio_list gpio_wui_table gpio_lvol_table g.port g.mask
        (if is_warm then and_not g.flags (F.GPIO_LOW ||| F.GPIO_HIGH) else g.flags) m)

/-- The pin-mux stores at the start of `gpio_pre_init`. -/
def pre_init_pin_mux (bus : Bus) (cfg : build_config) (D : devalt_bits) (m : Machine) :
    Machine :=
  let m1 := reg_set_bits bus (Reg.DEVALT 0)
    (1 <<< (D devalt_bit_name.NPCX_DEVALT0_GPIO_NO_SPIP).val) m
  let m2 := reg_set_bits bus (Reg.DEVALT 0)
    (1 <<< (D devalt_bit_name.NPCX_DEVALT0_NO_F_SPI).val) m1
  let m3 := reg_set_bits bus (Reg.DEVALT 1)
    (1 <<< (D devalt_bit_name.NPCX_DEVALT1_NO_PWRGD).val) m2
  let m4 :=
    if !cfg.CONFIG_PECI then
      reg_set_bits bus (Reg.DEVALT 0xA)
        (1 <<< (D devalt_bit_name.NPCX_DEVALTA_NO_PECI_EN).val) m3
    else m3
  if cfg.CONFIG_HOSTCMD_SPS then
    reg_set_bits bus (Reg.DEVALT (ALT_GROUP 1).val)
      (1 <<< (D devalt_bit_name.NPCX_DEVALT1_NO_LPC_ESPI).val)
      (reg_set_bits bus Reg.DEVCNT 0x08 m4)
  else m4

/-- Embedding of `gpio_pre_init`; `is_warm` is the value of
`system_is_reboot_warm()`. -/
def gpio_pre_init (bus : Bus) (F : gpio_flag_bits) (cfg : build_config) (D : devalt_bits)
    (gpio_list : List gpio_info) (gpio_wui_table : List npcx_wui)
    (gpio_alt_table : List gpio_alt_map) (gpio_lvol_table : List gpio_lvol_item)
    (is_warm : Bool) (m : Machine) : Machine :=
  gpio_list.foldl
    (pre_init_signal bus F gpio_list gpio_wui_table gpio_alt_table gpio_lvol_table is_warm)
    (pre_init_clear_wake bus (pre_init_pin_mux bus cfg D m))

/-! ## Vocabulary of the statements -/

/-- Register states `s` and `t` agree on every bit of every register, except
possibly on bit `b` of register `r`. -/
def only_bit_differs (s t : Regs) (r : Reg) (b : Nat) : Prop :=
  ∀ q k, ¬(q = r ∧ k = b) → bit_of t q k = bit_of s q k

/-- A concrete assignment of the flag bits, one distinct bit per flag and
`GPIO_INT_ANY` the union of the four trigger flags; it instantiates the
statements below. -/
def sample_flag_bits : gpio_flag_bits :=
  { GPIO_OPEN_DRAIN := 1, GPIO_PULL_UP := 2, GPIO_PULL_DOWN := 4, GPIO_LOW := 8,
    GPIO_HIGH := 16, GPIO_OUTPUT := 64, GPIO_INT_F_RISING := 256,
    GPIO_INT_F_FALLING := 512, GPIO_INT_F_HIGH := 1024, GPIO_INT_F_LOW := 2048,
    GPIO_DEFAULT := 4096, GPIO_SEL_1P8V := 32768, GPIO_INT_ANY := 3840 }

/-- A two-row wake-unit table: signal 0 on `(table 0, group 2, bit 3)` and
signal 1 on `(table 1, group 2, bit 5)`. -/
def sample_wui_table : List npcx_wui := [⟨0, 2, 3⟩, ⟨1, 2, 5⟩]

/-- The register state with every register zero. -/
def zero_regs : Regs := fun _ => 0

/-- An operation on the machine assigns bits: every bit of every register is
either left as it was, or given a value that does not depend on the state. -/
def assigns_bits (f : Machine → Machine) : Prop :=
  ∀ r k, (∀ m, bit_of (f m).regs r k = bit_of m.regs r k) ∨
    (∃ c, ∀ m, bit_of (f m).regs r k = c)

/-- Two rows in the shape of `gpio_alt_table`: pin 2 of port 11 on bit 1 of
`DEVALT(2)`, not inverted (as the I2C rows), and pin 1 of port 3 on bit 0 of
`DEVALT(7)`, inverted (as the keyboard-scan rows). -/
def sample_alt_table : List gpio_alt_map :=
  [⟨⟨11, 2, true⟩, ⟨2, 1, false⟩⟩, ⟨⟨3, 1, true⟩, ⟨7, 0, true⟩⟩]

/-- The actions of the `for` loop of `gpio_interrupt`, as a function of the
rows still to scan, the loop index and the local `wui_mask` alone. -/
def scan_events (table group : Nat) : List npcx_wui → Nat → Nat → List Event
  | [], _, _ => []
  | row :: rest, i, wui_mask =>
    if wui_mask = 0 then []
    else if row.table.val = table ∧ row.group.val = group
        ∧ wui_mask &&& ((1 <<< row.bit.val) % 256) ≠ 0 then
      Event.store (Reg.WKPCL table group) ((1 <<< row.bit.val) % 256) :: Event.call i ::
        scan_events table group rest (i + 1) (wui_mask &&& lnot8 ((1 <<< row.bit.val) % 256))
    else scan_events table group rest (i + 1) wui_mask

/-- The scenario `enable -> clear pending -> hardware sets the pending bit ->
dispatch` for signal `i`, from register state `s`, with `gpio_interrupt` run on
`wui_int`. -/
def dispatch_scenario (bus : Bus) (gpio_wui_table : List npcx_wui)
    (gpio_irq_handlers : Nat → Regs → Regs) (i : Nat) (wui_int : npcx_wui) (s : Regs) :
    Machine :=
  gpio_interrupt bus gpio_wui_table gpio_irq_handlers wui_int
    (hw_set_pending (wui_at gpio_wui_table i)
      (gpio_clear_pending_interrupt bus gpio_wui_table i
        (gpio_enable_interrupt bus gpio_wui_table i (Machine.start s)).2).2)

/-- Handlers that leave the registers alone. -/
def idle_handlers : Nat → Regs → Regs := fun _ r => r

/-- A wake-unit table in which rows 0, 1 and 2 address the same bit
`(table 0, group 2, bit 3)`. -/
def aliased_wui_table : List npcx_wui := [⟨0, 2, 3⟩, ⟨0, 2, 3⟩, ⟨0, 2, 3⟩]

/-- A wake-unit table of six rows on `(table 0, group 2)`: signal 2 on bit 1,
signal 5 on bit 4, and signal 0 on the same bit as signal 2. -/
def shadowed_wui_table : List npcx_wui :=
  [⟨0, 2, 1⟩, ⟨0, 2, 0⟩, ⟨0, 2, 1⟩, ⟨0, 2, 6⟩, ⟨0, 2, 7⟩, ⟨0, 2, 4⟩]

/-- A wake-unit table of six rows without aliases: signal 2 on bit 1 and
signal 5 on bit 4 of `(table 0, group 2)`. -/
def plain_wui_table : List npcx_wui :=
  [⟨0, 2, 0⟩, ⟨1, 2, 1⟩, ⟨0, 2, 1⟩, ⟨0, 3, 4⟩, ⟨0, 2, 7⟩, ⟨0, 2, 4⟩]

/-- The register state with `WKPND(0, 2)` and `WKEN(0, 2)` all ones and every
other register zero. -/
def all_pending_regs : Regs := fun r =>
  match r with
  | Reg.WKPND 0 2 => 255
  | Reg.WKEN 0 2 => 255
  | _ => 0

/-- The handler calls that `gpio_interrupt` makes on `wui_int` when entered in
register state `s`: the calls of the scan started with
`wui_mask = WKPND & WKEN`. -/
def interrupt_calls (gpio_wui_table : List npcx_wui) (wui_int : npcx_wui) (s : Regs) :
    List Nat :=
  calls (scan_events wui_int.table.val wui_int.group.val gpio_wui_table 0
    ((s (Reg.WKPND wui_int.table.val wui_int.group.val)).val
      &&& (s (Reg.WKEN wui_int.table.val wui_int.group.val)).val))

/-- Machine `t` is reached from machine `m` by stores to registers satisfying
`P` only: the log of `t` extends that of `m` by such stores (and no handler
call), and every register outside `P` has kept its value. -/
def footprint (P : Reg → Prop) (m t : Machine) : Prop :=
  (∃ d, t.log = m.log ++ d ∧ ∀ e, e ∈ d → ∃ r v, e = Event.store r v ∧ P r) ∧
  ∀ q, ¬ P q → t.regs q = m.regs q

/-- The wake-unit registers. -/
def is_wake_reg : Reg → Prop
  | Reg.WKEDG _ _ => True
  | Reg.WKAEDG _ _ => True
  | Reg.WKMOD _ _ => True
  | Reg.WKPND _ _ => True
  | Reg.WKPCL _ _ => True
  | Reg.WKEN _ _ => True
  | Reg.WKINEN _ _ => True
  | _ => False

/-- The flag bits share no bit with one another: the plain flags and
`GPIO_INT_ANY` are pairwise disjoint, and so are the plain flags and the four
trigger flags. -/
def flag_bits_disjoint (F : gpio_flag_bits) : Prop :=
  List.Pairwise (fun a b => a &&& b = 0)
    [F.GPIO_OPEN_DRAIN, F.GPIO_PULL_UP, F.GPIO_PULL_DOWN, F.GPIO_LOW, F.GPIO_HIGH,
      F.GPIO_OUTPUT, F.GPIO_DEFAULT, F.GPIO_SEL_1P8V, F.GPIO_INT_ANY] ∧
  List.Pairwise (fun a b => a &&& b = 0)
    [F.GPIO_OPEN_DRAIN, F.GPIO_PULL_UP, F.GPIO_PULL_DOWN, F.GPIO_LOW, F.GPIO_HIGH,
      F.GPIO_OUTPUT, F.GPIO_DEFAULT, F.GPIO_SEL_1P8V, F.GPIO_INT_F_RISING,
      F.GPIO_INT_F_FALLING, F.GPIO_INT_F_HIGH, F.GPIO_INT_F_LOW]

/-- Step 1 of `gpio_set_flags_by_mask`: configure as input unless output is
requested. -/
def set_flags_input (bus : Bus) (F : gpio_flag_bits) (port mask flags : Nat) (m : Machine) :
    Machine :=
  if !flag_set flags F.GPIO_OUTPUT then reg_clear_bits bus (Reg.PDIR port) mask m else m

/-- Step 2 of `gpio_set_flags_by_mask`: drive type. -/
def set_flags_type (bus : Bus) (F : gpio_flag_bits) (port mask flags : Nat) (m : Machine) :
    Machine :=
  if flag_set flags F.GPIO_OPEN_DRAIN then reg_set_bits bus (Reg.PTYPE port) mask m
  else reg_clear_bits bus (Reg.PTYPE port) mask m

/-- Step 3 of `gpio_set_flags_by_mask`: pull-up / pull-down. -/
def set_flags_pull (bus : Bus) (F : gpio_flag_bits) (port mask flags : Nat) (m : Machine) :
    Machine :=
  if flag_set flags F.GPIO_PULL_UP then
    reg_set_bits bus (Reg.PPULL port) mask (reg_clear_bits bus (Reg.PPUD port) mask m)
  else if flag_set flags F.GPIO_PULL_DOWN then
    reg_set_bits bus (Reg.PPULL port) mask (reg_set_bits bus (Reg.PPUD port) mask m)
  else reg_clear_bits bus (Reg.PPULL port) mask m

/-- Step 4 of `gpio_set_flags_by_mask`: 1.8V low-voltage select. -/
def set_flags_voltage (bus : Bus) (F : gpio_flag_bits) (gpio_lvol_table : List gpio_lvol_item)
    (port mask flags : Nat) (m : Machine) : Machine :=
  if flag_set flags F.GPIO_SEL_1P8V then
    gpio_low_voltage_level_sel bus gpio_lvol_table (port % 256) (mask % 256) 1
      (reg_clear_bits bus (Reg.PPULL port) mask (reg_set_bits bus (Reg.PTYPE port) mask m))
  else gpio_low_voltage_level_sel bus gpio_lvol_table (port % 256) (mask % 256) 0 m

/-- Step 6 of `gpio_set_flags_by_mask`: output level. -/
def set_flags_level (bus : Bus) (F : gpio_flag_bits) (port mask flags : Nat) (m : Machine) :
    Machine :=
  if flag_set flags F.GPIO_HIGH then reg_set_bits bus (Reg.PDOUT port) mask m
  else if flag_set flags F.GPIO_LOW then reg_clear_bits bus (Reg.PDOUT port) mask m
  else m

/-- Steps 2 to 6 of `gpio_set_flags_by_mask`: drive type, pull, voltage,
interrupt type and level. -/
def set_flags_middle (bus : Bus) (F : gpio_flag_bits) (gpio_list : List gpio_info)
    (gpio_wui_table : List npcx_wui) (gpio_lvol_table : List gpio_lvol_item)
    (port mask flags : Nat) (m : Machine) : Machine :=
  set_flags_level bus F port mask flags
    (if flag_set flags F.GPIO_INT_ANY then
      set_flags_interrupts bus F gpio_list gpio_wui_table port mask flags
        (set_flags_voltage bus F gpio_lvol_table port mask flags
          (set_flags_pull bus F port mask flags (set_flags_type bus F port mask flags m)))
    else
      set_flags_voltage bus F gpio_lvol_table port mask flags
        (set_flags_pull bus F port mask flags (set_flags_type bus F port mask flags m)))

/-- Steps 1 to 6 of `gpio_set_flags_by_mask`: everything before the final
direction write. -/
def set_flags_before_output (bus : Bus) (F : gpio_flag_bits) (gpio_list : List gpio_info)
    (gpio_wui_table : List npcx_wui) (gpio_lvol_table : List gpio_lvol_item)
    (port mask flags : Nat) (m : Machine) : Machine :=
  set_flags_middle bus F gpio_list gpio_wui_table gpio_lvol_table port mask flags
    (set_flags_input bus F port mask flags m)

/-- The registers that steps 2 to 6 of `gpio_set_flags_by_mask` may write for
`port` and `flags`. -/
def set_flags_middle_regs (F : gpio_flag_bits) (port flags : Nat) (r : Reg) : Prop :=
  r = Reg.PTYPE port ∨ r = Reg.PPUD port ∨ r = Reg.PPULL port ∨ (∃ i, r = Reg.LV_GPIO_CTL i) ∨
    (is_wake_reg r ∧ flag_set flags F.GPIO_INT_ANY = true) ∨
    (r = Reg.PDOUT port ∧
      (flag_set flags F.GPIO_HIGH = true ∨ flag_set flags F.GPIO_LOW = true))

/-- The register state with every register `0xFF`. -/
def ones_regs : Regs := fun _ => 255

/-- A `gpio_list` of three signals: signal 0 on pin 2 of port 3 (output, high),
signal 1 on pin 0 of port 5 flagged `GPIO_DEFAULT`, signal 2 on pin 1 of port 5
(input, pull-up). -/
def sample_gpio_list : List gpio_info := [⟨3, 4, 80⟩, ⟨5, 1, 4096 + 80⟩, ⟨5, 2, 2⟩]

/-- A build configuration with every option off. -/
def sample_config : build_config := ⟨false, false, false, false⟩

/-- `DEVALT` bit positions all zero. -/
def zero_devalt_bits : devalt_bits := fun _ => 0

/-- A `gpio_list` in which two signals sit on pin 2 of port 3: signal 0
requests output high, signal 1 requests output low. -/
def clashing_gpio_list : List gpio_info := [⟨3, 4, 80⟩, ⟨3, 4, 72⟩]

/-- The valid pins of a list of table entries, as `(port, bit)` pairs. -/
def valid_pins (l : List npcx_gpio) : List (Fin 16 × Fin 8) :=
  (l.filter (fun g => g.valid)).map (fun g => (g.port, g.bit))

/-- The pin column of an alternate-function table, in row order. -/
def alt_table_gpios (tbl : List gpio_alt_map) : List npcx_gpio :=
  tbl.map (fun r => r.gpio)

/-- The pins of all blocks of a low-voltage table, in scan order. -/
def lvol_table_gpios (tbl : List gpio_lvol_item) : List npcx_gpio :=
  tbl.flatMap (fun b => b.lvol_gpio)

/-- The test "this entry is pin 0 or pin 1 of port 1". -/
def is_uart1_pin (g : npcx_gpio) : Bool :=
  g.port.val == 1 && (g.bit.val == 0 || g.bit.val == 1)

/-- The register state with bits 0, 1, 4 and 7 of `WKPND(0, 2)` set, bits 0
and 4 of `WKEN(0, 2)` set and every other register zero. -/
def partly_enabled_regs : Regs := fun r =>
  match r with
  | Reg.WKPND 0 2 => 147
  | Reg.WKEN 0 2 => 17
  | _ => 0

/-- The flag constant `GPIO_INT_ANY` is the union of the four trigger flags
that `gpio_interrupt_type_sel` tests. -/
def int_any_is_triggers (F : gpio_flag_bits) : Prop :=
  F.GPIO_INT_ANY
    = F.GPIO_INT_F_RISING ||| F.GPIO_INT_F_FALLING ||| F.GPIO_INT_F_HIGH ||| F.GPIO_INT_F_LOW

/-- Flag bits as `sample_flag_bits`, except that `GPIO_INT_ANY` also contains
bit 5, which is none of the four trigger flags. -/
def wide_int_any_flag_bits : gpio_flag_bits :=
  { GPIO_OPEN_DRAIN := 1, GPIO_PULL_UP := 2, GPIO_PULL_DOWN := 4, GPIO_LOW := 8,
    GPIO_HIGH := 16, GPIO_OUTPUT := 64, GPIO_INT_F_RISING := 256,
    GPIO_INT_F_FALLING := 512, GPIO_INT_F_HIGH := 1024, GPIO_INT_F_LOW := 2048,
    GPIO_DEFAULT := 4096, GPIO_SEL_1P8V := 32768, GPIO_INT_ANY := 3840 + 32 }

/-! ## Bit-level facts about 8-bit values -/

theorem testBit_u8 (x k : Nat) : (u8 x).val.testBit k = (decide (k < 8) && x.testBit k) := by
  show (x % 2 ^ 8).testBit k = _
  exact Nat.testBit_mod_two_pow x 8 k

theorem testBit_fin256 (v : Fin 256) (k : Nat) (hk : 8 ≤ k) : v.val.testBit k = false := by
  apply Nat.testBit_lt_two_pow
  have h1 : v.val < 256 := v.isLt
  have h2 : 2 ^ 8 ≤ 2 ^ k := Nat.pow_le_pow_right (by decide) hk
  omega

theorem testBit_lnot8 (mask k : Nat) :
    (lnot8 mask).testBit k = (decide (k < 8) && !mask.testBit k) := by
  unfold lnot8
  have h255 : (255 : Nat).testBit k = decide (k < 8) := Nat.testBit_two_pow_sub_one 8 k
  have hmod : (mask % 256).testBit k = (decide (k < 8) && mask.testBit k) :=
    Nat.testBit_mod_two_pow mask 8 k
  rw [Nat.testBit_xor, h255, hmod]
  by_cases h : k < 8 <;> simp [h]

theorem testBit_one_shl (b k : Nat) : (1 <<< b).testBit k = decide (b = k) := by
  rw [Nat.one_shiftLeft]
  exact Nat.testBit_two_pow

theorem testBit_pin_mask (b k : Nat) :
    ((1 <<< b) % 256).testBit k = (decide (k < 8) && decide (b = k)) := by
  have hmod : ((1 <<< b) % 256).testBit k = (decide (k < 8) && (1 <<< b).testBit k) :=
    Nat.testBit_mod_two_pow (1 <<< b) 8 k
  rw [hmod, testBit_one_shl]

theorem bit_of_ge_eight (s : Regs) (r : Reg) (k : Nat) (hk : 8 ≤ k) : bit_of s r k = false :=
  testBit_fin256 (s r) k hk

theorem regs_ext_bits {s t : Regs} (h : ∀ r k, bit_of s r k = bit_of t r k) : s = t := by
  funext r
  apply Fin.ext
  exact Nat.eq_of_testBit_eq (h r)

theorem and_pin_ne_zero (x b : Nat) (hb : b < 8) :
    (x &&& ((1 <<< b) % 256) ≠ 0) ↔ x.testBit b = true := by
  have hlt : (1 <<< b) < 256 := by
    rw [Nat.one_shiftLeft]
    calc 2 ^ b < 2 ^ 8 := Nat.pow_lt_pow_right (by decide) hb
      _ = 256 := by decide
  rw [Nat.mod_eq_of_lt hlt, Nat.one_shiftLeft, Nat.and_two_pow]
  have hpos : 0 < 2 ^ b := Nat.pos_pow_of_pos b (by decide)
  cases hx : x.testBit b
  · simp
  · simp [Nat.pos_iff_ne_zero.mp hpos]

/-! ## Stores on the plain-memory bus -/

theorem regs_reg_write_mem (r : Reg) (v : Nat) (m : Machine) :
    (reg_write mem_bus r v m).regs = Function.update m.regs r (u8 v) := rfl

theorem log_reg_write (bus : Bus) (r : Reg) (v : Nat) (m : Machine) :
    (reg_write bus r v m).log = m.log ++ [Event.store r (v % 256)] := rfl

theorem log_reg_set_bits (bus : Bus) (r : Reg) (mask : Nat) (m : Machine) :
    (reg_set_bits bus r mask m).log
      = m.log ++ [Event.store r ((reg_read m r ||| mask) % 256)] := rfl

theorem log_reg_clear_bits (bus : Bus) (r : Reg) (mask : Nat) (m : Machine) :
    (reg_clear_bits bus r mask m).log
      = m.log ++ [Event.store r ((reg_read m r &&& lnot8 mask) % 256)] := rfl

theorem bit_of_set_bits_mem (r : Reg) (mask : Nat) (m : Machine) (q : Reg) (k : Nat) :
    bit_of (reg_set_bits mem_bus r mask m).regs q k
      = if q = r ∧ k < 8 ∧ mask.testBit k = true then true else bit_of m.regs q k := by
  unfold reg_set_bits
  rw [regs_reg_write_mem]
  unfold bit_of reg_read
  by_cases hq : q = r
  · subst hq
    rw [Function.update_same, testBit_u8, Nat.testBit_or]
    by_cases hk : k < 8
    · cases hm : mask.testBit k <;> simp [hk]
    · have := testBit_fin256 (m.regs q) k (by omega)
      simp [hk, this]
  · rw [Function.update_noteq hq]
    simp [hq]

theorem bit_of_clear_bits_mem (r : Reg) (mask : Nat) (m : Machine) (q : Reg) (k : Nat) :
    bit_of (reg_clear_bits mem_bus r mask m).regs q k
      = if q = r ∧ k < 8 ∧ mask.testBit k = true then false else bit_of m.regs q k := by
  unfold reg_clear_bits
  rw [regs_reg_write_mem]
  unfold bit_of reg_read
  by_cases hq : q = r
  · subst hq
    rw [Function.update_same, testBit_u8, Nat.testBit_and, testBit_lnot8]
    by_cases hk : k < 8
    · cases hm : mask.testBit k <;> simp [hk]
    · have := testBit_fin256 (m.regs q) k (by omega)
      simp [hk, this]
  · rw [Function.update_noteq hq]
    simp [hq]


theorem only_bit_differs_other {s t : Regs} {r : Reg} {b : Nat}
    (h : only_bit_differs s t r b) (q : Reg) (hq : q ≠ r) : t q = s q := by
  apply Fin.ext
  apply Nat.eq_of_testBit_eq
  intro k
  exact h q k (fun hc => hq hc.1)

theorem wui_bit_lt (tbl : List npcx_wui) (signal : Nat) : (wui_at tbl signal).bit.val < 8 :=
  (wui_at tbl signal).bit.isLt

/-! ## Interrupt enable, disable and pending-clear -/

/-- C4. Each of `gpio_enable_interrupt`, `gpio_disable_interrupt` and
`gpio_clear_pending_interrupt` returns `EC_ERROR_PARAM1` exactly when
`signal >= GPIO_IH_COUNT`, and then leaves the machine (registers and log)
unchanged.  Otherwise it returns `EC_SUCCESS`, makes exactly one store, to
`WKEN` (enable, disable) or `WKPCL` (clear pending) of the signal's table and
group, and the register state differs from the one before at most in the
signal's bit of that register, which ends set (enable, clear pending) or clear
(disable). -/
theorem interrupt_ops_reject_atomically (gpio_wui_table : List npcx_wui) (signal : Nat)
    (m : Machine) :
    (((gpio_enable_interrupt mem_bus gpio_wui_table signal m).1
          = ec_error_list.EC_ERROR_PARAM1 ↔ signal ≥ GPIO_IH_COUNT gpio_wui_table) ∧
      ((gpio_disable_interrupt mem_bus gpio_wui_table signal m).1
          = ec_error_list.EC_ERROR_PARAM1 ↔ signal ≥ GPIO_IH_COUNT gpio_wui_table) ∧
      ((gpio_clear_pending_interrupt mem_bus gpio_wui_table signal m).1
          = ec_error_list.EC_ERROR_PARAM1 ↔ signal ≥ GPIO_IH_COUNT gpio_wui_table)) ∧
    (signal ≥ GPIO_IH_COUNT gpio_wui_table →
      (gpio_enable_interrupt mem_bus gpio_wui_table signal m).2 = m ∧
      (gpio_disable_interrupt mem_bus gpio_wui_table signal m).2 = m ∧
      (gpio_clear_pending_interrupt mem_bus gpio_wui_table signal m).2 = m) ∧
    (signal < GPIO_IH_COUNT gpio_wui_table →
      ((gpio_enable_interrupt mem_bus gpio_wui_table signal m).1 = ec_error_list.EC_SUCCESS ∧
        only_bit_differs m.regs (gpio_enable_interrupt mem_bus gpio_wui_table signal m).2.regs
          (Reg.WKEN (wui_at gpio_wui_table signal).table.val
            (wui_at gpio_wui_table signal).group.val) (wui_at gpio_wui_table signal).bit.val ∧
        bit_of (gpio_enable_interrupt mem_bus gpio_wui_table signal m).2.regs
          (Reg.WKEN (wui_at gpio_wui_table signal).table.val
            (wui_at gpio_wui_table signal).group.val)
          (wui_at gpio_wui_table signal).bit.val = true ∧
        ∃ v, (gpio_enable_interrupt mem_bus gpio_wui_table signal m).2.log
          = m.log ++ [Event.store (Reg.WKEN (wui_at gpio_wui_table signal).table.val
              (wui_at gpio_wui_table signal).group.val) v]) ∧
      ((gpio_disable_interrupt mem_bus gpio_wui_table signal m).1 = ec_error_list.EC_SUCCESS ∧
        only_bit_differs m.regs (gpio_disable_interrupt mem_bus gpio_wui_table signal m).2.regs
          (Reg.WKEN (wui_at gpio_wui_table signal).table.val
            (wui_at gpio_wui_table signal).group.val) (wui_at gpio_wui_table signal).bit.val ∧
        bit_of (gpio_disable_interrupt mem_bus gpio_wui_table signal m).2.regs
          (Reg.WKEN (wui_at gpio_wui_table signal).table.val
            (wui_at gpio_wui_table signal).group.val)
          (wui_at gpio_wui_table signal).bit.val = false ∧
        ∃ v, (gpio_disable_interrupt mem_bus gpio_wui_table signal m).2.log
          = m.log ++ [Event.store (Reg.WKEN (wui_at gpio_wui_table signal).table.val
              (wui_at gpio_wui_table signal).group.val) v]) ∧
      ((gpio_clear_pending_interrupt mem_bus gpio_wui_table signal m).1
          = ec_error_list.EC_SUCCESS ∧
        only_bit_differs m.regs
          (gpio_clear_pending_interrupt mem_bus gpio_wui_table signal m).2.regs
          (Reg.WKPCL (wui_at gpio_wui_table signal).table.val
            (wui_at gpio_wui_table signal).group.val) (wui_at gpio_wui_table signal).bit.val ∧
        bit_of (gpio_clear_pending_interrupt mem_bus gpio_wui_table signal m).2.regs
          (Reg.WKPCL (wui_at gpio_wui_table signal).table.val
            (wui_at gpio_wui_table signal).group.val)
          (wui_at gpio_wui_table signal).bit.val = true ∧
        ∃ v, (gpio_clear_pending_interrupt mem_bus gpio_wui_table signal m).2.log
          = m.log ++ [Event.store (Reg.WKPCL (wui_at gpio_wui_table signal).table.val
              (wui_at gpio_wui_table signal).group.val) v])) := by
  have hb := wui_bit_lt gpio_wui_table signal
  refine ⟨⟨?_, ?_, ?_⟩, ?_, ?_⟩
  · unfold gpio_enable_interrupt
    by_cases h : signal ≥ GPIO_IH_COUNT gpio_wui_table <;> simp [h]
  · unfold gpio_disable_interrupt
    by_cases h : signal ≥ GPIO_IH_COUNT gpio_wui_table <;> simp [h]
  · unfold gpio_clear_pending_interrupt
    by_cases h : signal ≥ GPIO_IH_COUNT gpio_wui_table <;> simp [h]
  · intro h
    simp [gpio_enable_interrupt, gpio_disable_interrupt, gpio_clear_pending_interrupt, h]
  · intro h
    have h2 : ¬ (signal ≥ GPIO_IH_COUNT gpio_wui_table) := by omega
    simp only [gpio_enable_interrupt, gpio_disable_interrupt, gpio_clear_pending_interrupt,
      h2, if_false, true_and]
    refine ⟨⟨?_, ?_, ?_⟩, ⟨?_, ?_, ?_⟩, ⟨?_, ?_, ?_⟩⟩
    · intro q k hqk
      rw [bit_of_set_bits_mem, testBit_one_shl]
      have : ¬ (q = Reg.WKEN (wui_at gpio_wui_table signal).table.val
          (wui_at gpio_wui_table signal).group.val ∧ k < 8 ∧
          decide ((wui_at gpio_wui_table signal).bit.val = k) = true) := by
        rintro ⟨h1, _, h3⟩
        exact hqk ⟨h1, (of_decide_eq_true h3).symm⟩
      rw [if_neg this]
    · rw [bit_of_set_bits_mem, testBit_one_shl]
      simp [hb]
    · exact ⟨_, log_reg_set_bits _ _ _ _⟩
    · intro q k hqk
      rw [bit_of_clear_bits_mem, testBit_one_shl]
      have : ¬ (q = Reg.WKEN (wui_at gpio_wui_table signal).table.val
          (wui_at gpio_wui_table signal).group.val ∧ k < 8 ∧
          decide ((wui_at gpio_wui_table signal).bit.val = k) = true) := by
        rintro ⟨h1, _, h3⟩
        exact hqk ⟨h1, (of_decide_eq_true h3).symm⟩
      rw [if_neg this]
    · rw [bit_of_clear_bits_mem, testBit_one_shl]
      simp [hb]
    · exact ⟨_, log_reg_clear_bits _ _ _ _⟩
    · intro q k hqk
      rw [bit_of_set_bits_mem, testBit_one_shl]
      have : ¬ (q = Reg.WKPCL (wui_at gpio_wui_table signal).table.val
          (wui_at gpio_wui_table signal).group.val ∧ k < 8 ∧
          decide ((wui_at gpio_wui_table signal).bit.val = k) = true) := by
        rintro ⟨h1, _, h3⟩
        exact hqk ⟨h1, (of_decide_eq_true h3).symm⟩
      rw [if_neg this]
    · rw [bit_of_set_bits_mem, testBit_one_shl]
      simp [hb]
    · exact ⟨_, log_reg_set_bits _ _ _ _⟩


theorem interrupt_ops_reject_atomically_witness :
    (1 < GPIO_IH_COUNT sample_wui_table ∧
      (gpio_enable_interrupt mem_bus sample_wui_table 1 (Machine.start zero_regs)).1
        = ec_error_list.EC_SUCCESS ∧
      bit_of (gpio_enable_interrupt mem_bus sample_wui_table 1 (Machine.start zero_regs)).2.regs
        (Reg.WKEN (wui_at sample_wui_table 1).table.val (wui_at sample_wui_table 1).group.val)
        (wui_at sample_wui_table 1).bit.val = true) ∧
    (2 ≥ GPIO_IH_COUNT sample_wui_table ∧
      (gpio_clear_pending_interrupt mem_bus sample_wui_table 2 (Machine.start zero_regs)).2
        = Machine.start zero_regs) :=
  ⟨⟨by decide,
    ((interrupt_ops_reject_atomically sample_wui_table 1 (Machine.start zero_regs)).2.2
      (by decide)).1.1,
    ((interrupt_ops_reject_atomically sample_wui_table 1 (Machine.start zero_regs)).2.2
      (by decide)).1.2.2.1⟩,
   ⟨by decide,
    ((interrupt_ops_reject_atomically sample_wui_table 2 (Machine.start zero_regs)).2.1
      (by decide)).2.2⟩⟩

/-! ## Trigger configuration: `gpio_interrupt_type_sel` -/

theorem type_sel_out_of_range (bus : Bus) (F : gpio_flag_bits) (tbl : List npcx_wui)
    (signal flags : Nat) (m : Machine) (h : tbl.length ≤ signal) :
    gpio_interrupt_type_sel bus F tbl signal flags m = m := by
  simp [gpio_interrupt_type_sel, h]

/-- C10. With no trigger flag set, `gpio_interrupt_type_sel` on an
interrupt-capable signal makes one store, to `WKEN` of the signal's table and
group; the register state differs from the one before at most in the signal's
bit of that register, which ends clear.  In particular every `WKPND`, `WKPCL`,
`WKMOD`, `WKEDG`, `WKAEDG` and `WKINEN` register keeps its value.  For a signal
at or beyond the table size the machine is unchanged, whatever the flags. -/
theorem type_sel_disable_does_not_acknowledge (F : gpio_flag_bits)
    (gpio_wui_table : List npcx_wui) (signal flags : Nat) (m : Machine) :
    (signal < gpio_wui_table.length →
      flag_set flags F.GPIO_INT_F_HIGH = false → flag_set flags F.GPIO_INT_F_LOW = false →
      flag_set flags F.GPIO_INT_F_RISING = false →
      flag_set flags F.GPIO_INT_F_FALLING = false →
      only_bit_differs m.regs
        (gpio_interrupt_type_sel mem_bus F gpio_wui_table signal flags m).regs
        (Reg.WKEN (wui_at gpio_wui_table signal).table.val
          (wui_at gpio_wui_table signal).group.val) (wui_at gpio_wui_table signal).bit.val ∧
      bit_of (gpio_interrupt_type_sel mem_bus F gpio_wui_table signal flags m).regs
        (Reg.WKEN (wui_at gpio_wui_table signal).table.val
          (wui_at gpio_wui_table signal).group.val)
        (wui_at gpio_wui_table signal).bit.val = false ∧
      (∃ v, (gpio_interrupt_type_sel mem_bus F gpio_wui_table signal flags m).log
        = m.log ++ [Event.store (Reg.WKEN (wui_at gpio_wui_table signal).table.val
            (wui_at gpio_wui_table signal).group.val) v]) ∧
      (∀ t g,
        (gpio_interrupt_type_sel mem_bus F gpio_wui_table signal flags m).regs (Reg.WKPND t g)
          = m.regs (Reg.WKPND t g) ∧
        (gpio_interrupt_type_sel mem_bus F gpio_wui_table signal flags m).regs (Reg.WKPCL t g)
          = m.regs (Reg.WKPCL t g) ∧
        (gpio_interrupt_type_sel mem_bus F gpio_wui_table signal flags m).regs (Reg.WKMOD t g)
          = m.regs (Reg.WKMOD t g) ∧
        (gpio_interrupt_type_sel mem_bus F gpio_wui_table signal flags m).regs (Reg.WKEDG t g)
          = m.regs (Reg.WKEDG t g) ∧
        (gpio_interrupt_type_sel mem_bus F gpio_wui_table signal flags m).regs (Reg.WKAEDG t g)
          = m.regs (Reg.WKAEDG t g) ∧
        (gpio_interrupt_type_sel mem_bus F gpio_wui_table signal flags m).regs (Reg.WKINEN t g)
          = m.regs (Reg.WKINEN t g))) ∧
    (gpio_wui_table.length ≤ signal →
      gpio_interrupt_type_sel mem_bus F gpio_wui_table signal flags m = m) := by
  refine ⟨?_, type_sel_out_of_range mem_bus F gpio_wui_table signal flags m⟩
  intro hs hH hL hR hF
  have hb := wui_bit_lt gpio_wui_table signal
  have hs2 : ¬ (signal ≥ gpio_wui_table.length) := by omega
  have hfr : only_bit_differs m.regs
      (gpio_interrupt_type_sel mem_bus F gpio_wui_table signal flags m).regs
      (Reg.WKEN (wui_at gpio_wui_table signal).table.val
        (wui_at gpio_wui_table signal).group.val) (wui_at gpio_wui_table signal).bit.val := by
    simp only [gpio_interrupt_type_sel, hs2, hH, hL, hR, hF, if_false, Bool.or_false,
      Bool.false_eq_true]
    intro q k hqk
    rw [bit_of_clear_bits_mem, testBit_pin_mask]
    have : ¬ (q = Reg.WKEN (wui_at gpio_wui_table signal).table.val
        (wui_at gpio_wui_table signal).group.val ∧ k < 8 ∧
        (decide (k < 8) && decide ((wui_at gpio_wui_table signal).bit.val = k)) = true) := by
      rintro ⟨h1, _, h3⟩
      simp only [Bool.and_eq_true, decide_eq_true_eq] at h3
      exact hqk ⟨h1, h3.2.symm⟩
    rw [if_neg this]
  refine ⟨hfr, ?_, ?_, ?_⟩
  · simp only [gpio_interrupt_type_sel, hs2, hH, hL, hR, hF, if_false, Bool.or_false,
      Bool.false_eq_true]
    rw [bit_of_clear_bits_mem, testBit_pin_mask]
    simp [hb]
  · simp only [gpio_interrupt_type_sel, hs2, hH, hL, hR, hF, if_false, Bool.or_false,
      Bool.false_eq_true]
    exact ⟨_, log_reg_clear_bits _ _ _ _⟩
  · intro t g
    refine ⟨?_, ?_, ?_, ?_, ?_, ?_⟩ <;>
      exact only_bit_differs_other hfr _ (by simp)

theorem type_sel_disable_does_not_acknowledge_witness :
    (0 < sample_wui_table.length ∧
      flag_set 16 sample_flag_bits.GPIO_INT_F_HIGH = false ∧
      flag_set 16 sample_flag_bits.GPIO_INT_F_LOW = false ∧
      flag_set 16 sample_flag_bits.GPIO_INT_F_RISING = false ∧
      flag_set 16 sample_flag_bits.GPIO_INT_F_FALLING = false ∧
      bit_of (gpio_interrupt_type_sel mem_bus sample_flag_bits sample_wui_table 0 16
          (Machine.start zero_regs)).regs
        (Reg.WKEN (wui_at sample_wui_table 0).table.val (wui_at sample_wui_table 0).group.val)
        (wui_at sample_wui_table 0).bit.val = false) ∧
    (sample_wui_table.length ≤ 7 ∧
      gpio_interrupt_type_sel mem_bus sample_flag_bits sample_wui_table 7 256
        (Machine.start zero_regs) = Machine.start zero_regs) :=
  ⟨⟨by decide, by decide, by decide, by decide, by decide,
    ((type_sel_disable_does_not_acknowledge sample_flag_bits sample_wui_table 0 16
      (Machine.start zero_regs)).1 (by decide) (by decide) (by decide) (by decide)
      (by decide)).2.1⟩,
   ⟨by decide,
    (type_sel_disable_does_not_acknowledge sample_flag_bits sample_wui_table 7 256
      (Machine.start zero_regs)).2 (by decide)⟩⟩


/-- C7. On an interrupt-capable signal and with neither level flag set,
`gpio_interrupt_type_sel` leaves the signal's bits as follows: with rising and
falling both set, `WKMOD` clear (edge mode) and `WKAEDG` set; with rising alone,
`WKMOD` clear, `WKAEDG` clear and `WKEDG` clear; with falling alone, `WKMOD`
clear, `WKAEDG` clear and `WKEDG` set. -/
theorem type_sel_any_edge_encoding (F : gpio_flag_bits) (gpio_wui_table : List npcx_wui)
    (signal flags : Nat) (m : Machine) (hs : signal < gpio_wui_table.length)
    (hH : flag_set flags F.GPIO_INT_F_HIGH = false)
    (hL : flag_set flags F.GPIO_INT_F_LOW = false) :
    (flag_set flags F.GPIO_INT_F_RISING = true → flag_set flags F.GPIO_INT_F_FALLING = true →
      bit_of (gpio_interrupt_type_sel mem_bus F gpio_wui_table signal flags m).regs
        (Reg.WKMOD (wui_at gpio_wui_table signal).table.val
          (wui_at gpio_wui_table signal).group.val)
        (wui_at gpio_wui_table signal).bit.val = false ∧
      bit_of (gpio_interrupt_type_sel mem_bus F gpio_wui_table signal flags m).regs
        (Reg.WKAEDG (wui_at gpio_wui_table signal).table.val
          (wui_at gpio_wui_table signal).group.val)
        (wui_at gpio_wui_table signal).bit.val = true) ∧
    (flag_set flags F.GPIO_INT_F_RISING = true → flag_set flags F.GPIO_INT_F_FALLING = false →
      bit_of (gpio_interrupt_type_sel mem_bus F gpio_wui_table signal flags m).regs
        (Reg.WKMOD (wui_at gpio_wui_table signal).table.val
          (wui_at gpio_wui_table signal).group.val)
        (wui_at gpio_wui_table signal).bit.val = false ∧
      bit_of (gpio_interrupt_type_sel mem_bus F gpio_wui_table signal flags m).regs
        (Reg.WKAEDG (wui_at gpio_wui_table signal).table.val
          (wui_at gpio_wui_table signal).group.val)
        (wui_at gpio_wui_table signal).bit.val = false ∧
      bit_of (gpio_interrupt_type_sel mem_bus F gpio_wui_table signal flags m).regs
        (Reg.WKEDG (wui_at gpio_wui_table signal).table.val
          (wui_at gpio_wui_table signal).group.val)
        (wui_at gpio_wui_table signal).bit.val = false) ∧
    (flag_set flags F.GPIO_INT_F_RISING = false → flag_set flags F.GPIO_INT_F_FALLING = true →
      bit_of (gpio_interrupt_type_sel mem_bus F gpio_wui_table signal flags m).regs
        (Reg.WKMOD (wui_at gpio_wui_table signal).table.val
          (wui_at gpio_wui_table signal).group.val)
        (wui_at gpio_wui_table signal).bit.val = false ∧
      bit_of (gpio_interrupt_type_sel mem_bus F gpio_wui_table signal flags m).regs
        (Reg.WKAEDG (wui_at gpio_wui_table signal).table.val
          (wui_at gpio_wui_table signal).group.val)
        (wui_at gpio_wui_table signal).bit.val = false ∧
      bit_of (gpio_interrupt_type_sel mem_bus F gpio_wui_table signal flags m).regs
        (Reg.WKEDG (wui_at gpio_wui_table signal).table.val
          (wui_at gpio_wui_table signal).group.val)
        (wui_at gpio_wui_table signal).bit.val = true) := by
  have hb := wui_bit_lt gpio_wui_table signal
  have hs2 : ¬ (signal ≥ gpio_wui_table.length) := by omega
  refine ⟨?_, ?_, ?_⟩
  · intro hR hF
    simp only [gpio_interrupt_type_sel, hs2, hH, hL, hR, hF, if_false, if_true,
      Bool.or_false, Bool.or_true, Bool.and_true, Bool.false_eq_true]
    simp [bit_of_set_bits_mem, bit_of_clear_bits_mem, testBit_pin_mask, hb]
  · intro hR hF
    simp only [gpio_interrupt_type_sel, hs2, hH, hL, hR, hF, if_false, if_true,
      Bool.or_false, Bool.or_true, Bool.and_true, Bool.and_false, Bool.false_eq_true]
    simp [bit_of_set_bits_mem, bit_of_clear_bits_mem, testBit_pin_mask, hb]
  · intro hR hF
    simp only [gpio_interrupt_type_sel, hs2, hH, hL, hR, hF, if_false, if_true,
      Bool.or_false, Bool.or_true, Bool.and_true, Bool.and_false, Bool.false_and,
      Bool.false_eq_true]
    simp [bit_of_set_bits_mem, bit_of_clear_bits_mem, testBit_pin_mask, hb]


theorem type_sel_any_edge_encoding_witness :
    (1 < sample_wui_table.length ∧
      flag_set 768 sample_flag_bits.GPIO_INT_F_HIGH = false ∧
      flag_set 768 sample_flag_bits.GPIO_INT_F_LOW = false ∧
      flag_set 768 sample_flag_bits.GPIO_INT_F_RISING = true ∧
      flag_set 768 sample_flag_bits.GPIO_INT_F_FALLING = true) ∧
    (bit_of (gpio_interrupt_type_sel mem_bus sample_flag_bits sample_wui_table 1 768
          (Machine.start zero_regs)).regs
        (Reg.WKMOD (wui_at sample_wui_table 1).table.val (wui_at sample_wui_table 1).group.val)
        (wui_at sample_wui_table 1).bit.val = false ∧
      bit_of (gpio_interrupt_type_sel mem_bus sample_flag_bits sample_wui_table 1 768
          (Machine.start zero_regs)).regs
        (Reg.WKAEDG (wui_at sample_wui_table 1).table.val (wui_at sample_wui_table 1).group.val)
        (wui_at sample_wui_table 1).bit.val = true) :=
  ⟨⟨by decide, by decide, by decide, by decide, by decide⟩,
   (type_sel_any_edge_encoding sample_flag_bits sample_wui_table 1 768
      (Machine.start zero_regs) (by decide) (by decide) (by decide)).1 (by decide) (by decide)⟩

/-- C8. On an interrupt-capable signal and from the same starting state, the
register states that `gpio_interrupt_type_sel` produces for a level-high request
and for a level-low request both have the signal's `WKMOD` bit set (level
mode); the signal's `WKEDG` bit is clear for level-high and set for level-low;
and the two states agree on every other bit of every register. -/
theorem type_sel_level_encoding (F : gpio_flag_bits) (gpio_wui_table : List npcx_wui)
    (signal flags_high flags_low : Nat) (m : Machine) (hs : signal < gpio_wui_table.length)
    (hH : flag_set flags_high F.GPIO_INT_F_HIGH = true)
    (hL1 : flag_set flags_low F.GPIO_INT_F_HIGH = false)
    (hL2 : flag_set flags_low F.GPIO_INT_F_LOW = true) :
    bit_of (gpio_interrupt_type_sel mem_bus F gpio_wui_table signal flags_high m).regs
      (Reg.WKMOD (wui_at gpio_wui_table signal).table.val
        (wui_at gpio_wui_table signal).group.val)
      (wui_at gpio_wui_table signal).bit.val = true ∧
    bit_of (gpio_interrupt_type_sel mem_bus F gpio_wui_table signal flags_low m).regs
      (Reg.WKMOD (wui_at gpio_wui_table signal).table.val
        (wui_at gpio_wui_table signal).group.val)
      (wui_at gpio_wui_table signal).bit.val = true ∧
    bit_of (gpio_interrupt_type_sel mem_bus F gpio_wui_table signal flags_high m).regs
      (Reg.WKEDG (wui_at gpio_wui_table signal).table.val
        (wui_at gpio_wui_table signal).group.val)
      (wui_at gpio_wui_table signal).bit.val = false ∧
    bit_of (gpio_interrupt_type_sel mem_bus F gpio_wui_table signal flags_low m).regs
      (Reg.WKEDG (wui_at gpio_wui_table signal).table.val
        (wui_at gpio_wui_table signal).group.val)
      (wui_at gpio_wui_table signal).bit.val = true ∧
    only_bit_differs
      (gpio_interrupt_type_sel mem_bus F gpio_wui_table signal flags_high m).regs
      (gpio_interrupt_type_sel mem_bus F gpio_wui_table signal flags_low m).regs
      (Reg.WKEDG (wui_at gpio_wui_table signal).table.val
        (wui_at gpio_wui_table signal).group.val)
      (wui_at gpio_wui_table signal).bit.val := by
  have hb := wui_bit_lt gpio_wui_table signal
  have hs2 : ¬ (signal ≥ gpio_wui_table.length) := by omega
  simp only [gpio_interrupt_type_sel, hs2, hH, hL1, hL2, if_false, if_true,
    Bool.or_false, Bool.or_true, Bool.true_or, Bool.false_eq_true]
  refine ⟨?_, ?_, ?_, ?_, ?_⟩
  · simp [bit_of_set_bits_mem, bit_of_clear_bits_mem, testBit_pin_mask, hb]
  · simp [bit_of_set_bits_mem, bit_of_clear_bits_mem, testBit_pin_mask, hb]
  · simp [bit_of_set_bits_mem, bit_of_clear_bits_mem, testBit_pin_mask, hb]
  · simp [bit_of_set_bits_mem, bit_of_clear_bits_mem, testBit_pin_mask, hb]
  · intro q k hqk
    simp only [bit_of_set_bits_mem, bit_of_clear_bits_mem, testBit_pin_mask]
    by_cases hq : q = Reg.WKEDG (wui_at gpio_wui_table signal).table.val
        (wui_at gpio_wui_table signal).group.val
    · have hk : ¬ ((wui_at gpio_wui_table signal).bit.val = k) := fun h => hqk ⟨hq, h.symm⟩
      subst hq
      simp [hk]
    · simp [hq]

theorem type_sel_level_encoding_witness :
    (0 < sample_wui_table.length ∧
      flag_set 1024 sample_flag_bits.GPIO_INT_F_HIGH = true ∧
      flag_set 2048 sample_flag_bits.GPIO_INT_F_HIGH = false ∧
      flag_set 2048 sample_flag_bits.GPIO_INT_F_LOW = true) ∧
    only_bit_differs
      (gpio_interrupt_type_sel mem_bus sample_flag_bits sample_wui_table 0 1024
        (Machine.start zero_regs)).regs
      (gpio_interrupt_type_sel mem_bus sample_flag_bits sample_wui_table 0 2048
        (Machine.start zero_regs)).regs
      (Reg.WKEDG (wui_at sample_wui_table 0).table.val (wui_at sample_wui_table 0).group.val)
      (wui_at sample_wui_table 0).bit.val :=
  ⟨⟨by decide, by decide, by decide, by decide⟩,
   (type_sel_level_encoding sample_flag_bits sample_wui_table 0 1024 2048
      (Machine.start zero_regs) (by decide) (by decide) (by decide) (by decide)).2.2.2.2⟩


/-- C9, counterexample.  Signal 0 of `sample_wui_table`, flags rising only,
every register zero at entry: after `gpio_interrupt_type_sel` the signal's bit
of `WKEN`, the register that `gpio_interrupt` reads and that the no-trigger
branch clears, is still clear (on either bus), while its `WKINEN` bit is set. -/
theorem type_sel_trigger_leaves_WKEN_clear :
    flag_set 256 sample_flag_bits.GPIO_INT_F_RISING = true ∧
    bit_of (gpio_interrupt_type_sel mem_bus sample_flag_bits sample_wui_table 0 256
      (Machine.start zero_regs)).regs (Reg.WKEN 0 2) 3 = false ∧
    bit_of (gpio_interrupt_type_sel miwu_bus sample_flag_bits sample_wui_table 0 256
      (Machine.start zero_regs)).regs (Reg.WKEN 0 2) 3 = false ∧
    bit_of (gpio_interrupt_type_sel mem_bus sample_flag_bits sample_wui_table 0 256
      (Machine.start zero_regs)).regs (Reg.WKINEN 0 2) 3 = true := by
  decide

theorem type_sel_trigger_shape (bus : Bus) (F : gpio_flag_bits) (tbl : List npcx_wui)
    (signal flags : Nat) (m : Machine) (hs : signal < tbl.length)
    (ht : (flag_set flags F.GPIO_INT_F_RISING || flag_set flags F.GPIO_INT_F_FALLING ||
      flag_set flags F.GPIO_INT_F_HIGH || flag_set flags F.GPIO_INT_F_LOW) = true) :
    ∃ m2 : Machine,
      gpio_interrupt_type_sel bus F tbl signal flags m
        = reg_set_bits bus
            (Reg.WKPCL (wui_at tbl signal).table.val (wui_at tbl signal).group.val)
            ((1 <<< (wui_at tbl signal).bit.val) % 256)
            (reg_set_bits bus
              (Reg.WKINEN (wui_at tbl signal).table.val (wui_at tbl signal).group.val)
              ((1 <<< (wui_at tbl signal).bit.val) % 256) m2) ∧
      (∃ pre, m2.log = m.log ++ pre) ∧
      (bus = mem_bus → ∀ t g, m2.regs (Reg.WKEN t g) = m.regs (Reg.WKEN t g)) := by
  have hs2 : ¬ (signal ≥ tbl.length) := by omega
  have hupd : ∀ (r : Reg) (v : Nat) (x : Machine) (t g : Nat), r ≠ Reg.WKEN t g →
      (reg_write mem_bus r v x).regs (Reg.WKEN t g) = x.regs (Reg.WKEN t g) := by
    intro r v x t g hr
    rw [regs_reg_write_mem, Function.update_noteq (Ne.symm hr)]
  cases hH : flag_set flags F.GPIO_INT_F_HIGH <;>
  cases hL : flag_set flags F.GPIO_INT_F_LOW <;>
  cases hR : flag_set flags F.GPIO_INT_F_RISING <;>
  cases hF : flag_set flags F.GPIO_INT_F_FALLING <;>
  simp only [hH, hL, hR, hF, Bool.or_false, Bool.or_true, Bool.false_eq_true] at ht <;>
  simp only [gpio_interrupt_type_sel, hs2, hH, hL, hR, hF, if_false, if_true,
    Bool.or_false, Bool.or_true, Bool.true_or, Bool.and_true, Bool.and_false,
    Bool.false_and, Bool.or_self, Bool.and_self, Bool.false_eq_true] <;>
  refine ⟨_, rfl, ?_, ?_⟩ <;>
  first
    | exact ⟨_, by simp only [reg_set_bits, reg_clear_bits, reg_write, List.append_assoc]; rfl⟩
    | (intro hbus t g
       subst hbus
       simp only [reg_set_bits, reg_clear_bits]
       repeat rw [hupd _ _ _ _ _ (by simp)])


theorem testBit_or_pin_mask (x b : Nat) (hb : b < 8) :
    ((x ||| ((1 <<< b) % 256)) % 256).testBit b = true := by
  have h : ((x ||| ((1 <<< b) % 256)) % 256).testBit b
      = (decide (b < 8) && (x ||| ((1 <<< b) % 256)).testBit b) :=
    Nat.testBit_mod_two_pow _ 8 b
  rw [h, Nat.testBit_or, testBit_pin_mask]
  simp [hb]

/-- C9, as amended.  On an interrupt-capable signal and with at least one
trigger flag set, `gpio_interrupt_type_sel` leaves the signal's bit set in
`WKINEN` (the wake-up input enable), leaves every `WKEN` register as it was,
and ends with a store to `WKINEN` followed by a store to `WKPCL` of the signal's
table and group, both with the signal's bit set, whatever the state at entry. -/
theorem type_sel_trigger_enables_input (F : gpio_flag_bits) (gpio_wui_table : List npcx_wui)
    (signal flags : Nat) (m : Machine) (hs : signal < gpio_wui_table.length)
    (ht : (flag_set flags F.GPIO_INT_F_RISING || flag_set flags F.GPIO_INT_F_FALLING ||
      flag_set flags F.GPIO_INT_F_HIGH || flag_set flags F.GPIO_INT_F_LOW) = true) :
    bit_of (gpio_interrupt_type_sel mem_bus F gpio_wui_table signal flags m).regs
      (Reg.WKINEN (wui_at gpio_wui_table signal).table.val
        (wui_at gpio_wui_table signal).group.val)
      (wui_at gpio_wui_table signal).bit.val = true ∧
    (∀ t g, (gpio_interrupt_type_sel mem_bus F gpio_wui_table signal flags m).regs (Reg.WKEN t g)
      = m.regs (Reg.WKEN t g)) ∧
    ∃ pre v1 v2,
      (gpio_interrupt_type_sel mem_bus F gpio_wui_table signal flags m).log
        = m.log ++ pre ++
          [Event.store (Reg.WKINEN (wui_at gpio_wui_table signal).table.val
              (wui_at gpio_wui_table signal).group.val) v1,
            Event.store (Reg.WKPCL (wui_at gpio_wui_table signal).table.val
              (wui_at gpio_wui_table signal).group.val) v2] ∧
      v1.testBit (wui_at gpio_wui_table signal).bit.val = true ∧
      v2.testBit (wui_at gpio_wui_table signal).bit.val = true := by
  have hb := wui_bit_lt gpio_wui_table signal
  obtain ⟨m2, heq, ⟨pre, hpre⟩, hwken⟩ :=
    type_sel_trigger_shape mem_bus F gpio_wui_table signal flags m hs ht
  rw [heq]
  refine ⟨?_, ?_, ?_⟩
  · simp [bit_of_set_bits_mem, testBit_pin_mask, hb]
  · intro t g
    rw [← hwken rfl t g]
    simp only [reg_set_bits, regs_reg_write_mem]
    rw [Function.update_noteq (by simp), Function.update_noteq (by simp)]
  · rw [log_reg_set_bits, log_reg_set_bits, hpre]
    refine ⟨pre,
      (reg_read m2 (Reg.WKINEN (wui_at gpio_wui_table signal).table.val
        (wui_at gpio_wui_table signal).group.val)
        ||| (1 <<< (wui_at gpio_wui_table signal).bit.val) % 256) % 256,
      (reg_read (reg_set_bits mem_bus (Reg.WKINEN (wui_at gpio_wui_table signal).table.val
          (wui_at gpio_wui_table signal).group.val)
          ((1 <<< (wui_at gpio_wui_table signal).bit.val) % 256) m2)
        (Reg.WKPCL (wui_at gpio_wui_table signal).table.val
          (wui_at gpio_wui_table signal).group.val)
        ||| (1 <<< (wui_at gpio_wui_table signal).bit.val) % 256) % 256, ?_, ?_, ?_⟩
    · simp only [List.append_assoc, List.singleton_append]
    · exact testBit_or_pin_mask _ _ hb
    · exact testBit_or_pin_mask _ _ hb

theorem type_sel_trigger_enables_input_witness :
    (0 < sample_wui_table.length ∧
      (flag_set 256 sample_flag_bits.GPIO_INT_F_RISING ||
        flag_set 256 sample_flag_bits.GPIO_INT_F_FALLING ||
        flag_set 256 sample_flag_bits.GPIO_INT_F_HIGH ||
        flag_set 256 sample_flag_bits.GPIO_INT_F_LOW) = true) ∧
    bit_of (gpio_interrupt_type_sel mem_bus sample_flag_bits sample_wui_table 0 256
        (Machine.start zero_regs)).regs
      (Reg.WKINEN (wui_at sample_wui_table 0).table.val (wui_at sample_wui_table 0).group.val)
      (wui_at sample_wui_table 0).bit.val = true :=
  ⟨⟨by decide, by decide⟩,
   (type_sel_trigger_enables_input sample_flag_bits sample_wui_table 0 256
      (Machine.start zero_regs) (by decide) (by decide)).1⟩


/-! ## Alternate-function selection -/

theorem assigns_bits_id : assigns_bits (fun m => m) :=
  fun _ _ => Or.inl (fun _ => rfl)

theorem assigns_bits_comp {f g : Machine → Machine} (hf : assigns_bits f)
    (hg : assigns_bits g) : assigns_bits (fun m => g (f m)) := by
  intro r k
  rcases hg r k with hg1 | ⟨c, hc⟩
  · rcases hf r k with hf1 | ⟨c, hc⟩
    · exact Or.inl (fun m => by rw [hg1, hf1])
    · exact Or.inr ⟨c, fun m => by rw [hg1, hc]⟩
  · exact Or.inr ⟨c, fun m => hc (f m)⟩

theorem assigns_bits_idem {f : Machine → Machine} (hf : assigns_bits f) (m : Machine) :
    (f (f m)).regs = (f m).regs := by
  apply regs_ext_bits
  intro r k
  rcases hf r k with h1 | ⟨c, hc⟩
  · exact h1 (f m)
  · rw [hc, hc]

theorem assigns_bits_set_bits (r : Reg) (mask : Nat) :
    assigns_bits (reg_set_bits mem_bus r mask) := by
  intro q k
  by_cases h : q = r ∧ k < 8 ∧ mask.testBit k = true
  · exact Or.inr ⟨true, fun m => by rw [bit_of_set_bits_mem, if_pos h]⟩
  · exact Or.inl (fun m => by rw [bit_of_set_bits_mem, if_neg h])

theorem assigns_bits_clear_bits (r : Reg) (mask : Nat) :
    assigns_bits (reg_clear_bits mem_bus r mask) := by
  intro q k
  by_cases h : q = r ∧ k < 8 ∧ mask.testBit k = true
  · exact Or.inr ⟨false, fun m => by rw [bit_of_clear_bits_mem, if_pos h]⟩
  · exact Or.inl (fun m => by rw [bit_of_clear_bits_mem, if_neg h])

theorem assigns_bits_alt_sel (tbl : List gpio_alt_map) (port bit : Nat) (func : Int) :
    assigns_bits (fun m => (gpio_alt_sel mem_bus tbl port bit func m).2) := by
  induction tbl with
  | nil => exact assigns_bits_id
  | cons map rest ih =>
    unfold gpio_alt_sel
    by_cases hm : gpio_match port ((1 <<< bit) % 256) map.gpio = true
    · by_cases hx : ((decide (func < 0)) != map.alt.inverted) = true
      · simp only [hm, hx, if_true]
        exact assigns_bits_clear_bits _ _
      · simp only [hm, hx, if_true, if_false]
        exact assigns_bits_set_bits _ _
    · simp only [hm, if_false]
      exact ih

theorem assigns_bits_foldl (step : Machine → Nat → Machine)
    (hstep : ∀ pin, assigns_bits (fun m => step m pin)) (pins : List Nat) :
    assigns_bits (fun m => pins.foldl step m) := by
  induction pins with
  | nil => exact assigns_bits_id
  | cons pin rest ih =>
    simp only [List.foldl_cons]
    exact assigns_bits_comp (hstep pin) ih

theorem assigns_bits_set_alternate_function (tbl : List gpio_alt_map) (port mask : Nat)
    (func : Int) :
    assigns_bits (gpio_set_alternate_function mem_bus tbl port mask func) := by
  unfold gpio_set_alternate_function
  apply assigns_bits_foldl
  intro pin
  by_cases h : mask &&& (1 <<< pin) ≠ 0
  · simp only [if_pos h]
    exact assigns_bits_alt_sel tbl (port % 256) pin (to_int8 func)
  · simp only [if_neg h]
    exact assigns_bits_id

/-- C5. For every table, register state, port, bit, mask and func, applying
`gpio_alt_sel(port, bit, func)` twice gives the same register state as applying
it once, and likewise `gpio_set_alternate_function(port, mask, func)`. -/
theorem alt_sel_idempotent (gpio_alt_table : List gpio_alt_map) (port bit mask : Nat)
    (func8 : Int) (func : Int) (m : Machine) :
    (gpio_alt_sel mem_bus gpio_alt_table port bit func8
        (gpio_alt_sel mem_bus gpio_alt_table port bit func8 m).2).2.regs
      = (gpio_alt_sel mem_bus gpio_alt_table port bit func8 m).2.regs ∧
    (gpio_set_alternate_function mem_bus gpio_alt_table port mask func
        (gpio_set_alternate_function mem_bus gpio_alt_table port mask func m)).regs
      = (gpio_set_alternate_function mem_bus gpio_alt_table port mask func m).regs :=
  ⟨assigns_bits_idem (assigns_bits_alt_sel gpio_alt_table port bit func8) m,
   assigns_bits_idem (assigns_bits_set_alternate_function gpio_alt_table port mask func) m⟩

/-- C6, counterexample.  Port 11, mask `1 << 2` (a pin with a row in
`sample_alt_table`), every register zero at entry: `func = 128` is non-negative,
yet after `gpio_set_alternate_function` the pin's `DEVALT` bit is clear as for
`func = -1`, and the register state differs from that of `func = 0`. -/
theorem set_alternate_function_func_128 :
    (0 : Int) ≤ 128 ∧
    bit_of (gpio_set_alternate_function mem_bus sample_alt_table 11 4 128
      (Machine.start zero_regs)).regs (Reg.DEVALT 2) 1 = false ∧
    bit_of (gpio_set_alternate_function mem_bus sample_alt_table 11 4 (-1)
      (Machine.start zero_regs)).regs (Reg.DEVALT 2) 1 = false ∧
    bit_of (gpio_set_alternate_function mem_bus sample_alt_table 11 4 0
      (Machine.start zero_regs)).regs (Reg.DEVALT 2) 1 = true ∧
    (gpio_set_alternate_function mem_bus sample_alt_table 11 4 128
        (Machine.start zero_regs)).regs
      ≠ (gpio_set_alternate_function mem_bus sample_alt_table 11 4 0
        (Machine.start zero_regs)).regs := by
  refine ⟨by decide, by decide, by decide, by decide, ?_⟩
  intro h
  have hbit := congrArg (fun s => bit_of s (Reg.DEVALT 2) 1) h
  revert hbit
  decide

theorem alt_sel_congr_sign (bus : Bus) (tbl : List gpio_alt_map) (port bit : Nat)
    (f1 f2 : Int) (m : Machine) (h : decide (f1 < 0) = decide (f2 < 0)) :
    gpio_alt_sel bus tbl port bit f1 m = gpio_alt_sel bus tbl port bit f2 m := by
  induction tbl with
  | nil => rfl
  | cons map rest ih =>
    unfold gpio_alt_sel
    rw [h, ih]

theorem set_alternate_function_congr (bus : Bus) (tbl : List gpio_alt_map) (port mask : Nat)
    (f1 f2 : Int) (m : Machine) (h : decide (to_int8 f1 < 0) = decide (to_int8 f2 < 0)) :
    gpio_set_alternate_function bus tbl port mask f1 m
      = gpio_set_alternate_function bus tbl port mask f2 m := by
  unfold gpio_set_alternate_function
  congr 1
  funext acc pin
  rw [alt_sel_congr_sign bus tbl (port % 256) pin (to_int8 f1) (to_int8 f2) acc h]

theorem to_int8_of_in_range (x : Int) (hlo : -128 ≤ x) (hhi : x ≤ 127) : to_int8 x = x := by
  unfold to_int8
  omega

/-- C6, as amended.  For every bus, table, port, mask, machine state and every
`func` in the range of `int8_t` (-128 .. 127), `gpio_set_alternate_function`
behaves as for `func = -1` when `func < 0` and as for `func = 0` when
`func >= 0`: same registers, same stores. -/
theorem set_alternate_function_sign_convention (bus : Bus) (gpio_alt_table : List gpio_alt_map)
    (port mask : Nat) (func : Int) (m : Machine) (hlo : -128 ≤ func) (hhi : func ≤ 127) :
    (func < 0 →
      gpio_set_alternate_function bus gpio_alt_table port mask func m
        = gpio_set_alternate_function bus gpio_alt_table port mask (-1) m) ∧
    (0 ≤ func →
      gpio_set_alternate_function bus gpio_alt_table port mask func m
        = gpio_set_alternate_function bus gpio_alt_table port mask 0 m) := by
  have h8 := to_int8_of_in_range func hlo hhi
  constructor
  · intro hneg
    apply set_alternate_function_congr
    rw [h8]
    have h1 : to_int8 (-1) = -1 := by decide
    rw [h1]
    simp [hneg]
  · intro hpos
    apply set_alternate_function_congr
    rw [h8]
    have h0 : to_int8 0 = 0 := by decide
    rw [h0]
    simp [hpos]

theorem set_alternate_function_sign_convention_witness :
    ((-128 : Int) ≤ -7 ∧ (-7 : Int) ≤ 127 ∧ (-7 : Int) < 0 ∧
      gpio_set_alternate_function mem_bus sample_alt_table 11 4 (-7) (Machine.start zero_regs)
        = gpio_set_alternate_function mem_bus sample_alt_table 11 4 (-1)
            (Machine.start zero_regs)) ∧
    ((-128 : Int) ≤ 127 ∧ (127 : Int) ≤ 127 ∧ (0 : Int) ≤ 127 ∧
      gpio_set_alternate_function mem_bus sample_alt_table 11 4 127 (Machine.start zero_regs)
        = gpio_set_alternate_function mem_bus sample_alt_table 11 4 0
            (Machine.start zero_regs)) :=
  ⟨⟨by decide, by decide, by decide,
    (set_alternate_function_sign_convention mem_bus sample_alt_table 11 4 (-7)
      (Machine.start zero_regs) (by decide) (by decide)).1 (by decide)⟩,
   ⟨by decide, by decide, by decide,
    (set_alternate_function_sign_convention mem_bus sample_alt_table 11 4 127
      (Machine.start zero_regs) (by decide) (by decide)).2 (by decide)⟩⟩


/-! ## Interrupt dispatch -/

theorem calls_append (l1 l2 : List Event) : calls (l1 ++ l2) = calls l1 ++ calls l2 := by
  induction l1 with
  | nil => rfl
  | cons e rest ih =>
    cases e with
    | store r v => simpa [calls] using ih
    | call i => simp [calls, ih]

theorem scan_log (bus : Bus) (handlers : Nat → Regs → Regs) (table group : Nat)
    (rows : List npcx_wui) (i wui_mask : Nat) (m : Machine) :
    (gpio_interrupt_scan bus handlers table group rows i wui_mask m).2.log
      = m.log ++ scan_events table group rows i wui_mask := by
  induction rows generalizing i wui_mask m with
  | nil => simp [gpio_interrupt_scan, scan_events]
  | cons row rest ih =>
    unfold gpio_interrupt_scan scan_events
    by_cases h0 : wui_mask = 0
    · simp [h0]
    · by_cases hm : row.table.val = table ∧ row.group.val = group
          ∧ wui_mask &&& ((1 <<< row.bit.val) % 256) ≠ 0
      · simp only [h0, if_false, if_pos hm]
        rw [ih]
        simp [call_handler, reg_write]
      · simp only [h0, if_false, if_neg hm]
        rw [ih]

theorem testBit_mask_clear (wui_mask b c : Nat) (hc : c < 8) :
    (wui_mask &&& lnot8 ((1 <<< b) % 256)).testBit c
      = (wui_mask.testBit c && !decide (b = c)) := by
  rw [Nat.testBit_and, testBit_lnot8, testBit_pin_mask]
  simp [hc]

theorem mem_calls_scan (table group : Nat) (rows : List npcx_wui) (i wui_mask k : Nat) :
    k ∈ calls (scan_events table group rows i wui_mask) ↔
      ∃ j w, k = i + j ∧ rows[j]? = some w ∧ w.table.val = table ∧ w.group.val = group ∧
        wui_mask.testBit w.bit.val = true ∧
        ∀ j2 w2, j2 < j → rows[j2]? = some w2 →
          ¬ (w2.table.val = table ∧ w2.group.val = group ∧ w2.bit = w.bit) := by
  induction rows generalizing i wui_mask with
  | nil => simp [scan_events, calls]
  | cons row rest ih =>
    unfold scan_events
    have hpin := and_pin_ne_zero wui_mask row.bit.val row.bit.isLt
    by_cases h0 : wui_mask = 0
    · subst h0
      simp [calls]
    · by_cases hm : row.table.val = table ∧ row.group.val = group
          ∧ wui_mask &&& ((1 <<< row.bit.val) % 256) ≠ 0
      · simp only [h0, if_false, if_pos hm, calls, List.mem_cons]
        rw [ih]
        constructor
        · rintro (rfl | ⟨j, w, rfl, hw, ht, hg, hb, hfirst⟩)
          · refine ⟨0, row, rfl, List.getElem?_cons_zero, hm.1, hm.2.1, hpin.1 hm.2.2, ?_⟩
            intro j2 w2 hj2
            omega
          · rw [testBit_mask_clear _ _ _ w.bit.isLt] at hb
            simp only [Bool.and_eq_true, Bool.not_eq_true', decide_eq_false_iff_not] at hb
            refine ⟨j + 1, w, by omega, by simpa using hw, ht, hg, hb.1, ?_⟩
            intro j2 w2 hj2 hw2
            cases j2 with
            | zero =>
              simp only [List.getElem?_cons_zero, Option.some.injEq] at hw2
              subst hw2
              rintro ⟨_, _, h3⟩
              exact hb.2 (congrArg Fin.val h3)
            | succ j3 =>
              exact hfirst j3 w2 (by omega) (by simpa using hw2)
        · rintro ⟨j, w, rfl, hw, ht, hg, hb, hfirst⟩
          cases j with
          | zero => left; rfl
          | succ j =>
            right
            have hne : ¬ (row.bit.val = w.bit.val) := by
              intro hbw
              exact hfirst 0 row (by omega) List.getElem?_cons_zero ⟨hm.1, hm.2.1, Fin.ext hbw⟩
            refine ⟨j, w, by omega, by simpa using hw, ht, hg, ?_, ?_⟩
            · rw [testBit_mask_clear _ _ _ w.bit.isLt]
              simp [hb, hne]
            · intro j2 w2 hj2 hw2
              exact hfirst (j2 + 1) w2 (by omega) (by simpa using hw2)
      · simp only [h0, if_false, if_neg hm]
        rw [ih]
        constructor
        · rintro ⟨j, w, rfl, hw, ht, hg, hb, hfirst⟩
          refine ⟨j + 1, w, by omega, by simpa using hw, ht, hg, hb, ?_⟩
          intro j2 w2 hj2 hw2
          cases j2 with
          | zero =>
            simp only [List.getElem?_cons_zero, Option.some.injEq] at hw2
            subst hw2
            rintro ⟨h1, h2, h3⟩
            apply hm
            refine ⟨h1, h2, hpin.2 ?_⟩
            rw [h3]
            exact hb
          | succ j3 =>
            exact hfirst j3 w2 (by omega) (by simpa using hw2)
        · rintro ⟨j, w, rfl, hw, ht, hg, hb, hfirst⟩
          cases j with
          | zero =>
            simp only [List.getElem?_cons_zero, Option.some.injEq] at hw
            subst hw
            exact absurd ⟨ht, hg, hpin.2 hb⟩ hm
          | succ j =>
            refine ⟨j, w, by omega, by simpa using hw, ht, hg, hb, ?_⟩
            intro j2 w2 hj2 hw2
            exact hfirst (j2 + 1) w2 (by omega) (by simpa using hw2)

theorem le_of_mem_calls_scan (table group : Nat) (rows : List npcx_wui) (i wui_mask k : Nat)
    (h : k ∈ calls (scan_events table group rows i wui_mask)) : i ≤ k := by
  obtain ⟨j, _, hk, _⟩ := (mem_calls_scan table group rows i wui_mask k).1 h
  omega

theorem calls_scan_increasing (table group : Nat) (rows : List npcx_wui) (i wui_mask : Nat) :
    List.Pairwise (fun a b => a < b) (calls (scan_events table group rows i wui_mask)) := by
  induction rows generalizing i wui_mask with
  | nil => simp [scan_events, calls]
  | cons row rest ih =>
    unfold scan_events
    by_cases h0 : wui_mask = 0
    · simp [h0, calls]
    · by_cases hm : row.table.val = table ∧ row.group.val = group
          ∧ wui_mask &&& ((1 <<< row.bit.val) % 256) ≠ 0
      · simp only [h0, if_false, if_pos hm, calls, List.pairwise_cons]
        refine ⟨?_, ih _ _⟩
        intro k hk
        have := le_of_mem_calls_scan _ _ _ _ _ _ hk
        omega
      · simp only [h0, if_false, if_neg hm]
        exact ih _ _


theorem calls_interrupt (bus : Bus) (handlers : Nat → Regs → Regs) (tbl : List npcx_wui)
    (wui_int : npcx_wui) (m : Machine) :
    calls (gpio_interrupt bus tbl handlers wui_int m).log
      = calls m.log ++ interrupt_calls tbl wui_int m.regs := by
  unfold gpio_interrupt interrupt_calls
  simp only [scan_log, calls_append]
  rfl

theorem wui_eq_iff (a b : npcx_wui) :
    a = b ↔ a.table.val = b.table.val ∧ a.group.val = b.group.val ∧ a.bit = b.bit := by
  cases a
  cases b
  simp [Fin.ext_iff]

theorem getElem?_eq_wui_at (tbl : List npcx_wui) (k : Nat) (hk : k < tbl.length) :
    tbl[k]? = some (wui_at tbl k) := by
  unfold wui_at
  rw [List.getD_eq_getElem?_getD, List.getElem?_eq_getElem hk]
  rfl

theorem mem_interrupt_calls (tbl : List npcx_wui) (wui_int : npcx_wui) (s : Regs) (k : Nat) :
    k ∈ interrupt_calls tbl wui_int s ↔
      k < tbl.length ∧ (wui_at tbl k).table = wui_int.table ∧
        (wui_at tbl k).group = wui_int.group ∧
        bit_of s (Reg.WKPND wui_int.table.val wui_int.group.val) (wui_at tbl k).bit.val = true ∧
        bit_of s (Reg.WKEN wui_int.table.val wui_int.group.val) (wui_at tbl k).bit.val = true ∧
        ∀ k2, k2 < k → wui_at tbl k2 ≠ wui_at tbl k := by
  unfold interrupt_calls
  rw [mem_calls_scan]
  constructor
  · rintro ⟨j, w, hk, hw, ht, hg, hb, hfirst⟩
    have hj : j < tbl.length := by
      by_contra hcon
      rw [List.getElem?_eq_none (by omega)] at hw
      exact absurd hw (by simp)
    have hkj : k = j := by omega
    subst hkj
    have hwk : w = wui_at tbl k := by
      have := getElem?_eq_wui_at tbl k hj
      rw [hw] at this
      exact Option.some.inj this
    subst hwk
    rw [Nat.testBit_and, Bool.and_eq_true] at hb
    refine ⟨hj, Fin.ext ht, Fin.ext hg, hb.1, hb.2, ?_⟩
    intro k2 hk2 heq
    apply hfirst k2 (wui_at tbl k2) hk2 (getElem?_eq_wui_at tbl k2 (by omega))
    rw [heq]
    exact ⟨ht, hg, rfl⟩
  · rintro ⟨hk, ht, hg, hp, he, hfirst⟩
    refine ⟨k, wui_at tbl k, by omega, getElem?_eq_wui_at tbl k hk, congrArg Fin.val ht,
      congrArg Fin.val hg, ?_, ?_⟩
    · rw [Nat.testBit_and, Bool.and_eq_true]
      exact ⟨hp, he⟩
    · intro j2 w2 hj2 hw2 hcon
      have hw2k : w2 = wui_at tbl j2 := by
        have := getElem?_eq_wui_at tbl j2 (by omega)
        rw [hw2] at this
        exact Option.some.inj this
      subst hw2k
      apply hfirst j2 hj2
      rw [wui_eq_iff]
      exact ⟨by rw [hcon.1, ht], by rw [hcon.2.1, hg], hcon.2.2⟩

theorem interrupt_calls_increasing (tbl : List npcx_wui) (wui_int : npcx_wui) (s : Regs) :
    List.Pairwise (fun a b => a < b) (interrupt_calls tbl wui_int s) :=
  calls_scan_increasing _ _ _ _ _

theorem interrupt_calls_nodup (tbl : List npcx_wui) (wui_int : npcx_wui) (s : Regs) :
    (interrupt_calls tbl wui_int s).Nodup :=
  (interrupt_calls_increasing tbl wui_int s).imp (fun h => Nat.ne_of_lt h)


theorem increasing_not_before (l : List Nat) (hp : l.Pairwise (fun a b => a < b)) (A B : Nat)
    (hAB : A < B) (l1 l2 : List Nat) (hl : l = l1 ++ B :: l2) : A ∉ l2 := by
  intro hA
  rw [hl, List.pairwise_append] at hp
  have h := (List.pairwise_cons.1 hp.2.1).1 A hA
  omega

theorem increasing_split (l : List Nat) (hp : l.Pairwise (fun a b => a < b)) (A B : Nat)
    (hAB : A < B) (hA : A ∈ l) (hB : B ∈ l) :
    ∃ l1 l2 l3, l = l1 ++ A :: l2 ++ B :: l3 := by
  obtain ⟨l1, r, rfl⟩ := List.append_of_mem hA
  rw [List.pairwise_append] at hp
  rcases List.mem_append.1 hB with h1 | h2
  · have := hp.2.2 B h1 A (List.mem_cons_self A r)
    omega
  · rcases List.mem_cons.1 h2 with h3 | h4
    · omega
    · obtain ⟨l2, l3, rfl⟩ := List.append_of_mem h4
      exact ⟨l1, l2, l3, by simp⟩

/-- C3, counterexample.  In `shadowed_wui_table` signals 2 and 5 address
different bits (1 and 4) of the pair `(table 0, group 2)`, both bits are pending
and enabled, and signal 0 addresses the same bit as signal 2: `gpio_interrupt`
calls the handlers 0, 1, 3, 4, 5 in this order, so the handler of signal 5 is
called and the handler of signal 2 is not called at all. -/
theorem dispatch_shadowed_signal_not_called :
    wui_at shadowed_wui_table 2 = ⟨0, 2, 1⟩ ∧ wui_at shadowed_wui_table 5 = ⟨0, 2, 4⟩ ∧
    bit_of all_pending_regs (Reg.WKPND 0 2) 1 = true ∧
    bit_of all_pending_regs (Reg.WKEN 0 2) 1 = true ∧
    bit_of all_pending_regs (Reg.WKPND 0 2) 4 = true ∧
    bit_of all_pending_regs (Reg.WKEN 0 2) 4 = true ∧
    calls (gpio_interrupt miwu_bus shadowed_wui_table idle_handlers ⟨0, 2, 0⟩
      (Machine.start all_pending_regs)).log = [0, 1, 3, 4, 5] := by
  decide

/-- C3, as amended.  The handler calls that one run of `gpio_interrupt` makes
are strictly increasing in signal index.  For signals `A < B` (such as 2 and 5)
that address different bits of the pair being served, both bits pending and
enabled at entry: the handler of `B` is never called before the handler of `A`;
and when no lower-index row addresses the bit of `A` or the bit of `B`, both
handlers are called, `A` before `B`. -/
theorem dispatch_scan_order (bus : Bus) (gpio_wui_table : List npcx_wui)
    (gpio_irq_handlers : Nat → Regs → Regs) (wui_int : npcx_wui) (s : Regs) :
    List.Pairwise (fun a b => a < b)
      (calls (gpio_interrupt bus gpio_wui_table gpio_irq_handlers wui_int
        (Machine.start s)).log) ∧
    ∀ A B, A < B → B < gpio_wui_table.length →
      (wui_at gpio_wui_table A).table = wui_int.table →
      (wui_at gpio_wui_table A).group = wui_int.group →
      (wui_at gpio_wui_table B).table = wui_int.table →
      (wui_at gpio_wui_table B).group = wui_int.group →
      (wui_at gpio_wui_table A).bit ≠ (wui_at gpio_wui_table B).bit →
      bit_of s (Reg.WKPND wui_int.table.val wui_int.group.val)
        (wui_at gpio_wui_table A).bit.val = true →
      bit_of s (Reg.WKEN wui_int.table.val wui_int.group.val)
        (wui_at gpio_wui_table A).bit.val = true →
      bit_of s (Reg.WKPND wui_int.table.val wui_int.group.val)
        (wui_at gpio_wui_table B).bit.val = true →
      bit_of s (Reg.WKEN wui_int.table.val wui_int.group.val)
        (wui_at gpio_wui_table B).bit.val = true →
      (∀ l1 l2, calls (gpio_interrupt bus gpio_wui_table gpio_irq_handlers wui_int
          (Machine.start s)).log = l1 ++ B :: l2 → A ∉ l2) ∧
      ((∀ k, k < A → wui_at gpio_wui_table k ≠ wui_at gpio_wui_table A) →
        (∀ k, k < B → wui_at gpio_wui_table k ≠ wui_at gpio_wui_table B) →
        ∃ l1 l2 l3, calls (gpio_interrupt bus gpio_wui_table gpio_irq_handlers wui_int
          (Machine.start s)).log = l1 ++ A :: l2 ++ B :: l3) := by
  have hcalls : calls (gpio_interrupt bus gpio_wui_table gpio_irq_handlers wui_int
      (Machine.start s)).log = interrupt_calls gpio_wui_table wui_int s := by
    rw [calls_interrupt]
    rfl
  rw [hcalls]
  have hinc := interrupt_calls_increasing gpio_wui_table wui_int s
  refine ⟨hinc, ?_⟩
  intro A B hAB hB htA hgA htB hgB _ hpA heA hpB heB
  refine ⟨increasing_not_before _ hinc A B hAB, ?_⟩
  intro hfA hfB
  apply increasing_split _ hinc A B hAB
  · exact (mem_interrupt_calls gpio_wui_table wui_int s A).2
      ⟨by omega, htA, hgA, hpA, heA, hfA⟩
  · exact (mem_interrupt_calls gpio_wui_table wui_int s B).2 ⟨hB, htB, hgB, hpB, heB, hfB⟩

theorem dispatch_scan_order_witness :
    (2 < 5 ∧ 5 < plain_wui_table.length ∧
      (wui_at plain_wui_table 2).bit ≠ (wui_at plain_wui_table 5).bit ∧
      (∀ k, k < 2 → wui_at plain_wui_table k ≠ wui_at plain_wui_table 2) ∧
      (∀ k, k < 5 → wui_at plain_wui_table k ≠ wui_at plain_wui_table 5)) ∧
    ∃ l1 l2 l3, calls (gpio_interrupt miwu_bus plain_wui_table idle_handlers ⟨0, 2, 0⟩
      (Machine.start all_pending_regs)).log = l1 ++ 2 :: l2 ++ 5 :: l3 :=
  ⟨⟨by decide, by decide, by decide, by decide, by decide⟩,
   ((dispatch_scan_order miwu_bus plain_wui_table idle_handlers ⟨0, 2, 0⟩
      all_pending_regs).2 2 5 (by decide) (by decide) (by decide) (by decide) (by decide)
      (by decide) (by decide) (by decide) (by decide) (by decide) (by decide)).2
      (by decide) (by decide)⟩


theorem length_le_one_of_nodup_of_all_eq (l : List Nat) (hn : l.Nodup)
    (hall : ∀ x ∈ l, ∀ y ∈ l, x = y) : l.length ≤ 1 := by
  match l, hn, hall with
  | [], _, _ => simp
  | [_], _, _ => simp
  | a :: b :: t, hn, hall =>
    have hab : a = b := hall a (by simp) b (by simp)
    subst hab
    simp at hn

theorem eq_singleton_of_nodup_of_all_eq (l : List Nat) (hn : l.Nodup) (f : Nat)
    (hall : ∀ x ∈ l, x = f) (hf : f ∈ l) : l = [f] := by
  have hlen := length_le_one_of_nodup_of_all_eq l hn
    (fun x hx y hy => by rw [hall x hx, hall y hy])
  match l, hlen, hall, hf with
  | [], _, _, hf => simp at hf
  | [a], _, hall, _ =>
    rw [hall a (by simp)]
  | _ :: _ :: _, hlen, _, _ =>
    simp at hlen

theorem first_of_mem_interrupt_calls (tbl : List npcx_wui) (wui_int : npcx_wui) (s : Regs)
    (k k2 : Nat) (hk : k ∈ interrupt_calls tbl wui_int s) (hlt : k2 < k) :
    wui_at tbl k2 ≠ wui_at tbl k :=
  ((mem_interrupt_calls tbl wui_int s k).1 hk).2.2.2.2.2 k2 hlt

theorem called_same_bit_eq (tbl : List npcx_wui) (wui_int : npcx_wui) (s : Regs) (a b : Nat)
    (ha : a ∈ interrupt_calls tbl wui_int s) (hb : b ∈ interrupt_calls tbl wui_int s)
    (hab : wui_at tbl a = wui_at tbl b) : a = b := by
  rcases Nat.lt_trichotomy a b with h | h | h
  · exact absurd hab (first_of_mem_interrupt_calls tbl wui_int s b a hb h)
  · exact h
  · exact absurd hab.symm (first_of_mem_interrupt_calls tbl wui_int s a b ha h)

/-- C2, counterexample.  In `aliased_wui_table` rows 1 and 2 address the same
`(table, group, bit)`, the bit is pending and enabled, and so does row 0: one
run of `gpio_interrupt` makes a single call, to the handler of row 0, not to the
handler of the lower-index row 1 of that pair of rows. -/
theorem dispatch_alias_calls_first_row :
    wui_at aliased_wui_table 1 = wui_at aliased_wui_table 2 ∧
    bit_of all_pending_regs (Reg.WKPND 0 2) (wui_at aliased_wui_table 1).bit.val = true ∧
    bit_of all_pending_regs (Reg.WKEN 0 2) (wui_at aliased_wui_table 1).bit.val = true ∧
    calls (gpio_interrupt miwu_bus aliased_wui_table idle_handlers ⟨0, 2, 0⟩
      (Machine.start all_pending_regs)).log = [0] := by
  decide

/-- C2, as amended.  Let rows `i < j` of the wake-unit table address the same
`(table, group, bit)` and let `gpio_interrupt` run once on that table and group.
Then at most one of the handler calls it makes is for a row addressing that bit,
and the handler of row `j` is not called.  When the bit is pending and enabled
at entry there is exactly one such call, and it is to the handler of the
lowest-index row `f <= i` addressing that bit; it is to the handler of row `i`
when no row below `i` addresses the bit. -/
theorem dispatch_aliasing_safety (bus : Bus) (gpio_wui_table : List npcx_wui)
    (gpio_irq_handlers : Nat → Regs → Regs) (wui_int : npcx_wui) (s : Regs) (i j : Nat)
    (hij : i < j) (hj : j < gpio_wui_table.length)
    (halias : wui_at gpio_wui_table i = wui_at gpio_wui_table j)
    (ht : (wui_at gpio_wui_table i).table = wui_int.table)
    (hg : (wui_at gpio_wui_table i).group = wui_int.group) :
    ((calls (gpio_interrupt bus gpio_wui_table gpio_irq_handlers wui_int
        (Machine.start s)).log).filter
      (fun k => decide (wui_at gpio_wui_table k = wui_at gpio_wui_table i))).length ≤ 1 ∧
    j ∉ calls (gpio_interrupt bus gpio_wui_table gpio_irq_handlers wui_int
      (Machine.start s)).log ∧
    (bit_of s (Reg.WKPND wui_int.table.val wui_int.group.val)
        (wui_at gpio_wui_table i).bit.val = true →
      bit_of s (Reg.WKEN wui_int.table.val wui_int.group.val)
        (wui_at gpio_wui_table i).bit.val = true →
      (∃ f, f ≤ i ∧ wui_at gpio_wui_table f = wui_at gpio_wui_table i ∧
        (∀ k, k < f → wui_at gpio_wui_table k ≠ wui_at gpio_wui_table i) ∧
        (calls (gpio_interrupt bus gpio_wui_table gpio_irq_handlers wui_int
            (Machine.start s)).log).filter
          (fun k => decide (wui_at gpio_wui_table k = wui_at gpio_wui_table i)) = [f]) ∧
      ((∀ k, k < i → wui_at gpio_wui_table k ≠ wui_at gpio_wui_table i) →
        (calls (gpio_interrupt bus gpio_wui_table gpio_irq_handlers wui_int
            (Machine.start s)).log).filter
          (fun k => decide (wui_at gpio_wui_table k = wui_at gpio_wui_table i)) = [i])) := by
  have hcalls : calls (gpio_interrupt bus gpio_wui_table gpio_irq_handlers wui_int
      (Machine.start s)).log = interrupt_calls gpio_wui_table wui_int s := by
    rw [calls_interrupt]
    rfl
  rw [hcalls]
  have hnd := interrupt_calls_nodup gpio_wui_table wui_int s
  have hndf : ((interrupt_calls gpio_wui_table wui_int s).filter
      (fun k => decide (wui_at gpio_wui_table k = wui_at gpio_wui_table i))).Nodup :=
    hnd.filter _
  have hmemf : ∀ x, x ∈ (interrupt_calls gpio_wui_table wui_int s).filter
      (fun k => decide (wui_at gpio_wui_table k = wui_at gpio_wui_table i)) ↔
      x ∈ interrupt_calls gpio_wui_table wui_int s ∧
        wui_at gpio_wui_table x = wui_at gpio_wui_table i := by
    intro x
    simp [List.mem_filter]
  have hfirst_called : ∀ f, f ≤ i → wui_at gpio_wui_table f = wui_at gpio_wui_table i →
      (∀ k, k < f → wui_at gpio_wui_table k ≠ wui_at gpio_wui_table i) →
      bit_of s (Reg.WKPND wui_int.table.val wui_int.group.val)
        (wui_at gpio_wui_table i).bit.val = true →
      bit_of s (Reg.WKEN wui_int.table.val wui_int.group.val)
        (wui_at gpio_wui_table i).bit.val = true →
      (interrupt_calls gpio_wui_table wui_int s).filter
        (fun k => decide (wui_at gpio_wui_table k = wui_at gpio_wui_table i)) = [f] := by
    intro f hfi hfeq hfmin hp he
    have hfmem : f ∈ interrupt_calls gpio_wui_table wui_int s := by
      rw [mem_interrupt_calls, hfeq]
      exact ⟨by omega, ht, hg, hp, he, hfmin⟩
    apply eq_singleton_of_nodup_of_all_eq _ hndf f
    · intro x hx
      rw [hmemf] at hx
      exact called_same_bit_eq gpio_wui_table wui_int s x f hx.1 hfmem (hx.2.trans hfeq.symm)
    · rw [hmemf]
      exact ⟨hfmem, hfeq⟩
  refine ⟨?_, ?_, ?_⟩
  · apply length_le_one_of_nodup_of_all_eq _ hndf
    intro x hx y hy
    rw [hmemf] at hx hy
    exact called_same_bit_eq gpio_wui_table wui_int s x y hx.1 hy.1 (hx.2.trans hy.2.symm)
  · intro hjmem
    exact first_of_mem_interrupt_calls gpio_wui_table wui_int s j i hjmem hij halias
  · intro hp he
    constructor
    · have hex : ∃ k, wui_at gpio_wui_table k = wui_at gpio_wui_table i := ⟨i, rfl⟩
      refine ⟨Nat.find hex, Nat.find_min' hex rfl, Nat.find_spec hex, ?_, ?_⟩
      · intro k hk
        exact Nat.find_min hex hk
      · exact hfirst_called (Nat.find hex) (Nat.find_min' hex rfl) (Nat.find_spec hex)
          (fun k hk => Nat.find_min hex hk) hp he
    · intro hmin
      exact hfirst_called i (Nat.le_refl i) rfl hmin hp he

theorem dispatch_aliasing_safety_witness :
    (0 < 1 ∧ 1 < aliased_wui_table.length ∧
      wui_at aliased_wui_table 0 = wui_at aliased_wui_table 1 ∧
      bit_of all_pending_regs (Reg.WKPND 0 2) (wui_at aliased_wui_table 0).bit.val = true ∧
      bit_of all_pending_regs (Reg.WKEN 0 2) (wui_at aliased_wui_table 0).bit.val = true ∧
      (∀ k, k < 0 → wui_at aliased_wui_table k ≠ wui_at aliased_wui_table 0)) ∧
    (calls (gpio_interrupt miwu_bus aliased_wui_table idle_handlers ⟨0, 2, 0⟩
        (Machine.start all_pending_regs)).log).filter
      (fun k => decide (wui_at aliased_wui_table k = wui_at aliased_wui_table 0)) = [0] :=
  ⟨⟨by decide, by decide, by decide, by decide, by decide, by decide⟩,
   ((dispatch_aliasing_safety miwu_bus aliased_wui_table idle_handlers ⟨0, 2, 0⟩
      all_pending_regs 0 1 (by decide) (by decide) (by decide) (by decide)
      (by decide)).2.2 (by decide) (by decide)).2 (by decide)⟩


/-! ## Stores on the wake-unit bus -/

theorem miwu_bus_WKEN_other (r : Reg) (v : Nat) (s : Regs) (t g : Nat)
    (hr : r ≠ Reg.WKEN t g) : (miwu_bus r v s) (Reg.WKEN t g) = s (Reg.WKEN t g) := by
  unfold miwu_bus
  split
  · rw [Function.update_noteq (by simp), Function.update_noteq (by simp)]
  · rw [Function.update_noteq (Ne.symm hr)]

theorem miwu_bus_WKEN_same (v : Nat) (s : Regs) (t g : Nat) :
    (miwu_bus (Reg.WKEN t g) v s) (Reg.WKEN t g) = u8 v := by
  unfold miwu_bus
  simp

theorem miwu_bus_WKPND_after_WKPCL (v : Nat) (s : Regs) (t g : Nat) :
    (miwu_bus (Reg.WKPCL t g) v s) (Reg.WKPND t g)
      = u8 ((s (Reg.WKPND t g)).val &&& lnot8 v) := by
  unfold miwu_bus
  simp

theorem miwu_bus_WKPND_clear_stays (r : Reg) (v : Nat) (s : Regs) (t g k : Nat)
    (hr : r ≠ Reg.WKPND t g) (h : bit_of s (Reg.WKPND t g) k = false) :
    bit_of (miwu_bus r v s) (Reg.WKPND t g) k = false := by
  unfold miwu_bus
  split
  · rename_i t2 g2
    by_cases heq : Reg.WKPND t g = Reg.WKPND t2 g2
    · rw [heq] at h ⊢
      unfold bit_of at h ⊢
      rw [Function.update_same, testBit_u8, Nat.testBit_and, h]
      simp
    · unfold bit_of at h ⊢
      rw [Function.update_noteq heq, Function.update_noteq (by simp)]
      exact h
  · unfold bit_of at h ⊢
    rw [Function.update_noteq (Ne.symm hr)]
    exact h

theorem miwu_bus_WKPCL_clears (s : Regs) (t g b : Nat) (hb : b < 8) :
    bit_of (miwu_bus (Reg.WKPCL t g) ((1 <<< b) % 256) s) (Reg.WKPND t g) b = false := by
  unfold bit_of
  rw [miwu_bus_WKPND_after_WKPCL, testBit_u8, Nat.testBit_and, testBit_lnot8, testBit_pin_mask]
  simp [hb]

theorem scan_keeps_pending_clear (handlers : Nat → Regs → Regs) (t g b : Nat)
    (hh : ∀ k r, bit_of r (Reg.WKPND t g) b = false →
      bit_of (handlers k r) (Reg.WKPND t g) b = false)
    (table group : Nat) (rows : List npcx_wui) (i wui_mask : Nat) (m : Machine)
    (h : bit_of m.regs (Reg.WKPND t g) b = false) :
    bit_of (gpio_interrupt_scan miwu_bus handlers table group rows i wui_mask m).2.regs
      (Reg.WKPND t g) b = false := by
  induction rows generalizing i wui_mask m with
  | nil => simpa [gpio_interrupt_scan] using h
  | cons row rest ih =>
    unfold gpio_interrupt_scan
    by_cases h0 : wui_mask = 0
    · simpa [h0] using h
    · by_cases hm : row.table.val = table ∧ row.group.val = group
          ∧ wui_mask &&& ((1 <<< row.bit.val) % 256) ≠ 0
      · simp only [h0, if_false, if_pos hm]
        apply ih
        apply hh
        exact miwu_bus_WKPND_clear_stays _ _ _ _ _ _ (by simp) h
      · simp only [h0, if_false, if_neg hm]
        exact ih _ _ _ h

theorem scan_clears_pending (handlers : Nat → Regs → Regs) (t g b : Nat)
    (hh : ∀ k r, bit_of r (Reg.WKPND t g) b = false →
      bit_of (handlers k r) (Reg.WKPND t g) b = false)
    (rows : List npcx_wui) (i wui_mask : Nat) (m : Machine)
    (hbit : wui_mask.testBit b = true)
    (hex : ∃ w, w ∈ rows ∧ w.table.val = t ∧ w.group.val = g ∧ w.bit.val = b) :
    bit_of (gpio_interrupt_scan miwu_bus handlers t g rows i wui_mask m).2.regs
      (Reg.WKPND t g) b = false := by
  induction rows generalizing i wui_mask m with
  | nil =>
    obtain ⟨w, hw, _⟩ := hex
    simp at hw
  | cons row rest ih =>
    have hpin := and_pin_ne_zero wui_mask row.bit.val row.bit.isLt
    have h0 : wui_mask ≠ 0 := by
      intro hz
      rw [hz, Nat.zero_testBit] at hbit
      exact absurd hbit (by simp)
    unfold gpio_interrupt_scan
    by_cases hm : row.table.val = t ∧ row.group.val = g
          ∧ wui_mask &&& ((1 <<< row.bit.val) % 256) ≠ 0
    · simp only [h0, if_false, if_pos hm]
      by_cases hrb : row.bit.val = b
      · apply scan_keeps_pending_clear handlers t g b hh
        apply hh
        rw [← hrb]
        exact miwu_bus_WKPCL_clears _ _ _ _ row.bit.isLt
      · apply ih
        · obtain ⟨w, hw, hwt, hwg, hwb⟩ := hex
          have hb8 : b < 8 := by rw [← hwb]; exact w.bit.isLt
          rw [testBit_mask_clear _ _ _ hb8]
          simp [hbit, hrb]
        · obtain ⟨w, hw, hwt, hwg, hwb⟩ := hex
          rcases List.mem_cons.1 hw with hw1 | hw2
          · rw [hw1] at hwb
            exact absurd hwb hrb
          · exact ⟨w, hw2, hwt, hwg, hwb⟩
    · simp only [h0, if_false, if_neg hm]
      apply ih _ _ _ hbit
      obtain ⟨w, hw, hwt, hwg, hwb⟩ := hex
      rcases List.mem_cons.1 hw with hw1 | hw2
      · rw [hw1] at hwt hwg hwb
        exfalso
        apply hm
        refine ⟨hwt, hwg, hpin.2 ?_⟩
        rw [hwb]
        exact hbit
      · exact ⟨w, hw2, hwt, hwg, hwb⟩


theorem wui_at_mem (tbl : List npcx_wui) (k : Nat) (hk : k < tbl.length) :
    wui_at tbl k ∈ tbl := by
  have h := getElem?_eq_wui_at tbl k hk
  exact List.getElem?_mem h

theorem scenario_entry (tbl : List npcx_wui) (i : Nat) (s : Regs)
    (hi : i < GPIO_IH_COUNT tbl) :
    ∃ m3 : Machine,
      hw_set_pending (wui_at tbl i)
        (gpio_clear_pending_interrupt miwu_bus tbl i
          (gpio_enable_interrupt miwu_bus tbl i (Machine.start s)).2).2 = m3 ∧
      calls m3.log = [] ∧
      bit_of m3.regs (Reg.WKPND (wui_at tbl i).table.val (wui_at tbl i).group.val)
        (wui_at tbl i).bit.val = true ∧
      bit_of m3.regs (Reg.WKEN (wui_at tbl i).table.val (wui_at tbl i).group.val)
        (wui_at tbl i).bit.val = true := by
  have hb := wui_bit_lt tbl i
  have hi2 : ¬ (i ≥ GPIO_IH_COUNT tbl) := by omega
  refine ⟨_, rfl, ?_, ?_, ?_⟩
  · simp [gpio_enable_interrupt, gpio_clear_pending_interrupt, hi2, hw_set_pending,
      reg_set_bits, reg_write, Machine.start, calls]
  · unfold hw_set_pending bit_of
    simp only [Function.update_same]
    rw [testBit_u8, Nat.testBit_or, testBit_one_shl]
    simp [hb]
  · unfold hw_set_pending bit_of
    simp only [gpio_enable_interrupt, gpio_clear_pending_interrupt, hi2, if_false,
      reg_set_bits, reg_write]
    rw [Function.update_noteq (by simp), miwu_bus_WKEN_other _ _ _ _ _ (by simp),
      miwu_bus_WKEN_same, testBit_u8, Nat.testBit_or, testBit_one_shl]
    simp [hb]

/-- C1, counterexample.  In `aliased_wui_table` signal 1 addresses the same bit
as signal 0.  Running enable, clear pending, hardware pending and dispatch for
signal 1 from the all-zero register state calls the handler of signal 0 once and
the handler of signal 1 not at all. -/
theorem dispatch_scenario_aliased_signal :
    1 < GPIO_IH_COUNT aliased_wui_table ∧
    calls (dispatch_scenario miwu_bus aliased_wui_table idle_handlers 1 ⟨0, 2, 0⟩
      zero_regs).log = [0] ∧
    (calls (dispatch_scenario miwu_bus aliased_wui_table idle_handlers 1 ⟨0, 2, 0⟩
      zero_regs).log).count 1 = 0 := by
  decide

/-- C1, as amended.  On the wake-unit bus (a store to `WKPCL` clears the written
bits of `WKPND`), for every interrupt-capable signal `i` such that no
lower-index row of the table addresses the same `(table, group, bit)`, and every
starting register state: enable, clear pending, hardware sets the pending bit,
then `gpio_interrupt` on the signal's table and group calls the handler of `i`
exactly once; and, the handlers not setting that pending bit themselves, the
pending bit is clear at the end. -/
theorem dispatch_exactly_once (gpio_wui_table : List npcx_wui)
    (gpio_irq_handlers : Nat → Regs → Regs) (i : Nat) (wui_int : npcx_wui) (s : Regs)
    (hi : i < GPIO_IH_COUNT gpio_wui_table)
    (ht : wui_int.table = (wui_at gpio_wui_table i).table)
    (hg : wui_int.group = (wui_at gpio_wui_table i).group)
    (hfirst : ∀ k, k < i → wui_at gpio_wui_table k ≠ wui_at gpio_wui_table i) :
    (calls (dispatch_scenario miwu_bus gpio_wui_table gpio_irq_handlers i wui_int s).log).count i
      = 1 ∧
    ((∀ k r,
        bit_of r (Reg.WKPND (wui_at gpio_wui_table i).table.val
          (wui_at gpio_wui_table i).group.val) (wui_at gpio_wui_table i).bit.val = false →
        bit_of (gpio_irq_handlers k r) (Reg.WKPND (wui_at gpio_wui_table i).table.val
          (wui_at gpio_wui_table i).group.val) (wui_at gpio_wui_table i).bit.val = false) →
      bit_of (dispatch_scenario miwu_bus gpio_wui_table gpio_irq_handlers i wui_int s).regs
        (Reg.WKPND (wui_at gpio_wui_table i).table.val
          (wui_at gpio_wui_table i).group.val) (wui_at gpio_wui_table i).bit.val = false) := by
  obtain ⟨m3, hm3, hcalls3, hpend, hen⟩ := scenario_entry gpio_wui_table i s hi
  have hlen : i < gpio_wui_table.length := hi
  unfold dispatch_scenario
  rw [hm3]
  constructor
  · rw [calls_interrupt, hcalls3, List.nil_append]
    apply List.count_eq_one_of_mem (interrupt_calls_nodup gpio_wui_table wui_int m3.regs)
    rw [mem_interrupt_calls, ht, hg]
    exact ⟨hlen, rfl, rfl, hpend, hen, hfirst⟩
  · intro hh
    unfold gpio_interrupt
    rw [ht, hg]
    apply scan_clears_pending gpio_irq_handlers _ _ _ hh
    · unfold reg_read
      rw [Nat.testBit_and, Bool.and_eq_true]
      exact ⟨hpend, hen⟩
    · exact ⟨wui_at gpio_wui_table i, wui_at_mem gpio_wui_table i hlen, rfl, rfl, rfl⟩

theorem dispatch_exactly_once_witness :
    (1 < GPIO_IH_COUNT sample_wui_table ∧
      (∀ k, k < 1 → wui_at sample_wui_table k ≠ wui_at sample_wui_table 1)) ∧
    (calls (dispatch_scenario miwu_bus sample_wui_table idle_handlers 1 ⟨1, 2, 0⟩
      all_pending_regs).log).count 1 = 1 ∧
    bit_of (dispatch_scenario miwu_bus sample_wui_table idle_handlers 1 ⟨1, 2, 0⟩
        all_pending_regs).regs
      (Reg.WKPND (wui_at sample_wui_table 1).table.val (wui_at sample_wui_table 1).group.val)
      (wui_at sample_wui_table 1).bit.val = false :=
  ⟨⟨by decide, by decide⟩,
   (dispatch_exactly_once sample_wui_table idle_handlers 1 ⟨1, 2, 0⟩ all_pending_regs
      (by decide) (by decide) (by decide) (by decide)).1,
   (dispatch_exactly_once sample_wui_table idle_handlers 1 ⟨1, 2, 0⟩ all_pending_regs
      (by decide) (by decide) (by decide) (by decide)).2 (fun _ _ h => h)⟩


/-! ## Alternate-function selection: unmapped pins and polarity -/

theorem and_one_shl_ne_zero (x b : Nat) : (x &&& (1 <<< b) ≠ 0) ↔ x.testBit b = true := by
  rw [Nat.one_shiftLeft, Nat.and_two_pow]
  have hpos : 0 < 2 ^ b := Nat.pos_pow_of_pos b (by decide)
  cases hx : x.testBit b
  · simp
  · simp [Nat.pos_iff_ne_zero.mp hpos]

theorem alt_sel_no_match (bus : Bus) (tbl : List gpio_alt_map) (port bit : Nat) (func : Int)
    (m : Machine)
    (h : ∀ map, map ∈ tbl → gpio_match port ((1 <<< bit) % 256) map.gpio = false) :
    gpio_alt_sel bus tbl port bit func m = (-1, m) := by
  induction tbl with
  | nil => rfl
  | cons map rest ih =>
    unfold gpio_alt_sel
    rw [h map (List.mem_cons_self map rest)]
    simp only [Bool.false_eq_true, if_false]
    exact ih (fun x hx => h x (List.mem_cons_of_mem map hx))

theorem foldl_id_of_forall {α β : Type} (f : α → β → α) (l : List β) (a : α)
    (h : ∀ x b, b ∈ l → f x b = x) : l.foldl f a = a := by
  induction l generalizing a with
  | nil => rfl
  | cons b rest ih =>
    rw [List.foldl_cons, h a b (List.mem_cons_self b rest)]
    exact ih a (fun x c hc => h x c (List.mem_cons_of_mem b hc))

/-- C16. When no valid row of the table matches `(port, 1 << bit)`,
`gpio_alt_sel` returns `-1` and leaves the machine (every register, and the
log) unchanged, for every `func` and on every bus; and
`gpio_set_alternate_function` on a mask all of whose pins 0..7 are unmapped
leaves the machine unchanged. -/
theorem alt_sel_unmapped_is_noop (bus : Bus) (gpio_alt_table : List gpio_alt_map)
    (port bit mask : Nat) (func8 func : Int) (m : Machine) :
    ((∀ map, map ∈ gpio_alt_table → gpio_match port ((1 <<< bit) % 256) map.gpio = false) →
      gpio_alt_sel bus gpio_alt_table port bit func8 m = (-1, m)) ∧
    ((∀ pin, pin < 8 → mask.testBit pin = true → ∀ map, map ∈ gpio_alt_table →
        gpio_match (port % 256) ((1 <<< pin) % 256) map.gpio = false) →
      gpio_set_alternate_function bus gpio_alt_table port mask func m = m) := by
  constructor
  · exact alt_sel_no_match bus gpio_alt_table port bit func8 m
  · intro h
    unfold gpio_set_alternate_function
    apply foldl_id_of_forall
    intro x pin hpin
    have hlt : pin < 8 := List.mem_range.1 hpin
    by_cases hb : mask &&& (1 <<< pin) ≠ 0
    · rw [if_pos hb, alt_sel_no_match bus gpio_alt_table (port % 256) pin (to_int8 func) x
        (h pin hlt ((and_one_shl_ne_zero mask pin).1 hb))]
    · rw [if_neg hb]

theorem alt_sel_unmapped_is_noop_witness :
    ((∀ map, map ∈ sample_alt_table → gpio_match 5 ((1 <<< 2) % 256) map.gpio = false) ∧
      gpio_alt_sel mem_bus sample_alt_table 5 2 (-1) (Machine.start zero_regs)
        = (-1, Machine.start zero_regs)) ∧
    ((∀ pin, pin < 8 → (0x81 : Nat).testBit pin = true → ∀ map, map ∈ sample_alt_table →
        gpio_match (11 % 256) ((1 <<< pin) % 256) map.gpio = false) ∧
      gpio_set_alternate_function mem_bus sample_alt_table 11 0x81 3 (Machine.start zero_regs)
        = Machine.start zero_regs) :=
  ⟨⟨by decide,
    (alt_sel_unmapped_is_noop mem_bus sample_alt_table 5 2 0 (-1) 0
      (Machine.start zero_regs)).1 (by decide)⟩,
   ⟨by decide,
    (alt_sel_unmapped_is_noop mem_bus sample_alt_table 11 2 0x81 0 3
      (Machine.start zero_regs)).2 (by decide)⟩⟩


theorem alt_sel_first_match (bus : Bus) (pre post : List gpio_alt_map) (e : gpio_alt_map)
    (port bit : Nat) (func : Int) (m : Machine)
    (hpre : ∀ map, map ∈ pre → gpio_match port ((1 <<< bit) % 256) map.gpio = false)
    (he : gpio_match port ((1 <<< bit) % 256) e.gpio = true) :
    gpio_alt_sel bus (pre ++ e :: post) port bit func m
      = if (decide (func < 0)) != e.alt.inverted then
          ((1 : Int),
            reg_clear_bits bus (Reg.DEVALT e.alt.group.val) ((1 <<< e.alt.bit.val) % 256) m)
        else
          ((1 : Int),
            reg_set_bits bus (Reg.DEVALT e.alt.group.val) ((1 <<< e.alt.bit.val) % 256) m) := by
  induction pre with
  | nil =>
    simp only [List.nil_append]
    unfold gpio_alt_sel
    rw [he]
    simp only [if_true]
  | cons map rest ih =>
    simp only [List.cons_append]
    unfold gpio_alt_sel
    rw [hpre map (List.mem_cons_self map rest)]
    simp only [Bool.false_eq_true, if_false]
    exact ih (fun x hx => hpre x (List.mem_cons_of_mem map hx))

/-- C18. Let `e` be the first row of the table matching `(port, 1 << bit)`.
Then `gpio_alt_sel` returns `1`; afterwards bit `e.alt.bit` of
`DEVALT(e.alt.group)` is clear when `(func < 0) XOR e.alt.inverted` holds and
set otherwise; no other bit of any register changes; and the result does not
depend on the rows after `e`. -/
theorem alt_sel_polarity (pre post : List gpio_alt_map) (e : gpio_alt_map)
    (port bit : Nat) (func : Int) (m : Machine)
    (hpre : ∀ map, map ∈ pre → gpio_match port ((1 <<< bit) % 256) map.gpio = false)
    (he : gpio_match port ((1 <<< bit) % 256) e.gpio = true) :
    (gpio_alt_sel mem_bus (pre ++ e :: post) port bit func m).1 = 1 ∧
    bit_of (gpio_alt_sel mem_bus (pre ++ e :: post) port bit func m).2.regs
        (Reg.DEVALT e.alt.group.val) e.alt.bit.val
      = !((decide (func < 0)) != e.alt.inverted) ∧
    only_bit_differs m.regs (gpio_alt_sel mem_bus (pre ++ e :: post) port bit func m).2.regs
      (Reg.DEVALT e.alt.group.val) e.alt.bit.val ∧
    gpio_alt_sel mem_bus (pre ++ e :: post) port bit func m
      = gpio_alt_sel mem_bus (pre ++ [e]) port bit func m := by
  have hb : e.alt.bit.val < 8 := e.alt.bit.isLt
  rw [alt_sel_first_match mem_bus pre post e port bit func m hpre he,
    alt_sel_first_match mem_bus pre [] e port bit func m hpre he]
  cases hx : ((decide (func < 0)) != e.alt.inverted)
  · simp only [Bool.false_eq_true, if_false, Bool.not_false, and_true, true_and]
    constructor
    · rw [bit_of_set_bits_mem, testBit_pin_mask]
      simp [hb]
    · intro q k hqk
      rw [bit_of_set_bits_mem, testBit_pin_mask]
      have : ¬ (q = Reg.DEVALT e.alt.group.val ∧ k < 8 ∧
          (decide (k < 8) && decide (e.alt.bit.val = k)) = true) := by
        rintro ⟨h1, _, h3⟩
        simp only [Bool.and_eq_true, decide_eq_true_eq] at h3
        exact hqk ⟨h1, h3.2.symm⟩
      rw [if_neg this]
  · simp only [if_true, Bool.not_true, and_true, true_and]
    constructor
    · rw [bit_of_clear_bits_mem, testBit_pin_mask]
      simp [hb]
    · intro q k hqk
      rw [bit_of_clear_bits_mem, testBit_pin_mask]
      have : ¬ (q = Reg.DEVALT e.alt.group.val ∧ k < 8 ∧
          (decide (k < 8) && decide (e.alt.bit.val = k)) = true) := by
        rintro ⟨h1, _, h3⟩
        simp only [Bool.and_eq_true, decide_eq_true_eq] at h3
        exact hqk ⟨h1, h3.2.symm⟩
      rw [if_neg this]

theorem alt_sel_polarity_witness :
    ((∀ map, map ∈ [(⟨⟨11, 2, true⟩, ⟨2, 1, false⟩⟩ : gpio_alt_map)] →
        gpio_match 3 ((1 <<< 1) % 256) map.gpio = false) ∧
      gpio_match 3 ((1 <<< 1) % 256) (⟨⟨3, 1, true⟩, ⟨7, 0, true⟩⟩ : gpio_alt_map).gpio = true) ∧
    bit_of (gpio_alt_sel mem_bus
        ([(⟨⟨11, 2, true⟩, ⟨2, 1, false⟩⟩ : gpio_alt_map)] ++ ⟨⟨3, 1, true⟩, ⟨7, 0, true⟩⟩ :: [])
        3 1 (-1) (Machine.start zero_regs)).2.regs
        (Reg.DEVALT (⟨⟨3, 1, true⟩, ⟨7, 0, true⟩⟩ : gpio_alt_map).alt.group.val)
        (⟨⟨3, 1, true⟩, ⟨7, 0, true⟩⟩ : gpio_alt_map).alt.bit.val
      = !((decide ((-1 : Int) < 0)) != (⟨⟨3, 1, true⟩, ⟨7, 0, true⟩⟩ : gpio_alt_map).alt.inverted) :=
  ⟨⟨by decide, by decide⟩,
   (alt_sel_polarity [⟨⟨11, 2, true⟩, ⟨2, 1, false⟩⟩] [] ⟨⟨3, 1, true⟩, ⟨7, 0, true⟩⟩ 3 1 (-1)
      (Machine.start zero_regs) (by decide) (by decide)).2.1⟩


/-! ## Footprints of stores -/

theorem footprint_refl (P : Reg → Prop) (m : Machine) : footprint P m m :=
  ⟨⟨[], by simp, by simp⟩, fun _ _ => rfl⟩

theorem footprint_trans {P : Reg → Prop} {a b c : Machine} (h1 : footprint P a b)
    (h2 : footprint P b c) : footprint P a c := by
  obtain ⟨⟨d1, hd1, hs1⟩, hr1⟩ := h1
  obtain ⟨⟨d2, hd2, hs2⟩, hr2⟩ := h2
  refine ⟨⟨d1 ++ d2, by rw [hd2, hd1, List.append_assoc], ?_⟩, ?_⟩
  · intro e he
    rcases List.mem_append.1 he with h | h
    · exact hs1 e h
    · exact hs2 e h
  · intro q hq
    rw [hr2 q hq, hr1 q hq]

theorem footprint_mono {P Q : Reg → Prop} {a b : Machine} (hPQ : ∀ r, P r → Q r)
    (h : footprint P a b) : footprint Q a b := by
  obtain ⟨⟨d, hd, hs⟩, hr⟩ := h
  refine ⟨⟨d, hd, ?_⟩, fun q hq => hr q (fun hp => hq (hPQ q hp))⟩
  intro e he
  obtain ⟨r, v, hev, hp⟩ := hs e he
  exact ⟨r, v, hev, hPQ r hp⟩

theorem footprint_write (P : Reg → Prop) (r : Reg) (v : Nat) (m : Machine) (hr : P r) :
    footprint P m (reg_write mem_bus r v m) := by
  refine ⟨⟨[Event.store r (v % 256)], rfl, ?_⟩, ?_⟩
  · intro e he
    rw [List.mem_singleton] at he
    exact ⟨r, v % 256, he, hr⟩
  · intro q hq
    have hne : q ≠ r := fun h => hq (h ▸ hr)
    rw [regs_reg_write_mem, Function.update_noteq hne]

theorem footprint_set_bits (P : Reg → Prop) (r : Reg) (mask : Nat) (m : Machine) (hr : P r) :
    footprint P m (reg_set_bits mem_bus r mask m) :=
  footprint_write P r _ m hr

theorem footprint_clear_bits (P : Reg → Prop) (r : Reg) (mask : Nat) (m : Machine)
    (hr : P r) : footprint P m (reg_clear_bits mem_bus r mask m) :=
  footprint_write P r _ m hr

theorem footprint_foldl {β : Type} (P : Reg → Prop) (f : Machine → β → Machine)
    (l : List β) (m : Machine) (h : ∀ x b, b ∈ l → footprint P x (f x b)) :
    footprint P m (l.foldl f m) := by
  induction l generalizing m with
  | nil => exact footprint_refl P m
  | cons b rest ih =>
    rw [List.foldl_cons]
    exact footprint_trans (h m b (List.mem_cons_self b rest))
      (ih (f m b) (fun x c hc => h x c (List.mem_cons_of_mem b hc)))

theorem footprint_type_sel (F : gpio_flag_bits) (tbl : List npcx_wui) (signal flags : Nat)
    (m : Machine) :
    footprint is_wake_reg m (gpio_interrupt_type_sel mem_bus F tbl signal flags m) := by
  unfold gpio_interrupt_type_sel
  by_cases hs : signal ≥ tbl.length
  · simp only [hs, if_true]
    exact footprint_refl _ m
  · simp only [hs, if_false]
    cases hH : flag_set flags F.GPIO_INT_F_HIGH <;>
    cases hL : flag_set flags F.GPIO_INT_F_LOW <;>
    cases hR : flag_set flags F.GPIO_INT_F_RISING <;>
    cases hF : flag_set flags F.GPIO_INT_F_FALLING <;>
    simp only [Bool.or_false, Bool.or_true, Bool.true_or, Bool.and_true, Bool.and_false,
      Bool.false_and, Bool.or_self, Bool.and_self, Bool.false_eq_true, if_false, if_true] <;>
    repeat (first
      | exact footprint_refl _ _
      | exact footprint_set_bits _ _ _ _ (by simp [is_wake_reg])
      | exact footprint_clear_bits _ _ _ _ (by simp [is_wake_reg])
      | refine footprint_trans ?_ (footprint_set_bits _ _ _ _ (by simp [is_wake_reg]))
      | refine footprint_trans ?_ (footprint_clear_bits _ _ _ _ (by simp [is_wake_reg])))

theorem footprint_set_flags_interrupts (F : gpio_flag_bits) (gpio_list : List gpio_info)
    (tbl : List npcx_wui) (port mask flags : Nat) (m : Machine) :
    footprint is_wake_reg m (set_flags_interrupts mem_bus F gpio_list tbl port mask flags m) := by
  unfold set_flags_interrupts
  apply footprint_foldl
  intro x b _
  by_cases h : (gpio_list_at gpio_list b).port = port
      ∧ (gpio_list_at gpio_list b).mask &&& mask ≠ 0
  · rw [if_pos h]
    exact footprint_type_sel F tbl b flags x
  · rw [if_neg h]
    exact footprint_refl _ x


/-! ## Low-voltage selection -/

theorem list_first_match {α : Type} (p : α → Bool) (l : List α) :
    (∀ x, x ∈ l → p x = false) ∨
    ∃ pre g post, l = pre ++ g :: post ∧ (∀ x, x ∈ pre → p x = false) ∧ p g = true := by
  induction l with
  | nil => exact Or.inl (fun x hx => by simp at hx)
  | cons a rest ih =>
    cases ha : p a
    · rcases ih with h | ⟨pre, g, post, hl, hpre, hg⟩
      · left
        intro x hx
        rcases List.mem_cons.1 hx with h1 | h2
        · rw [h1]; exact ha
        · exact h x h2
      · right
        refine ⟨a :: pre, g, post, by rw [hl]; rfl, ?_, hg⟩
        intro x hx
        rcases List.mem_cons.1 hx with h1 | h2
        · rw [h1]; exact ha
        · exact hpre x h2
    · right
      exact ⟨[], a, rest, rfl, fun x hx => by simp at hx, ha⟩

theorem lvol_block_no_match (bus : Bus) (port mask lv i : Nat) (pins : List npcx_gpio)
    (j : Nat) (m : Machine) (h : ∀ x, x ∈ pins → gpio_match port mask x = false) :
    lvol_scan_block bus port mask lv i pins j m = (false, m) := by
  induction pins generalizing j with
  | nil => rfl
  | cons g rest ih =>
    unfold lvol_scan_block
    rw [h g (List.mem_cons_self g rest)]
    simp only [Bool.false_eq_true, if_false]
    exact ih (j + 1) (fun x hx => h x (List.mem_cons_of_mem g hx))

theorem lvol_block_first_match (bus : Bus) (port mask lv i : Nat) (pre post : List npcx_gpio)
    (g : npcx_gpio) (j : Nat) (m : Machine)
    (hpre : ∀ x, x ∈ pre → gpio_match port mask x = false)
    (hg : gpio_match port mask g = true) :
    lvol_scan_block bus port mask lv i (pre ++ g :: post) j m
      = (true, if lv ≠ 0 then reg_set_bits bus (Reg.LV_GPIO_CTL i) (1 <<< (j + pre.length)) m
          else reg_clear_bits bus (Reg.LV_GPIO_CTL i) (1 <<< (j + pre.length)) m) := by
  induction pre generalizing j with
  | nil =>
    simp only [List.nil_append, List.length_nil, Nat.add_zero]
    unfold lvol_scan_block
    rw [hg]
    by_cases hlv : lv ≠ 0 <;> simp [hlv]
  | cons a rest ih =>
    simp only [List.cons_append, List.length_cons]
    unfold lvol_scan_block
    rw [hpre a (List.mem_cons_self a rest)]
    simp only [Bool.false_eq_true, if_false]
    rw [ih (j + 1) (fun x hx => hpre x (List.mem_cons_of_mem a hx))]
    have : j + 1 + rest.length = j + (rest.length + 1) := by omega
    rw [this]

theorem lvol_table_no_match (bus : Bus) (port mask lv : Nat) (tbl : List gpio_lvol_item)
    (i : Nat) (m : Machine)
    (h : ∀ item, item ∈ tbl → ∀ x, x ∈ item.lvol_gpio → gpio_match port mask x = false) :
    lvol_scan_table bus port mask lv tbl i m = m := by
  induction tbl generalizing i with
  | nil => rfl
  | cons item rest ih =>
    unfold lvol_scan_table
    rw [lvol_block_no_match bus port mask lv i item.lvol_gpio 0 m
      (h item (List.mem_cons_self item rest))]
    simp only [Bool.false_eq_true, if_false]
    exact ih (i + 1) (fun x hx => h x (List.mem_cons_of_mem item hx))

theorem lvol_table_first_match (bus : Bus) (port mask lv : Nat)
    (ipre ipost : List gpio_lvol_item) (pre post : List npcx_gpio) (g : npcx_gpio)
    (i : Nat) (m : Machine)
    (hblocks : ∀ item, item ∈ ipre → ∀ x, x ∈ item.lvol_gpio → gpio_match port mask x = false)
    (hpre : ∀ x, x ∈ pre → gpio_match port mask x = false)
    (hg : gpio_match port mask g = true) :
    lvol_scan_table bus port mask lv (ipre ++ ⟨pre ++ g :: post⟩ :: ipost) i m
      = if lv ≠ 0 then
          reg_set_bits bus (Reg.LV_GPIO_CTL (i + ipre.length)) (1 <<< pre.length) m
        else reg_clear_bits bus (Reg.LV_GPIO_CTL (i + ipre.length)) (1 <<< pre.length) m := by
  induction ipre generalizing i with
  | nil =>
    simp only [List.nil_append, List.length_nil, Nat.add_zero]
    unfold lvol_scan_table
    rw [lvol_block_first_match bus port mask lv i pre post g 0 m hpre hg]
    simp only [if_true, Nat.zero_add]
  | cons a rest ih =>
    simp only [List.cons_append, List.length_cons]
    unfold lvol_scan_table
    rw [lvol_block_no_match bus port mask lv i a.lvol_gpio 0 m
      (hblocks a (List.mem_cons_self a rest))]
    simp only [Bool.false_eq_true, if_false]
    rw [ih (i + 1) (fun x hx => hblocks x (List.mem_cons_of_mem a hx))]
    have : i + 1 + rest.length = i + (rest.length + 1) := by omega
    rw [this]

theorem lvol_sel_cases (bus : Bus) (tbl : List gpio_lvol_item) (port mask lv : Nat)
    (m : Machine) :
    gpio_low_voltage_level_sel bus tbl port mask lv m = m ∨
    ∃ ipre ipost pre post g, tbl = ipre ++ ⟨pre ++ g :: post⟩ :: ipost ∧
      gpio_match port mask g = true ∧
      gpio_low_voltage_level_sel bus tbl port mask lv m
        = if lv ≠ 0 then
            reg_set_bits bus (Reg.LV_GPIO_CTL ipre.length) (1 <<< pre.length) m
          else reg_clear_bits bus (Reg.LV_GPIO_CTL ipre.length) (1 <<< pre.length) m := by
  unfold gpio_low_voltage_level_sel
  rcases list_first_match (fun item : gpio_lvol_item =>
      item.lvol_gpio.any (gpio_match port mask)) tbl with h | ⟨ipre, item, ipost, hl, hpre, hitem⟩
  · left
    apply lvol_table_no_match
    intro item hitem x hx
    have := h item hitem
    simp only [List.any_eq_false] at this
    simpa using this x hx
  · right
    have hblocks : ∀ it, it ∈ ipre → ∀ x, x ∈ it.lvol_gpio → gpio_match port mask x = false := by
      intro it hit x hx
      have := hpre it hit
      simp only [List.any_eq_false] at this
      simpa using this x hx
    rcases list_first_match (gpio_match port mask) item.lvol_gpio with h | ⟨pre, g, post, hl2, hpre2, hg⟩
    · exfalso
      simp only [List.any_eq_true] at hitem
      obtain ⟨x, hx, hxm⟩ := hitem
      rw [h x hx] at hxm
      exact absurd hxm (by simp)
    · have hitem_eq : item = ⟨pre ++ g :: post⟩ := by
        cases item
        simp only at hl2
        rw [hl2]
      refine ⟨ipre, ipost, pre, post, g, by rw [hl, hitem_eq], hg, ?_⟩
      rw [hl, hitem_eq, lvol_table_first_match bus port mask lv ipre ipost pre post g 0 m
        hblocks hpre2 hg]
      simp only [Nat.zero_add]

theorem footprint_lvol_sel (tbl : List gpio_lvol_item) (port mask lv : Nat) (m : Machine) :
    footprint (fun r => ∃ i, r = Reg.LV_GPIO_CTL i) m
      (gpio_low_voltage_level_sel mem_bus tbl port mask lv m) := by
  rcases lvol_sel_cases mem_bus tbl port mask lv m with h | ⟨ipre, _, pre, _, _, _, _, h⟩
  · rw [h]
    exact footprint_refl _ m
  · rw [h]
    by_cases hlv : lv ≠ 0
    · rw [if_pos hlv]
      exact footprint_set_bits _ _ _ _ ⟨_, rfl⟩
    · rw [if_neg hlv]
      exact footprint_clear_bits _ _ _ _ ⟨_, rfl⟩


theorem getElem?_append_length {α : Type} (l1 l2 : List α) (a : α) :
    (l1 ++ a :: l2)[l1.length]? = some a := by
  rw [List.getElem?_append_right (Nat.le_refl _), Nat.sub_self, List.getElem?_cons_zero]

/-- C17. Let the pin at block `i`, position `j < 8` of the low-voltage table be
the first, in scan order, that `gpio_match` accepts for `(port, mask)`.  Then
`gpio_low_voltage_level_sel(port, mask, lv)` makes bit `j` of `LV_GPIO_CTL(i)`
equal to `lv != 0` and changes no other bit of any register; when no pin of the
table matches, the machine is unchanged.  The padding entry `NPCX_GPIO_NONE`
never matches, and on `gpio_lvol_table` bit 7 of `LV_GPIO_CTL(1)` keeps its
value for every input. -/
theorem low_voltage_sel_correct (ipre ipost tbl : List gpio_lvol_item)
    (pre post : List npcx_gpio) (g : npcx_gpio) (port mask lv : Nat) (m : Machine) :
    ((∀ item, item ∈ ipre → ∀ x, x ∈ item.lvol_gpio → gpio_match port mask x = false) →
      (∀ x, x ∈ pre → gpio_match port mask x = false) →
      gpio_match port mask g = true → pre.length < 8 →
      bit_of (gpio_low_voltage_level_sel mem_bus (ipre ++ ⟨pre ++ g :: post⟩ :: ipost)
          port mask lv m).regs (Reg.LV_GPIO_CTL ipre.length) pre.length = decide (lv ≠ 0) ∧
      only_bit_differs m.regs
        (gpio_low_voltage_level_sel mem_bus (ipre ++ ⟨pre ++ g :: post⟩ :: ipost)
          port mask lv m).regs (Reg.LV_GPIO_CTL ipre.length) pre.length) ∧
    ((∀ item, item ∈ tbl → ∀ x, x ∈ item.lvol_gpio → gpio_match port mask x = false) →
      gpio_low_voltage_level_sel mem_bus tbl port mask lv m = m) ∧
    gpio_match port mask NPCX_GPIO_NONE = false ∧
    bit_of (gpio_low_voltage_level_sel mem_bus gpio_lvol_table port mask lv m).regs
        (Reg.LV_GPIO_CTL 1) 7
      = bit_of m.regs (Reg.LV_GPIO_CTL 1) 7 := by
  refine ⟨?_, ?_, ?_, ?_⟩
  · intro hblocks hpre hg hj
    unfold gpio_low_voltage_level_sel
    rw [lvol_table_first_match mem_bus port mask lv ipre ipost pre post g 0 m hblocks hpre hg]
    simp only [Nat.zero_add]
    by_cases hlv : lv ≠ 0
    · rw [if_pos hlv]
      constructor
      · rw [bit_of_set_bits_mem, testBit_one_shl]
        simp [hj, hlv]
      · intro q k hqk
        rw [bit_of_set_bits_mem, testBit_one_shl]
        have : ¬ (q = Reg.LV_GPIO_CTL ipre.length ∧ k < 8 ∧
            decide (pre.length = k) = true) := by
          rintro ⟨h1, _, h3⟩
          exact hqk ⟨h1, (of_decide_eq_true h3).symm⟩
        rw [if_neg this]
    · rw [if_neg hlv]
      constructor
      · rw [bit_of_clear_bits_mem, testBit_one_shl]
        simp [hj, hlv]
      · intro q k hqk
        rw [bit_of_clear_bits_mem, testBit_one_shl]
        have : ¬ (q = Reg.LV_GPIO_CTL ipre.length ∧ k < 8 ∧
            decide (pre.length = k) = true) := by
          rintro ⟨h1, _, h3⟩
          exact hqk ⟨h1, (of_decide_eq_true h3).symm⟩
        rw [if_neg this]
  · intro h
    exact lvol_table_no_match mem_bus port mask lv tbl 0 m h
  · simp [gpio_match, NPCX_GPIO_NONE]
  · rcases lvol_sel_cases mem_bus gpio_lvol_table port mask lv m with
      h | ⟨ipre2, ipost2, pre2, post2, g2, htbl, hg2, h⟩
    · rw [h]
    · have hpos : ¬ (ipre2.length = 1 ∧ pre2.length = 7) := by
        rintro ⟨hi, hj⟩
        have h1 : gpio_lvol_table[1]? = some ⟨pre2 ++ g2 :: post2⟩ := by
          rw [htbl, ← hi]
          exact getElem?_append_length ipre2 ipost2 _
        have h1c : gpio_lvol_table[1]? = some ⟨[ NPCX_GPIO 9 2, NPCX_GPIO 9 1,
            NPCX_GPIO 0xD 1, NPCX_GPIO 0xD 0, NPCX_GPIO 3 6, NPCX_GPIO 6 4, NPCX_GPIO 6 5,
            NPCX_GPIO_NONE ]⟩ := rfl
        rw [h1c] at h1
        have h2 : pre2 ++ g2 :: post2 = [ NPCX_GPIO 9 2, NPCX_GPIO 9 1,
            NPCX_GPIO 0xD 1, NPCX_GPIO 0xD 0, NPCX_GPIO 3 6, NPCX_GPIO 6 4, NPCX_GPIO 6 5,
            NPCX_GPIO_NONE ] := by
          have := Option.some.inj h1
          exact (congrArg gpio_lvol_item.lvol_gpio this).symm
        have h3 : (pre2 ++ g2 :: post2)[7]? = some g2 := by
          rw [← hj]
          exact getElem?_append_length pre2 post2 g2
        rw [h2] at h3
        have h4 : g2 = NPCX_GPIO_NONE := (Option.some.inj h3).symm
        rw [h4] at hg2
        simp [gpio_match, NPCX_GPIO_NONE] at hg2
      rw [h]
      by_cases hlv : lv ≠ 0
      · rw [if_pos hlv, bit_of_set_bits_mem, testBit_one_shl]
        have : ¬ (Reg.LV_GPIO_CTL 1 = Reg.LV_GPIO_CTL ipre2.length ∧ 7 < 8 ∧
            decide (pre2.length = 7) = true) := by
          rintro ⟨h1, _, h3⟩
          exact hpos ⟨(Reg.LV_GPIO_CTL.inj h1).symm, of_decide_eq_true h3⟩
        rw [if_neg this]
      · rw [if_neg hlv, bit_of_clear_bits_mem, testBit_one_shl]
        have : ¬ (Reg.LV_GPIO_CTL 1 = Reg.LV_GPIO_CTL ipre2.length ∧ 7 < 8 ∧
            decide (pre2.length = 7) = true) := by
          rintro ⟨h1, _, h3⟩
          exact hpos ⟨(Reg.LV_GPIO_CTL.inj h1).symm, of_decide_eq_true h3⟩
        rw [if_neg this]


theorem low_voltage_sel_correct_witness :
    ((∀ item, item ∈ ([] : List gpio_lvol_item) → ∀ x, x ∈ item.lvol_gpio →
        gpio_match 9 1 x = false) ∧
      (∀ x, x ∈ [ NPCX_GPIO 0xB 5, NPCX_GPIO 0xB 4, NPCX_GPIO 0xB 3, NPCX_GPIO 0xB 2] →
        gpio_match 9 1 x = false) ∧
      gpio_match 9 1 ( NPCX_GPIO 9 0) = true ∧
      [ NPCX_GPIO 0xB 5, NPCX_GPIO 0xB 4, NPCX_GPIO 0xB 3, NPCX_GPIO 0xB 2].length < 8 ∧
      ([] ++ ⟨[ NPCX_GPIO 0xB 5, NPCX_GPIO 0xB 4, NPCX_GPIO 0xB 3, NPCX_GPIO 0xB 2]
          ++ NPCX_GPIO 9 0 :: [ NPCX_GPIO 8 7, NPCX_GPIO 0 0, NPCX_GPIO 3 3]⟩
          :: gpio_lvol_table.drop 1) = gpio_lvol_table) ∧
    bit_of (gpio_low_voltage_level_sel mem_bus
        ([] ++ ⟨[ NPCX_GPIO 0xB 5, NPCX_GPIO 0xB 4, NPCX_GPIO 0xB 3, NPCX_GPIO 0xB 2]
          ++ NPCX_GPIO 9 0 :: [ NPCX_GPIO 8 7, NPCX_GPIO 0 0, NPCX_GPIO 3 3]⟩
          :: gpio_lvol_table.drop 1) 9 1 1 (Machine.start zero_regs)).regs
        (Reg.LV_GPIO_CTL ([] : List gpio_lvol_item).length)
        [ NPCX_GPIO 0xB 5, NPCX_GPIO 0xB 4, NPCX_GPIO 0xB 3, NPCX_GPIO 0xB 2].length
      = decide ((1 : Nat) ≠ 0) :=
  ⟨⟨by decide, by decide, by decide, by decide, by decide⟩,
   ((low_voltage_sel_correct [] (gpio_lvol_table.drop 1) []
      [ NPCX_GPIO 0xB 5, NPCX_GPIO 0xB 4, NPCX_GPIO 0xB 3, NPCX_GPIO 0xB 2]
      [ NPCX_GPIO 8 7, NPCX_GPIO 0 0, NPCX_GPIO 3 3] ( NPCX_GPIO 9 0) 9 1 1
      (Machine.start zero_regs)).1 (by decide) (by decide) (by decide) (by decide)).1⟩


/-! ## Pin flags: `gpio_set_flags_by_mask` -/

theorem set_flags_eq (bus : Bus) (F : gpio_flag_bits) (gl : List gpio_info)
    (wt : List npcx_wui) (lt : List gpio_lvol_item) (port mask flags : Nat) (m : Machine) :
    gpio_set_flags_by_mask bus F gl wt lt port mask flags m
      = if flag_set flags F.GPIO_OUTPUT then
          reg_set_bits bus (Reg.PDIR port) mask
            (set_flags_before_output bus F gl wt lt port mask flags m)
        else set_flags_before_output bus F gl wt lt port mask flags m := by
  unfold gpio_set_flags_by_mask set_flags_before_output set_flags_middle set_flags_level
    set_flags_voltage set_flags_pull set_flags_type set_flags_input
  by_cases h : flag_set flags F.GPIO_INT_ANY = true
  · simp only [h, if_true]
  · simp only [h, if_false]

theorem footprint_set_flags_middle (F : gpio_flag_bits) (gl : List gpio_info)
    (wt : List npcx_wui) (lt : List gpio_lvol_item) (port mask flags : Nat) (m : Machine) :
    footprint (set_flags_middle_regs F port flags) m
      (set_flags_middle mem_bus F gl wt lt port mask flags m) := by
  have h2 : footprint (set_flags_middle_regs F port flags) m
      (set_flags_type mem_bus F port mask flags m) := by
    unfold set_flags_type
    split
    · exact footprint_set_bits _ _ _ _ (Or.inl rfl)
    · exact footprint_clear_bits _ _ _ _ (Or.inl rfl)
  have h3 : ∀ x, footprint (set_flags_middle_regs F port flags) x
      (set_flags_pull mem_bus F port mask flags x) := by
    intro x
    unfold set_flags_pull
    split
    · exact footprint_trans (footprint_clear_bits _ _ _ _ (Or.inr (Or.inl rfl)))
        (footprint_set_bits _ _ _ _ (Or.inr (Or.inr (Or.inl rfl))))
    · split
      · exact footprint_trans (footprint_set_bits _ _ _ _ (Or.inr (Or.inl rfl)))
          (footprint_set_bits _ _ _ _ (Or.inr (Or.inr (Or.inl rfl))))
      · exact footprint_clear_bits _ _ _ _ (Or.inr (Or.inr (Or.inl rfl)))
  have hlv : ∀ lv x, footprint (set_flags_middle_regs F port flags) x
      (gpio_low_voltage_level_sel mem_bus lt (port % 256) (mask % 256) lv x) := by
    intro lv x
    exact footprint_mono (fun r hr => Or.inr (Or.inr (Or.inr (Or.inl hr))))
      (footprint_lvol_sel lt _ _ lv x)
  have h4 : ∀ x, footprint (set_flags_middle_regs F port flags) x
      (set_flags_voltage mem_bus F lt port mask flags x) := by
    intro x
    unfold set_flags_voltage
    split
    · exact footprint_trans (footprint_trans (footprint_set_bits _ _ _ _ (Or.inl rfl))
        (footprint_clear_bits _ _ _ _ (Or.inr (Or.inr (Or.inl rfl))))) (hlv 1 _)
    · exact hlv 0 x
  have h6 : ∀ x, footprint (set_flags_middle_regs F port flags) x
      (set_flags_level mem_bus F port mask flags x) := by
    intro x
    unfold set_flags_level
    split
    · rename_i hh
      exact footprint_set_bits _ _ _ _
        (Or.inr (Or.inr (Or.inr (Or.inr (Or.inr ⟨rfl, Or.inl hh⟩)))))
    · split
      · rename_i hl
        exact footprint_clear_bits _ _ _ _
          (Or.inr (Or.inr (Or.inr (Or.inr (Or.inr ⟨rfl, Or.inr hl⟩)))))
      · exact footprint_refl _ x
  unfold set_flags_middle
  by_cases hi : flag_set flags F.GPIO_INT_ANY = true
  · simp only [hi, if_true]
    refine footprint_trans (footprint_trans (footprint_trans (footprint_trans h2 (h3 _)) (h4 _))
      ?_) (h6 _)
    exact footprint_mono (fun r hr => Or.inr (Or.inr (Or.inr (Or.inr (Or.inl ⟨hr, hi⟩)))))
      (footprint_set_flags_interrupts F gl wt port mask flags _)
  · simp only [hi, if_false]
    exact footprint_trans (footprint_trans (footprint_trans h2 (h3 _)) (h4 _)) (h6 _)

theorem set_flags_middle_regs_not_PDIR (F : gpio_flag_bits) (port flags : Nat) (r : Reg)
    (h : set_flags_middle_regs F port flags r) : ∀ p, r ≠ Reg.PDIR p := by
  intro p hp
  subst hp
  rcases h with h | h | h | ⟨_, h⟩ | ⟨h, _⟩ | ⟨h, _⟩ <;>
    first
      | exact absurd h (by simp)
      | exact h


/-- C11. When `flags` lacks `GPIO_OUTPUT`, the first store of
`gpio_set_flags_by_mask` is `PDIR(port) &= ~mask`, and everything after it is
stores to registers other than `PDIR`.  When `flags` has `GPIO_OUTPUT`, the call
is `PDIR(port) |= mask` applied after steps 1 to 6, which make no store to any
`PDIR` register and leave `PDIR` as it was: the `PDIR` store is the last store
of the call, the only one to `PDIR`, and every other register already holds its
final value before it. -/
theorem set_flags_direction_order (F : gpio_flag_bits) (gpio_list : List gpio_info)
    (gpio_wui_table : List npcx_wui) (lvol_table : List gpio_lvol_item)
    (port mask flags : Nat) (m : Machine) :
    (flag_set flags F.GPIO_OUTPUT = false →
      footprint (fun r => ∀ p, r ≠ Reg.PDIR p)
        (reg_clear_bits mem_bus (Reg.PDIR port) mask m)
        (gpio_set_flags_by_mask mem_bus F gpio_list gpio_wui_table lvol_table
          port mask flags m)) ∧
    (flag_set flags F.GPIO_OUTPUT = true →
      gpio_set_flags_by_mask mem_bus F gpio_list gpio_wui_table lvol_table port mask flags m
        = reg_set_bits mem_bus (Reg.PDIR port) mask
            (set_flags_before_output mem_bus F gpio_list gpio_wui_table lvol_table
              port mask flags m) ∧
      footprint (fun r => ∀ p, r ≠ Reg.PDIR p) m
        (set_flags_before_output mem_bus F gpio_list gpio_wui_table lvol_table port mask flags m) ∧
      (∃ v, (gpio_set_flags_by_mask mem_bus F gpio_list gpio_wui_table lvol_table
            port mask flags m).log
          = (set_flags_before_output mem_bus F gpio_list gpio_wui_table lvol_table
              port mask flags m).log ++ [Event.store (Reg.PDIR port) v]) ∧
      ∀ q, q ≠ Reg.PDIR port →
        (gpio_set_flags_by_mask mem_bus F gpio_list gpio_wui_table lvol_table
            port mask flags m).regs q
          = (set_flags_before_output mem_bus F gpio_list gpio_wui_table lvol_table
              port mask flags m).regs q) := by
  constructor
  · intro ho
    rw [set_flags_eq]
    simp only [ho, Bool.false_eq_true, if_false]
    unfold set_flags_before_output set_flags_input
    simp only [ho, Bool.not_false, if_true]
    exact footprint_mono (set_flags_middle_regs_not_PDIR F port flags)
      (footprint_set_flags_middle F gpio_list gpio_wui_table lvol_table port mask flags _)
  · intro ho
    rw [set_flags_eq]
    simp only [ho, if_true]
    refine ⟨trivial, ?_, ⟨_, log_reg_set_bits _ _ _ _⟩, ?_⟩
    · unfold set_flags_before_output set_flags_input
      simp only [ho, Bool.not_true, Bool.false_eq_true, if_false]
      exact footprint_mono (set_flags_middle_regs_not_PDIR F port flags)
        (footprint_set_flags_middle F gpio_list gpio_wui_table lvol_table port mask flags _)
    · intro q hq
      unfold reg_set_bits
      rw [regs_reg_write_mem, Function.update_noteq hq]

theorem set_flags_direction_order_witness :
    (flag_set 16 sample_flag_bits.GPIO_OUTPUT = false ∧
      footprint (fun r => ∀ p, r ≠ Reg.PDIR p)
        (reg_clear_bits mem_bus (Reg.PDIR 3) 4 (Machine.start ones_regs))
        (gpio_set_flags_by_mask mem_bus sample_flag_bits [] sample_wui_table gpio_lvol_table
          3 4 16 (Machine.start ones_regs))) ∧
    (flag_set 80 sample_flag_bits.GPIO_OUTPUT = true ∧
      gpio_set_flags_by_mask mem_bus sample_flag_bits [] sample_wui_table gpio_lvol_table
          3 4 80 (Machine.start ones_regs)
        = reg_set_bits mem_bus (Reg.PDIR 3) 4
            (set_flags_before_output mem_bus sample_flag_bits [] sample_wui_table gpio_lvol_table
              3 4 80 (Machine.start ones_regs))) :=
  ⟨⟨by decide,
    (set_flags_direction_order sample_flag_bits [] sample_wui_table gpio_lvol_table 3 4 16
      (Machine.start ones_regs)).1 (by decide)⟩,
   ⟨by decide,
    ((set_flags_direction_order sample_flag_bits [] sample_wui_table gpio_lvol_table 3 4 80
      (Machine.start ones_regs)).2 (by decide)).1⟩⟩


theorem footprint_set_flags_tail (F : gpio_flag_bits) (gl : List gpio_info)
    (wt : List npcx_wui) (port mask flags : Nat) (x : Machine) :
    footprint (fun r => is_wake_reg r ∨ r = Reg.PDOUT port ∨ r = Reg.PDIR port) x
      (if flag_set flags F.GPIO_OUTPUT then
        reg_set_bits mem_bus (Reg.PDIR port) mask
          (set_flags_level mem_bus F port mask flags
            (if flag_set flags F.GPIO_INT_ANY then
              set_flags_interrupts mem_bus F gl wt port mask flags x else x))
      else
        set_flags_level mem_bus F port mask flags
          (if flag_set flags F.GPIO_INT_ANY then
            set_flags_interrupts mem_bus F gl wt port mask flags x else x)) := by
  have h5 : footprint (fun r => is_wake_reg r ∨ r = Reg.PDOUT port ∨ r = Reg.PDIR port) x
      (if flag_set flags F.GPIO_INT_ANY then
        set_flags_interrupts mem_bus F gl wt port mask flags x else x) := by
    split
    · exact footprint_mono (fun r hr => Or.inl hr)
        (footprint_set_flags_interrupts F gl wt port mask flags x)
    · exact footprint_refl _ x
  have h6 : ∀ y, footprint (fun r => is_wake_reg r ∨ r = Reg.PDOUT port ∨ r = Reg.PDIR port) y
      (set_flags_level mem_bus F port mask flags y) := by
    intro y
    unfold set_flags_level
    split
    · exact footprint_set_bits _ _ _ _ (Or.inr (Or.inl rfl))
    · split
      · exact footprint_clear_bits _ _ _ _ (Or.inr (Or.inl rfl))
      · exact footprint_refl _ y
  split
  · exact footprint_trans (footprint_trans h5 (h6 _))
      (footprint_set_bits _ _ _ _ (Or.inr (Or.inr rfl)))
  · exact footprint_trans h5 (h6 _)

theorem set_flags_eq_tail (bus : Bus) (F : gpio_flag_bits) (gl : List gpio_info)
    (wt : List npcx_wui) (lt : List gpio_lvol_item) (port mask flags : Nat) (m : Machine) :
    gpio_set_flags_by_mask bus F gl wt lt port mask flags m
      = if flag_set flags F.GPIO_OUTPUT then
          reg_set_bits bus (Reg.PDIR port) mask
            (set_flags_level bus F port mask flags
              (if flag_set flags F.GPIO_INT_ANY then
                set_flags_interrupts bus F gl wt port mask flags
                  (set_flags_voltage bus F lt port mask flags
                    (set_flags_pull bus F port mask flags
                      (set_flags_type bus F port mask flags
                        (set_flags_input bus F port mask flags m))))
              else
                set_flags_voltage bus F lt port mask flags
                  (set_flags_pull bus F port mask flags
                    (set_flags_type bus F port mask flags
                      (set_flags_input bus F port mask flags m)))))
        else
          set_flags_level bus F port mask flags
            (if flag_set flags F.GPIO_INT_ANY then
              set_flags_interrupts bus F gl wt port mask flags
                (set_flags_voltage bus F lt port mask flags
                  (set_flags_pull bus F port mask flags
                    (set_flags_type bus F port mask flags
                      (set_flags_input bus F port mask flags m))))
            else
              set_flags_voltage bus F lt port mask flags
                (set_flags_pull bus F port mask flags
                  (set_flags_type bus F port mask flags
                    (set_flags_input bus F port mask flags m)))) := by
  rw [set_flags_eq]
  rfl

/-- C12. Let `flags` have `GPIO_SEL_1P8V` and let no pin of the low-voltage
table match the port and mask that `gpio_set_flags_by_mask` hands to
`gpio_low_voltage_level_sel`.  Then the call leaves every `LV_GPIO_CTL`
register unchanged, and afterwards the mask bits of `PTYPE(port)` are set
(open-drain) and the mask bits of `PPULL(port)` are clear, whatever the other
flags. -/
theorem set_flags_1p8v_unlisted_pin (F : gpio_flag_bits) (gpio_list : List gpio_info)
    (gpio_wui_table : List npcx_wui) (lvol_table : List gpio_lvol_item)
    (port mask flags : Nat) (m : Machine)
    (hv : flag_set flags F.GPIO_SEL_1P8V = true)
    (hno : ∀ item, item ∈ lvol_table → ∀ x, x ∈ item.lvol_gpio →
      gpio_match (port % 256) (mask % 256) x = false) :
    (∀ i, (gpio_set_flags_by_mask mem_bus F gpio_list gpio_wui_table lvol_table
        port mask flags m).regs (Reg.LV_GPIO_CTL i) = m.regs (Reg.LV_GPIO_CTL i)) ∧
    (∀ k, k < 8 → mask.testBit k = true →
      bit_of (gpio_set_flags_by_mask mem_bus F gpio_list gpio_wui_table lvol_table
        port mask flags m).regs (Reg.PTYPE port) k = true) ∧
    (∀ k, mask.testBit k = true →
      bit_of (gpio_set_flags_by_mask mem_bus F gpio_list gpio_wui_table lvol_table
        port mask flags m).regs (Reg.PPULL port) k = false) := by
  have htail := footprint_set_flags_tail F gpio_list gpio_wui_table port mask flags
    (set_flags_voltage mem_bus F lvol_table port mask flags
      (set_flags_pull mem_bus F port mask flags
        (set_flags_type mem_bus F port mask flags
          (set_flags_input mem_bus F port mask flags m))))
  have hv4 : ∀ x, set_flags_voltage mem_bus F lvol_table port mask flags x
      = reg_clear_bits mem_bus (Reg.PPULL port) mask
          (reg_set_bits mem_bus (Reg.PTYPE port) mask x) := by
    intro x
    unfold set_flags_voltage gpio_low_voltage_level_sel
    rw [if_pos hv, lvol_table_no_match mem_bus _ _ _ lvol_table 0 _ hno]
  rw [set_flags_eq_tail]
  refine ⟨?_, ?_, ?_⟩
  · intro i
    rw [htail.2 (Reg.LV_GPIO_CTL i) (by simp [is_wake_reg]), hv4]
    have h1 : footprint (fun r => ∀ j, r ≠ Reg.LV_GPIO_CTL j) m
        (set_flags_input mem_bus F port mask flags m) := by
      unfold set_flags_input
      split
      · exact footprint_clear_bits _ _ _ _ (by simp)
      · exact footprint_refl _ m
    have h2 : ∀ x, footprint (fun r => ∀ j, r ≠ Reg.LV_GPIO_CTL j) x
        (set_flags_type mem_bus F port mask flags x) := by
      intro x
      unfold set_flags_type
      split
      · exact footprint_set_bits _ _ _ _ (by simp)
      · exact footprint_clear_bits _ _ _ _ (by simp)
    have h3 : ∀ x, footprint (fun r => ∀ j, r ≠ Reg.LV_GPIO_CTL j) x
        (set_flags_pull mem_bus F port mask flags x) := by
      intro x
      unfold set_flags_pull
      split
      · exact footprint_trans (footprint_clear_bits _ _ _ _ (by simp))
          (footprint_set_bits _ _ _ _ (by simp))
      · split
        · exact footprint_trans (footprint_set_bits _ _ _ _ (by simp))
            (footprint_set_bits _ _ _ _ (by simp))
        · exact footprint_clear_bits _ _ _ _ (by simp)
    have hpre := footprint_trans (footprint_trans h1 (h2 _)) (h3 _)
    unfold reg_clear_bits reg_set_bits
    rw [regs_reg_write_mem, Function.update_noteq (by simp), regs_reg_write_mem,
      Function.update_noteq (by simp)]
    exact hpre.2 (Reg.LV_GPIO_CTL i) (fun h => h i rfl)
  · intro k hk hmk
    unfold bit_of
    rw [htail.2 (Reg.PTYPE port) (by simp [is_wake_reg]), hv4]
    show bit_of _ (Reg.PTYPE port) k = true
    rw [bit_of_clear_bits_mem, bit_of_set_bits_mem]
    simp [hk, hmk]
  · intro k hmk
    unfold bit_of
    rw [htail.2 (Reg.PPULL port) (by simp [is_wake_reg]), hv4]
    show bit_of _ (Reg.PPULL port) k = false
    rw [bit_of_clear_bits_mem]
    by_cases hk : k < 8
    · simp [hk, hmk]
    · simp only [hk, false_and, and_false, if_false]
      exact bit_of_ge_eight _ _ _ (by omega)

theorem set_flags_1p8v_unlisted_pin_witness :
    (flag_set 32770 sample_flag_bits.GPIO_SEL_1P8V = true ∧
      (∀ item, item ∈ gpio_lvol_table → ∀ x, x ∈ item.lvol_gpio →
        gpio_match (5 % 256) (4 % 256) x = false)) ∧
    (∀ k, k < 8 → (4 : Nat).testBit k = true →
      bit_of (gpio_set_flags_by_mask mem_bus sample_flag_bits [] sample_wui_table
        gpio_lvol_table 5 4 32770 (Machine.start zero_regs)).regs (Reg.PTYPE 5) k = true) :=
  ⟨⟨by decide, by decide⟩,
   (set_flags_1p8v_unlisted_pin sample_flag_bits [] sample_wui_table gpio_lvol_table 5 4 32770
      (Machine.start zero_regs) (by decide) (by decide)).2.1⟩


/-! ## Initialisation: `gpio_pre_init` -/

theorem foldl_filter_of_skip {α β : Type} (f : α → β → α) (p : β → Bool) (l : List β) (a : α)
    (h : ∀ x b, p b = false → f x b = x) : l.foldl f a = (l.filter p).foldl f a := by
  induction l generalizing a with
  | nil => rfl
  | cons b rest ih =>
    cases hb : p b
    · rw [List.foldl_cons, h a b hb, List.filter_cons_of_neg (by simp [hb])]
      exact ih a
    · rw [List.foldl_cons, List.filter_cons_of_pos hb, List.foldl_cons]
      exact ih (f a b)

/-- C14, counterexample.  Port 3, mask `1 << 2`, flags `GPIO_DEFAULT` alone,
every register `0xFF` at entry: `gpio_set_flags_by_mask` clears bit 2 of
`PDIR(3)` and of `PTYPE(3)`, so the register state is not unchanged. -/
theorem set_flags_default_flag_still_configures :
    flag_set 4096 sample_flag_bits.GPIO_DEFAULT = true ∧
    bit_of ones_regs (Reg.PDIR 3) 2 = true ∧
    bit_of (gpio_set_flags_by_mask mem_bus sample_flag_bits sample_gpio_list sample_wui_table
      gpio_lvol_table 3 4 4096 (Machine.start ones_regs)).regs (Reg.PDIR 3) 2 = false ∧
    bit_of ones_regs (Reg.PTYPE 3) 2 = true ∧
    bit_of (gpio_set_flags_by_mask mem_bus sample_flag_bits sample_gpio_list sample_wui_table
      gpio_lvol_table 3 4 4096 (Machine.start ones_regs)).regs (Reg.PTYPE 3) 2 = false := by
  decide

/-- C14, as amended.  `gpio_set_flags_by_mask` never tests `GPIO_DEFAULT` (its
result does not depend on the value of that constant).  The sentinel is
honoured by `gpio_pre_init`: the loop body leaves the machine unchanged for a
`gpio_list` row whose flags have `GPIO_DEFAULT`, so `gpio_pre_init` makes no
store for such a row and acts as the same loop over the rows without
`GPIO_DEFAULT`. -/
theorem pre_init_skips_default (bus : Bus) (F : gpio_flag_bits) (cfg : build_config)
    (D : devalt_bits) (gpio_list : List gpio_info) (gpio_wui_table : List npcx_wui)
    (alt_table : List gpio_alt_map) (lvol_table : List gpio_lvol_item) (is_warm : Bool)
    (g : gpio_info) (port mask flags d : Nat) (m : Machine) :
    gpio_set_flags_by_mask bus { F with GPIO_DEFAULT := d } gpio_list gpio_wui_table lvol_table
        port mask flags m
      = gpio_set_flags_by_mask bus F gpio_list gpio_wui_table lvol_table port mask flags m ∧
    (flag_set g.flags F.GPIO_DEFAULT = true →
      pre_init_signal bus F gpio_list gpio_wui_table alt_table lvol_table is_warm m g = m) ∧
    gpio_pre_init bus F cfg D gpio_list gpio_wui_table alt_table lvol_table is_warm m
      = (gpio_list.filter (fun x => !flag_set x.flags F.GPIO_DEFAULT)).foldl
          (pre_init_signal bus F gpio_list gpio_wui_table alt_table lvol_table is_warm)
          (pre_init_clear_wake bus (pre_init_pin_mux bus cfg D m)) := by
  refine ⟨rfl, ?_, ?_⟩
  · intro h
    unfold pre_init_signal
    rw [if_pos h]
  · unfold gpio_pre_init
    apply foldl_filter_of_skip
    intro x b hb
    unfold pre_init_signal
    have : flag_set b.flags F.GPIO_DEFAULT = true := by
      cases hf : flag_set b.flags F.GPIO_DEFAULT
      · rw [hf] at hb
        exact absurd hb (by simp)
      · rfl
    rw [if_pos this]

theorem pre_init_skips_default_witness :
    flag_set (⟨5, 1, 4096 + 80⟩ : gpio_info).flags sample_flag_bits.GPIO_DEFAULT = true ∧
    pre_init_signal mem_bus sample_flag_bits sample_gpio_list sample_wui_table sample_alt_table
      gpio_lvol_table false (Machine.start ones_regs) ⟨5, 1, 4096 + 80⟩
      = Machine.start ones_regs :=
  ⟨by decide,
   (pre_init_skips_default mem_bus sample_flag_bits sample_config zero_devalt_bits
      sample_gpio_list sample_wui_table sample_alt_table gpio_lvol_table false
      ⟨5, 1, 4096 + 80⟩ 0 0 0 0 (Machine.start ones_regs)).2.1 (by decide)⟩


/-! ## Dependence of the configurator on the flag tests -/

theorem testBit_and_not (x bits k : Nat) :
    (and_not x bits).testBit k = (x.testBit k && !bits.testBit k) := by
  unfold and_not
  rw [Nat.testBit_xor, Nat.testBit_and]
  cases x.testBit k <;> cases bits.testBit k <;> rfl

theorem flag_set_and_not_of_disjoint (flags bits X : Nat) (hd : X &&& bits = 0) :
    flag_set (and_not flags bits) X = flag_set flags X := by
  unfold flag_set
  have : and_not flags bits &&& X = flags &&& X := by
    apply Nat.eq_of_testBit_eq
    intro k
    have hk : (X &&& bits).testBit k = false := by rw [hd, Nat.zero_testBit]
    rw [Nat.testBit_and] at hk
    rw [Nat.testBit_and, Nat.testBit_and, testBit_and_not]
    cases hx : X.testBit k <;> cases hb : bits.testBit k <;> simp_all
  rw [this]

theorem flag_set_and_not_self (flags bits : Nat) : flag_set (and_not flags bits) bits = false := by
  unfold flag_set
  have : and_not flags bits &&& bits = 0 := by
    apply Nat.eq_of_testBit_eq
    intro k
    rw [Nat.testBit_and, testBit_and_not, Nat.zero_testBit]
    cases flags.testBit k <;> cases bits.testBit k <;> rfl
  rw [this]
  rfl

theorem type_sel_congr (bus : Bus) (F1 F2 : gpio_flag_bits) (tbl : List npcx_wui)
    (signal f1 f2 : Nat) (m : Machine)
    (hH : flag_set f1 F1.GPIO_INT_F_HIGH = flag_set f2 F2.GPIO_INT_F_HIGH)
    (hL : flag_set f1 F1.GPIO_INT_F_LOW = flag_set f2 F2.GPIO_INT_F_LOW)
    (hR : flag_set f1 F1.GPIO_INT_F_RISING = flag_set f2 F2.GPIO_INT_F_RISING)
    (hF : flag_set f1 F1.GPIO_INT_F_FALLING = flag_set f2 F2.GPIO_INT_F_FALLING) :
    gpio_interrupt_type_sel bus F1 tbl signal f1 m
      = gpio_interrupt_type_sel bus F2 tbl signal f2 m := by
  unfold gpio_interrupt_type_sel
  rw [hH, hL, hR, hF]

theorem set_flags_interrupts_congr (bus : Bus) (F1 F2 : gpio_flag_bits) (gl : List gpio_info)
    (tbl : List npcx_wui) (port mask f1 f2 : Nat) (m : Machine)
    (hH : flag_set f1 F1.GPIO_INT_F_HIGH = flag_set f2 F2.GPIO_INT_F_HIGH)
    (hL : flag_set f1 F1.GPIO_INT_F_LOW = flag_set f2 F2.GPIO_INT_F_LOW)
    (hR : flag_set f1 F1.GPIO_INT_F_RISING = flag_set f2 F2.GPIO_INT_F_RISING)
    (hF : flag_set f1 F1.GPIO_INT_F_FALLING = flag_set f2 F2.GPIO_INT_F_FALLING) :
    set_flags_interrupts bus F1 gl tbl port mask f1 m
      = set_flags_interrupts bus F2 gl tbl port mask f2 m := by
  unfold set_flags_interrupts
  congr 1
  funext acc gpio_int
  rw [type_sel_congr bus F1 F2 tbl gpio_int f1 f2 acc hH hL hR hF]

theorem set_flags_congr (bus : Bus) (F1 F2 : gpio_flag_bits) (gl : List gpio_info)
    (wt : List npcx_wui) (lt : List gpio_lvol_item) (port mask f1 f2 : Nat) (m : Machine)
    (hO : flag_set f1 F1.GPIO_OUTPUT = flag_set f2 F2.GPIO_OUTPUT)
    (hT : flag_set f1 F1.GPIO_OPEN_DRAIN = flag_set f2 F2.GPIO_OPEN_DRAIN)
    (hU : flag_set f1 F1.GPIO_PULL_UP = flag_set f2 F2.GPIO_PULL_UP)
    (hD : flag_set f2 F2.GPIO_PULL_UP = false →
      flag_set f1 F1.GPIO_PULL_DOWN = flag_set f2 F2.GPIO_PULL_DOWN)
    (hV : flag_set f1 F1.GPIO_SEL_1P8V = flag_set f2 F2.GPIO_SEL_1P8V)
    (hI : flag_set f1 F1.GPIO_INT_ANY = flag_set f2 F2.GPIO_INT_ANY)
    (hH : flag_set f1 F1.GPIO_INT_F_HIGH = flag_set f2 F2.GPIO_INT_F_HIGH)
    (hL : flag_set f1 F1.GPIO_INT_F_LOW = flag_set f2 F2.GPIO_INT_F_LOW)
    (hR : flag_set f1 F1.GPIO_INT_F_RISING = flag_set f2 F2.GPIO_INT_F_RISING)
    (hF : flag_set f1 F1.GPIO_INT_F_FALLING = flag_set f2 F2.GPIO_INT_F_FALLING)
    (hHi : flag_set f1 F1.GPIO_HIGH = flag_set f2 F2.GPIO_HIGH)
    (hLo : flag_set f1 F1.GPIO_LOW = flag_set f2 F2.GPIO_LOW) :
    gpio_set_flags_by_mask bus F1 gl wt lt port mask f1 m
      = gpio_set_flags_by_mask bus F2 gl wt lt port mask f2 m := by
  rw [set_flags_eq_tail, set_flags_eq_tail]
  have hpull : ∀ x, set_flags_pull bus F1 port mask f1 x = set_flags_pull bus F2 port mask f2 x := by
    intro x
    unfold set_flags_pull
    rw [hU]
    cases hu : flag_set f2 F2.GPIO_PULL_UP
    · rw [hD hu]
    · rfl
  have hin : set_flags_input bus F1 port mask f1 m = set_flags_input bus F2 port mask f2 m := by
    unfold set_flags_input
    rw [hO]
  have hty : ∀ x, set_flags_type bus F1 port mask f1 x = set_flags_type bus F2 port mask f2 x := by
    intro x
    unfold set_flags_type
    rw [hT]
  have hvo : ∀ x, set_flags_voltage bus F1 lt port mask f1 x
      = set_flags_voltage bus F2 lt port mask f2 x := by
    intro x
    unfold set_flags_voltage
    rw [hV]
  have hle : ∀ x, set_flags_level bus F1 port mask f1 x = set_flags_level bus F2 port mask f2 x := by
    intro x
    unfold set_flags_level
    rw [hHi, hLo]
  have hint : ∀ x, set_flags_interrupts bus F1 gl wt port mask f1 x
      = set_flags_interrupts bus F2 gl wt port mask f2 x :=
    fun x => set_flags_interrupts_congr bus F1 F2 gl wt port mask f1 f2 x hH hL hR hF
  simp only [hO, hI, hin, hty, hpull, hvo, hle, hint]


theorem flag_bits_disjoint_pull_down (F : gpio_flag_bits) (hd : flag_bits_disjoint F) :
    F.GPIO_OUTPUT &&& F.GPIO_PULL_DOWN = 0 ∧ F.GPIO_OPEN_DRAIN &&& F.GPIO_PULL_DOWN = 0 ∧
    F.GPIO_PULL_UP &&& F.GPIO_PULL_DOWN = 0 ∧ F.GPIO_SEL_1P8V &&& F.GPIO_PULL_DOWN = 0 ∧
    F.GPIO_INT_ANY &&& F.GPIO_PULL_DOWN = 0 ∧ F.GPIO_INT_F_HIGH &&& F.GPIO_PULL_DOWN = 0 ∧
    F.GPIO_INT_F_LOW &&& F.GPIO_PULL_DOWN = 0 ∧ F.GPIO_INT_F_RISING &&& F.GPIO_PULL_DOWN = 0 ∧
    F.GPIO_INT_F_FALLING &&& F.GPIO_PULL_DOWN = 0 ∧ F.GPIO_HIGH &&& F.GPIO_PULL_DOWN = 0 ∧
    F.GPIO_LOW &&& F.GPIO_PULL_DOWN = 0 := by
  unfold flag_bits_disjoint at hd
  simp only [List.pairwise_cons, List.mem_cons, List.mem_singleton, forall_eq_or_imp,
    forall_eq, List.not_mem_nil, IsEmpty.forall_iff, implies_true, List.Pairwise.nil,
    and_true] at hd
  obtain ⟨h1, h2⟩ := hd
  refine ⟨?_, ?_, ?_, ?_, ?_, ?_, ?_, ?_, ?_, ?_, ?_⟩ <;>
    first
      | tauto
      | (rw [Nat.land_comm]; tauto)


theorem regs_lvol_sel_other (tbl : List gpio_lvol_item) (port mask lv : Nat) (m : Machine)
    (q : Reg) (hq : ∀ i, q ≠ Reg.LV_GPIO_CTL i) :
    (gpio_low_voltage_level_sel mem_bus tbl port mask lv m).regs q = m.regs q :=
  (footprint_lvol_sel tbl port mask lv m).2 q (fun ⟨i, hi⟩ => hq i hi)

/-- C20. Let the flag bits be pairwise disjoint and let `flags` have
`GPIO_PULL_UP`.  Then `gpio_set_flags_by_mask` with `flags` (in particular with
`GPIO_PULL_DOWN` also set) produces exactly the machine state it produces with
`GPIO_PULL_DOWN` removed from `flags`; afterwards the mask bits of `PPUD(port)`
are clear, and the mask bits of `PPULL(port)` are set unless `GPIO_SEL_1P8V` is
requested, in which case they are clear. -/
theorem set_flags_pull_up_wins (F : gpio_flag_bits) (gpio_list : List gpio_info)
    (gpio_wui_table : List npcx_wui) (lvol_table : List gpio_lvol_item)
    (port mask flags : Nat) (m : Machine) (hd : flag_bits_disjoint F)
    (hu : flag_set flags F.GPIO_PULL_UP = true) :
    flag_set (and_not flags F.GPIO_PULL_DOWN) F.GPIO_PULL_DOWN = false ∧
    gpio_set_flags_by_mask mem_bus F gpio_list gpio_wui_table lvol_table port mask flags m
      = gpio_set_flags_by_mask mem_bus F gpio_list gpio_wui_table lvol_table port mask
          (and_not flags F.GPIO_PULL_DOWN) m ∧
    (∀ k, k < 8 → mask.testBit k = true →
      bit_of (gpio_set_flags_by_mask mem_bus F gpio_list gpio_wui_table lvol_table
          port mask flags m).regs (Reg.PPUD port) k = false ∧
      bit_of (gpio_set_flags_by_mask mem_bus F gpio_list gpio_wui_table lvol_table
          port mask flags m).regs (Reg.PPULL port) k = !flag_set flags F.GPIO_SEL_1P8V) := by
  obtain ⟨d1, d2, d3, d4, d5, d6, d7, d8, d9, d10, d11⟩ := flag_bits_disjoint_pull_down F hd
  refine ⟨flag_set_and_not_self _ _, ?_, ?_⟩
  · apply set_flags_congr
    · exact (flag_set_and_not_of_disjoint _ _ _ d1).symm
    · exact (flag_set_and_not_of_disjoint _ _ _ d2).symm
    · exact (flag_set_and_not_of_disjoint _ _ _ d3).symm
    · intro hcon
      rw [flag_set_and_not_of_disjoint _ _ _ d3, hu] at hcon
      exact absurd hcon (by simp)
    · exact (flag_set_and_not_of_disjoint _ _ _ d4).symm
    · exact (flag_set_and_not_of_disjoint _ _ _ d5).symm
    · exact (flag_set_and_not_of_disjoint _ _ _ d6).symm
    · exact (flag_set_and_not_of_disjoint _ _ _ d7).symm
    · exact (flag_set_and_not_of_disjoint _ _ _ d8).symm
    · exact (flag_set_and_not_of_disjoint _ _ _ d9).symm
    · exact (flag_set_and_not_of_disjoint _ _ _ d10).symm
    · exact (flag_set_and_not_of_disjoint _ _ _ d11).symm
  · intro k hk hmk
    have htail := footprint_set_flags_tail F gpio_list gpio_wui_table port mask flags
      (set_flags_voltage mem_bus F lvol_table port mask flags
        (set_flags_pull mem_bus F port mask flags
          (set_flags_type mem_bus F port mask flags
            (set_flags_input mem_bus F port mask flags m))))
    rw [set_flags_eq_tail]
    unfold bit_of
    rw [htail.2 (Reg.PPUD port) (by simp [is_wake_reg]),
      htail.2 (Reg.PPULL port) (by simp [is_wake_reg])]
    unfold set_flags_voltage set_flags_pull
    rw [if_pos hu]
    cases hv : flag_set flags F.GPIO_SEL_1P8V
    · simp only [Bool.false_eq_true, if_false, Bool.not_false]
      rw [regs_lvol_sel_other _ _ _ _ _ _ (by simp), regs_lvol_sel_other _ _ _ _ _ _ (by simp)]
      constructor
      · show bit_of _ (Reg.PPUD port) k = false
        rw [bit_of_set_bits_mem, bit_of_clear_bits_mem]
        simp [hk, hmk]
      · show bit_of _ (Reg.PPULL port) k = true
        rw [bit_of_set_bits_mem]
        simp [hk, hmk]
    · simp only [if_true, Bool.not_true]
      rw [regs_lvol_sel_other _ _ _ _ _ _ (by simp), regs_lvol_sel_other _ _ _ _ _ _ (by simp)]
      constructor
      · show bit_of _ (Reg.PPUD port) k = false
        rw [bit_of_clear_bits_mem, bit_of_set_bits_mem, bit_of_set_bits_mem,
          bit_of_clear_bits_mem]
        simp [hk, hmk]
      · show bit_of _ (Reg.PPULL port) k = false
        rw [bit_of_clear_bits_mem]
        simp [hk, hmk]

theorem set_flags_pull_up_wins_witness :
    (flag_bits_disjoint sample_flag_bits ∧ flag_set 6 sample_flag_bits.GPIO_PULL_UP = true ∧
      flag_set 6 sample_flag_bits.GPIO_PULL_DOWN = true ∧
      and_not 6 sample_flag_bits.GPIO_PULL_DOWN = 2) ∧
    gpio_set_flags_by_mask mem_bus sample_flag_bits sample_gpio_list sample_wui_table
        gpio_lvol_table 3 4 6 (Machine.start zero_regs)
      = gpio_set_flags_by_mask mem_bus sample_flag_bits sample_gpio_list sample_wui_table
          gpio_lvol_table 3 4 (and_not 6 sample_flag_bits.GPIO_PULL_DOWN)
          (Machine.start zero_regs) :=
  ⟨⟨by unfold flag_bits_disjoint; decide, by decide, by decide, by decide⟩,
   (set_flags_pull_up_wins sample_flag_bits sample_gpio_list sample_wui_table gpio_lvol_table
      3 4 6 (Machine.start zero_regs) (by unfold flag_bits_disjoint; decide) (by decide)).2.1⟩


/-! ## Warm and cold initialisation -/

theorem footprint_alt_sel (tbl : List gpio_alt_map) (port bit : Nat) (func : Int)
    (m : Machine) :
    footprint (fun r => ∃ n, r = Reg.DEVALT n) m (gpio_alt_sel mem_bus tbl port bit func m).2 := by
  induction tbl with
  | nil => exact footprint_refl _ m
  | cons map rest ih =>
    unfold gpio_alt_sel
    split
    · split
      · exact footprint_clear_bits _ _ _ _ ⟨_, rfl⟩
      · exact footprint_set_bits _ _ _ _ ⟨_, rfl⟩
    · exact ih

theorem footprint_set_alternate_function (tbl : List gpio_alt_map) (port mask : Nat)
    (func : Int) (m : Machine) :
    footprint (fun r => ∃ n, r = Reg.DEVALT n) m
      (gpio_set_alternate_function mem_bus tbl port mask func m) := by
  unfold gpio_set_alternate_function
  apply footprint_foldl
  intro x pin _
  split
  · exact footprint_alt_sel tbl _ _ _ x
  · exact footprint_refl _ x

theorem footprint_set_flags (F : gpio_flag_bits) (gl : List gpio_info) (wt : List npcx_wui)
    (lt : List gpio_lvol_item) (port mask flags : Nat) (m : Machine) :
    footprint (fun r => r = Reg.PDIR port ∨ set_flags_middle_regs F port flags r) m
      (gpio_set_flags_by_mask mem_bus F gl wt lt port mask flags m) := by
  rw [set_flags_eq]
  have hin : footprint (fun r => r = Reg.PDIR port ∨ set_flags_middle_regs F port flags r) m
      (set_flags_input mem_bus F port mask flags m) := by
    unfold set_flags_input
    split
    · exact footprint_clear_bits _ _ _ _ (Or.inl rfl)
    · exact footprint_refl _ m
  have hpre : footprint (fun r => r = Reg.PDIR port ∨ set_flags_middle_regs F port flags r) m
      (set_flags_before_output mem_bus F gl wt lt port mask flags m) := by
    unfold set_flags_before_output
    exact footprint_trans hin (footprint_mono (fun r hr => Or.inr hr)
      (footprint_set_flags_middle F gl wt lt port mask flags _))
  split
  · exact footprint_trans hpre (footprint_set_bits _ _ _ _ (Or.inl rfl))
  · exact hpre

theorem footprint_pin_mux (cfg : build_config) (D : devalt_bits) (m : Machine) :
    footprint (fun r => (∃ n, r = Reg.DEVALT n) ∨ r = Reg.DEVCNT) m
      (pre_init_pin_mux mem_bus cfg D m) := by
  unfold pre_init_pin_mux
  have h3 : footprint (fun r => (∃ n, r = Reg.DEVALT n) ∨ r = Reg.DEVCNT) m
      (reg_set_bits mem_bus (Reg.DEVALT 1)
        (1 <<< (D devalt_bit_name.NPCX_DEVALT1_NO_PWRGD).val)
        (reg_set_bits mem_bus (Reg.DEVALT 0)
          (1 <<< (D devalt_bit_name.NPCX_DEVALT0_NO_F_SPI).val)
          (reg_set_bits mem_bus (Reg.DEVALT 0)
            (1 <<< (D devalt_bit_name.NPCX_DEVALT0_GPIO_NO_SPIP).val) m))) :=
    footprint_trans (footprint_trans (footprint_set_bits _ _ _ _ (Or.inl ⟨_, rfl⟩))
      (footprint_set_bits _ _ _ _ (Or.inl ⟨_, rfl⟩)))
      (footprint_set_bits _ _ _ _ (Or.inl ⟨_, rfl⟩))
  cases hp : cfg.CONFIG_PECI <;> cases hs : cfg.CONFIG_HOSTCMD_SPS <;>
    simp only [Bool.not_false, Bool.not_true, Bool.false_eq_true, if_true, if_false]
  · exact footprint_trans h3 (footprint_set_bits _ _ _ _ (Or.inl ⟨_, rfl⟩))
  · exact footprint_trans (footprint_trans (footprint_trans h3
      (footprint_set_bits _ _ _ _ (Or.inl ⟨_, rfl⟩)))
      (footprint_set_bits _ _ _ _ (Or.inr rfl))) (footprint_set_bits _ _ _ _ (Or.inl ⟨_, rfl⟩))
  · exact h3
  · exact footprint_trans (footprint_trans h3 (footprint_set_bits _ _ _ _ (Or.inr rfl)))
      (footprint_set_bits _ _ _ _ (Or.inl ⟨_, rfl⟩))

theorem footprint_clear_wake (m : Machine) :
    footprint is_wake_reg m (pre_init_clear_wake mem_bus m) := by
  unfold pre_init_clear_wake
  apply footprint_foldl
  intro x i _
  apply footprint_foldl
  intro y j _
  exact footprint_trans (footprint_write _ _ _ _ (by simp [is_wake_reg]))
    (footprint_write _ _ _ _ (by simp [is_wake_reg]))

theorem flag_set_and_not_left (flags L H : Nat) :
    flag_set (and_not flags (L ||| H)) L = false ∧
    flag_set (and_not flags (L ||| H)) H = false := by
  unfold flag_set
  have h1 : and_not flags (L ||| H) &&& L = 0 := by
    apply Nat.eq_of_testBit_eq
    intro k
    rw [Nat.testBit_and, testBit_and_not, Nat.testBit_or, Nat.zero_testBit]
    cases flags.testBit k <;> cases L.testBit k <;> cases H.testBit k <;> rfl
  have h2 : and_not flags (L ||| H) &&& H = 0 := by
    apply Nat.eq_of_testBit_eq
    intro k
    rw [Nat.testBit_and, testBit_and_not, Nat.testBit_or, Nat.zero_testBit]
    cases flags.testBit k <;> cases L.testBit k <;> cases H.testBit k <;> rfl
  rw [h1, h2]
  exact ⟨rfl, rfl⟩

theorem footprint_pre_init_signal_warm (F : gpio_flag_bits) (gl : List gpio_info)
    (wt : List npcx_wui) (alt : List gpio_alt_map) (lt : List gpio_lvol_item) (m : Machine)
    (g : gpio_info) :
    footprint (fun r => ∀ p, r ≠ Reg.PDOUT p) m
      (pre_init_signal mem_bus F gl wt alt lt true m g) := by
  unfold pre_init_signal
  split
  · exact footprint_refl _ m
  · simp only [if_true]
    obtain ⟨hlo, hhi⟩ := flag_set_and_not_left g.flags F.GPIO_LOW F.GPIO_HIGH
    refine footprint_trans (footprint_mono ?_ (footprint_set_flags F gl wt lt g.port g.mask
      (and_not g.flags (F.GPIO_LOW ||| F.GPIO_HIGH)) m))
      (footprint_mono ?_ (footprint_set_alternate_function alt g.port g.mask (-1) _))
    · intro r hr p hp
      subst hp
      rcases hr with h | h | h | h | ⟨_, h⟩ | ⟨h, _⟩ | ⟨_, h⟩
      · exact absurd h (by simp)
      · exact absurd h (by simp)
      · exact absurd h (by simp)
      · exact absurd h (by simp)
      · exact absurd h (by simp)
      · exact h
      · rw [hlo, hhi] at h
        simp at h
    · rintro r ⟨n, hn⟩ p hp
      rw [hn] at hp
      exact absurd hp (by simp)


theorem regs_before_level_PDOUT (F : gpio_flag_bits) (gl : List gpio_info)
    (wt : List npcx_wui) (lt : List gpio_lvol_item) (port mask flags : Nat) (y : Machine)
    (q : Nat) :
    (if flag_set flags F.GPIO_INT_ANY then
      set_flags_interrupts mem_bus F gl wt port mask flags
        (set_flags_voltage mem_bus F lt port mask flags
          (set_flags_pull mem_bus F port mask flags
            (set_flags_type mem_bus F port mask flags
              (set_flags_input mem_bus F port mask flags y))))
    else
      set_flags_voltage mem_bus F lt port mask flags
        (set_flags_pull mem_bus F port mask flags
          (set_flags_type mem_bus F port mask flags
            (set_flags_input mem_bus F port mask flags y)))).regs (Reg.PDOUT q)
      = y.regs (Reg.PDOUT q) := by
  have h1 : footprint (fun r => ∀ j, r ≠ Reg.PDOUT j) y
      (set_flags_input mem_bus F port mask flags y) := by
    unfold set_flags_input
    split
    · exact footprint_clear_bits _ _ _ _ (by simp)
    · exact footprint_refl _ y
  have h2 : ∀ x, footprint (fun r => ∀ j, r ≠ Reg.PDOUT j) x
      (set_flags_type mem_bus F port mask flags x) := by
    intro x
    unfold set_flags_type
    split
    · exact footprint_set_bits _ _ _ _ (by simp)
    · exact footprint_clear_bits _ _ _ _ (by simp)
  have h3 : ∀ x, footprint (fun r => ∀ j, r ≠ Reg.PDOUT j) x
      (set_flags_pull mem_bus F port mask flags x) := by
    intro x
    unfold set_flags_pull
    split
    · exact footprint_trans (footprint_clear_bits _ _ _ _ (by simp))
        (footprint_set_bits _ _ _ _ (by simp))
    · split
      · exact footprint_trans (footprint_set_bits _ _ _ _ (by simp))
          (footprint_set_bits _ _ _ _ (by simp))
      · exact footprint_clear_bits _ _ _ _ (by simp)
  have hlv : ∀ lv x, footprint (fun r => ∀ j, r ≠ Reg.PDOUT j) x
      (gpio_low_voltage_level_sel mem_bus lt (port % 256) (mask % 256) lv x) := by
    intro lv x
    refine footprint_mono ?_ (footprint_lvol_sel lt _ _ lv x)
    rintro r ⟨i, hi⟩ j hj
    rw [hi] at hj
    exact absurd hj (by simp)
  have h4 : ∀ x, footprint (fun r => ∀ j, r ≠ Reg.PDOUT j) x
      (set_flags_voltage mem_bus F lt port mask flags x) := by
    intro x
    unfold set_flags_voltage
    split
    · exact footprint_trans (footprint_trans (footprint_set_bits _ _ _ _ (by simp))
        (footprint_clear_bits _ _ _ _ (by simp))) (hlv 1 _)
    · exact hlv 0 x
  have h5 : ∀ x, footprint (fun r => ∀ j, r ≠ Reg.PDOUT j) x
      (set_flags_interrupts mem_bus F gl wt port mask flags x) := by
    intro x
    refine footprint_mono ?_ (footprint_set_flags_interrupts F gl wt port mask flags x)
    intro r hr j hj
    rw [hj] at hr
    exact hr
  have h14 := footprint_trans (footprint_trans (footprint_trans h1 (h2 _)) (h3 _)) (h4 _)
  split
  · exact (footprint_trans h14 (h5 _)).2 _ (fun h => h q rfl)
  · exact h14.2 _ (fun h => h q rfl)

theorem bit_of_set_flags_PDOUT (F : gpio_flag_bits) (gl : List gpio_info)
    (wt : List npcx_wui) (lt : List gpio_lvol_item) (port mask flags : Nat) (y : Machine)
    (p k : Nat) :
    bit_of (gpio_set_flags_by_mask mem_bus F gl wt lt port mask flags y).regs (Reg.PDOUT p) k
      = if flag_set flags F.GPIO_HIGH then
          (if Reg.PDOUT p = Reg.PDOUT port ∧ k < 8 ∧ mask.testBit k = true then true
            else bit_of y.regs (Reg.PDOUT p) k)
        else if flag_set flags F.GPIO_LOW then
          (if Reg.PDOUT p = Reg.PDOUT port ∧ k < 8 ∧ mask.testBit k = true then false
            else bit_of y.regs (Reg.PDOUT p) k)
        else bit_of y.regs (Reg.PDOUT p) k := by
  have hz := regs_before_level_PDOUT F gl wt lt port mask flags y
  have hzb : ∀ q j, bit_of (if flag_set flags F.GPIO_INT_ANY then
      set_flags_interrupts mem_bus F gl wt port mask flags
        (set_flags_voltage mem_bus F lt port mask flags
          (set_flags_pull mem_bus F port mask flags
            (set_flags_type mem_bus F port mask flags
              (set_flags_input mem_bus F port mask flags y))))
    else
      set_flags_voltage mem_bus F lt port mask flags
        (set_flags_pull mem_bus F port mask flags
          (set_flags_type mem_bus F port mask flags
            (set_flags_input mem_bus F port mask flags y)))).regs (Reg.PDOUT q) j
      = bit_of y.regs (Reg.PDOUT q) j := by
    intro q j
    unfold bit_of
    rw [hz q]
  have hout : bit_of (gpio_set_flags_by_mask mem_bus F gl wt lt port mask flags y).regs
      (Reg.PDOUT p) k
      = bit_of (set_flags_level mem_bus F port mask flags
          (if flag_set flags F.GPIO_INT_ANY then
            set_flags_interrupts mem_bus F gl wt port mask flags
              (set_flags_voltage mem_bus F lt port mask flags
                (set_flags_pull mem_bus F port mask flags
                  (set_flags_type mem_bus F port mask flags
                    (set_flags_input mem_bus F port mask flags y))))
          else
            set_flags_voltage mem_bus F lt port mask flags
              (set_flags_pull mem_bus F port mask flags
                (set_flags_type mem_bus F port mask flags
                  (set_flags_input mem_bus F port mask flags y))))).regs (Reg.PDOUT p) k := by
    rw [set_flags_eq_tail]
    split
    · rw [bit_of_set_bits_mem, if_neg (by simp)]
    · rfl
  rw [hout]
  unfold set_flags_level
  cases hh : flag_set flags F.GPIO_HIGH
  · cases hl : flag_set flags F.GPIO_LOW
    · simp only [Bool.false_eq_true, if_false]
      exact hzb p k
    · simp only [Bool.false_eq_true, if_false, if_true]
      rw [bit_of_clear_bits_mem, hzb]
  · simp only [if_true]
    rw [bit_of_set_bits_mem, hzb]

theorem bit_of_set_alternate_function_PDOUT (alt : List gpio_alt_map) (port mask : Nat)
    (func : Int) (y : Machine) (p k : Nat) :
    bit_of (gpio_set_alternate_function mem_bus alt port mask func y).regs (Reg.PDOUT p) k
      = bit_of y.regs (Reg.PDOUT p) k := by
  unfold bit_of
  rw [(footprint_set_alternate_function alt port mask func y).2 (Reg.PDOUT p)
    (fun ⟨n, hn⟩ => absurd hn (by simp))]


theorem and_or_eq_zero (X L H : Nat) (hl : X &&& L = 0) (hh : X &&& H = 0) :
    X &&& (L ||| H) = 0 := by
  apply Nat.eq_of_testBit_eq
  intro k
  have hlk : (X &&& L).testBit k = false := by rw [hl, Nat.zero_testBit]
  have hhk : (X &&& H).testBit k = false := by rw [hh, Nat.zero_testBit]
  rw [Nat.testBit_and] at hlk hhk
  rw [Nat.testBit_and, Nat.testBit_or, Nat.zero_testBit]
  cases hx : X.testBit k <;> simp_all

theorem flag_bits_disjoint_level (F : gpio_flag_bits) (hd : flag_bits_disjoint F) :
    F.GPIO_OUTPUT &&& (F.GPIO_LOW ||| F.GPIO_HIGH) = 0 ∧
    F.GPIO_OPEN_DRAIN &&& (F.GPIO_LOW ||| F.GPIO_HIGH) = 0 ∧
    F.GPIO_PULL_UP &&& (F.GPIO_LOW ||| F.GPIO_HIGH) = 0 ∧
    F.GPIO_PULL_DOWN &&& (F.GPIO_LOW ||| F.GPIO_HIGH) = 0 ∧
    F.GPIO_SEL_1P8V &&& (F.GPIO_LOW ||| F.GPIO_HIGH) = 0 ∧
    F.GPIO_INT_ANY &&& (F.GPIO_LOW ||| F.GPIO_HIGH) = 0 ∧
    F.GPIO_INT_F_HIGH &&& (F.GPIO_LOW ||| F.GPIO_HIGH) = 0 ∧
    F.GPIO_INT_F_LOW &&& (F.GPIO_LOW ||| F.GPIO_HIGH) = 0 ∧
    F.GPIO_INT_F_RISING &&& (F.GPIO_LOW ||| F.GPIO_HIGH) = 0 ∧
    F.GPIO_INT_F_FALLING &&& (F.GPIO_LOW ||| F.GPIO_HIGH) = 0 ∧
    F.GPIO_DEFAULT &&& (F.GPIO_LOW ||| F.GPIO_HIGH) = 0 := by
  unfold flag_bits_disjoint at hd
  obtain ⟨h1, h2⟩ := hd
  rw [List.pairwise_iff_getElem] at h1 h2
  refine ⟨?_, ?_, ?_, ?_, ?_, ?_, ?_, ?_, ?_, ?_, ?_⟩
  · exact and_or_eq_zero _ _ _ (by rw [Nat.land_comm]; exact h1 3 5 (by simp) (by simp) (by decide))
      (by rw [Nat.land_comm]; exact h1 4 5 (by simp) (by simp) (by decide))
  · exact and_or_eq_zero _ _ _ (h1 0 3 (by simp) (by simp) (by decide))
      (h1 0 4 (by simp) (by simp) (by decide))
  · exact and_or_eq_zero _ _ _ (h1 1 3 (by simp) (by simp) (by decide))
      (h1 1 4 (by simp) (by simp) (by decide))
  · exact and_or_eq_zero _ _ _ (h1 2 3 (by simp) (by simp) (by decide))
      (h1 2 4 (by simp) (by simp) (by decide))
  · exact and_or_eq_zero _ _ _ (by rw [Nat.land_comm]; exact h1 3 7 (by simp) (by simp) (by decide))
      (by rw [Nat.land_comm]; exact h1 4 7 (by simp) (by simp) (by decide))
  · exact and_or_eq_zero _ _ _ (by rw [Nat.land_comm]; exact h1 3 8 (by simp) (by simp) (by decide))
      (by rw [Nat.land_comm]; exact h1 4 8 (by simp) (by simp) (by decide))
  · exact and_or_eq_zero _ _ _ (by rw [Nat.land_comm]; exact h2 3 10 (by simp) (by simp) (by decide))
      (by rw [Nat.land_comm]; exact h2 4 10 (by simp) (by simp) (by decide))
  · exact and_or_eq_zero _ _ _ (by rw [Nat.land_comm]; exact h2 3 11 (by simp) (by simp) (by decide))
      (by rw [Nat.land_comm]; exact h2 4 11 (by simp) (by simp) (by decide))
  · exact and_or_eq_zero _ _ _ (by rw [Nat.land_comm]; exact h2 3 8 (by simp) (by simp) (by decide))
      (by rw [Nat.land_comm]; exact h2 4 8 (by simp) (by simp) (by decide))
  · exact and_or_eq_zero _ _ _ (by rw [Nat.land_comm]; exact h2 3 9 (by simp) (by simp) (by decide))
      (by rw [Nat.land_comm]; exact h2 4 9 (by simp) (by simp) (by decide))
  · exact and_or_eq_zero _ _ _ (by rw [Nat.land_comm]; exact h1 3 6 (by simp) (by simp) (by decide))
      (by rw [Nat.land_comm]; exact h1 4 6 (by simp) (by simp) (by decide))

theorem foldl_invariant {α β : Type} (P : α → Prop) (f : α → β → α) (l : List β) (a : α)
    (ha : P a) (h : ∀ x b, b ∈ l → P x → P (f x b)) : P (l.foldl f a) := by
  induction l generalizing a with
  | nil => exact ha
  | cons b rest ih =>
    rw [List.foldl_cons]
    exact ih (f a b) (h a b (List.mem_cons_self b rest) ha)
      (fun x c hc hx => h x c (List.mem_cons_of_mem b hc) hx)

/-- C13, counterexample.  In `clashing_gpio_list` signal 0 (port 3, pin 2) has
`GPIO_HIGH` and no `GPIO_DEFAULT`, and signal 1 is on the same pin with
`GPIO_LOW`: after a cold `gpio_pre_init` the `PDOUT` bit of signal 0 is clear. -/
theorem pre_init_cold_later_signal_clears :
    flag_set 80 sample_flag_bits.GPIO_HIGH = true ∧
    flag_set 80 sample_flag_bits.GPIO_DEFAULT = false ∧
    bit_of (gpio_pre_init mem_bus sample_flag_bits sample_config zero_devalt_bits
      clashing_gpio_list sample_wui_table sample_alt_table gpio_lvol_table false
      (Machine.start ones_regs)).regs (Reg.PDOUT 3) 2 = false := by
  decide

/-- C13, as amended.  A warm `gpio_pre_init` leaves every `PDOUT` register
unchanged.  After a cold `gpio_pre_init`, the `PDOUT` bits of a signal without
`GPIO_DEFAULT` whose flags include `GPIO_HIGH` are set, provided no later row of
`gpio_list` on the same port and bit, without `GPIO_DEFAULT`, requests
`GPIO_LOW` without `GPIO_HIGH`.  With pairwise disjoint flag bits, the warm
loop body for a row is the cold loop body with `GPIO_LOW` and `GPIO_HIGH`
ignored: direction, drive type, pull, voltage and interrupt type are
configured from the remaining flags. -/
theorem pre_init_warm_cold (F : gpio_flag_bits) (cfg : build_config) (D : devalt_bits)
    (gpio_list pre post : List gpio_info) (gpio_wui_table : List npcx_wui)
    (alt_table : List gpio_alt_map) (lvol_table : List gpio_lvol_item) (g : gpio_info)
    (m : Machine) :
    (∀ p, (gpio_pre_init mem_bus F cfg D gpio_list gpio_wui_table alt_table lvol_table
        true m).regs (Reg.PDOUT p) = m.regs (Reg.PDOUT p)) ∧
    (flag_set g.flags F.GPIO_DEFAULT = false → flag_set g.flags F.GPIO_HIGH = true →
      ∀ k, k < 8 → g.mask.testBit k = true →
        (∀ x, x ∈ post → x.port = g.port → flag_set x.flags F.GPIO_DEFAULT = false →
          flag_set x.flags F.GPIO_HIGH = false → flag_set x.flags F.GPIO_LOW = true →
          x.mask.testBit k = false) →
        bit_of (gpio_pre_init mem_bus F cfg D (pre ++ g :: post) gpio_wui_table alt_table
          lvol_table false m).regs (Reg.PDOUT g.port) k = true) ∧
    (flag_bits_disjoint F →
      pre_init_signal mem_bus F gpio_list gpio_wui_table alt_table lvol_table true m g
        = pre_init_signal mem_bus { F with GPIO_LOW := 0, GPIO_HIGH := 0 } gpio_list
            gpio_wui_table alt_table lvol_table false m g) := by
  refine ⟨?_, ?_, ?_⟩
  · intro p
    have hloop : footprint (fun r => ∀ q, r ≠ Reg.PDOUT q)
        (pre_init_clear_wake mem_bus (pre_init_pin_mux mem_bus cfg D m))
        (gpio_pre_init mem_bus F cfg D gpio_list gpio_wui_table alt_table lvol_table true m) := by
      unfold gpio_pre_init
      apply footprint_foldl
      intro x b _
      exact footprint_pre_init_signal_warm F gpio_list gpio_wui_table alt_table lvol_table x b
    have hmux : footprint (fun r => ∀ q, r ≠ Reg.PDOUT q) m
        (pre_init_pin_mux mem_bus cfg D m) := by
      refine footprint_mono ?_ (footprint_pin_mux cfg D m)
      rintro r (⟨n, hn⟩ | hn) q hq <;> rw [hn] at hq <;> exact absurd hq (by simp)
    have hwk : footprint (fun r => ∀ q, r ≠ Reg.PDOUT q) (pre_init_pin_mux mem_bus cfg D m)
        (pre_init_clear_wake mem_bus (pre_init_pin_mux mem_bus cfg D m)) := by
      refine footprint_mono ?_ (footprint_clear_wake _)
      intro r hr q hq
      rw [hq] at hr
      exact hr
    exact (footprint_trans (footprint_trans hmux hwk) hloop).2 _ (fun h => h p rfl)
  · intro hdef hhigh k hk hmk hpost
    unfold gpio_pre_init
    rw [List.foldl_append, List.foldl_cons]
    refine foldl_invariant (fun x : Machine => bit_of x.regs (Reg.PDOUT g.port) k = true)
      _ _ _ ?_ ?_
    · unfold pre_init_signal
      simp only [hdef, Bool.false_eq_true, if_false]
      rw [bit_of_set_alternate_function_PDOUT, bit_of_set_flags_PDOUT]
      simp [hhigh, hk, hmk]
    · intro x b hb hx
      unfold pre_init_signal
      cases hbd : flag_set b.flags F.GPIO_DEFAULT
      · simp only [Bool.false_eq_true, if_false]
        rw [bit_of_set_alternate_function_PDOUT, bit_of_set_flags_PDOUT]
        cases hbh : flag_set b.flags F.GPIO_HIGH
        · cases hbl : flag_set b.flags F.GPIO_LOW
          · simpa using hx
          · simp only [Bool.false_eq_true, if_false, if_true]
            have hnot : ¬ (Reg.PDOUT g.port = Reg.PDOUT b.port ∧ k < 8 ∧
                b.mask.testBit k = true) := by
              rintro ⟨hp, _, hbk⟩
              have hport : b.port = g.port := (Reg.PDOUT.inj hp).symm
              rw [hpost b hb hport hbd hbh hbl] at hbk
              exact absurd hbk (by simp)
            rw [if_neg hnot]
            exact hx
        · simp only [if_true]
          split
          · rfl
          · exact hx
      · simp only [if_true]
        exact hx
  · intro hd
    obtain ⟨d1, d2, d3, d4, d5, d6, d7, d8, d9, d10, _⟩ := flag_bits_disjoint_level F hd
    unfold pre_init_signal
    simp only [if_true, Bool.false_eq_true, if_false]
    obtain ⟨hlo, hhi⟩ := flag_set_and_not_left g.flags F.GPIO_LOW F.GPIO_HIGH
    have hzero : ∀ f : Nat, flag_set f 0 = false := by
      intro f
      simp [flag_set]
    rw [set_flags_congr mem_bus F { F with GPIO_LOW := 0, GPIO_HIGH := 0 } gpio_list
      gpio_wui_table lvol_table g.port g.mask (and_not g.flags (F.GPIO_LOW ||| F.GPIO_HIGH))
      g.flags m
      (flag_set_and_not_of_disjoint _ _ _ d1)
      (flag_set_and_not_of_disjoint _ _ _ d2)
      (flag_set_and_not_of_disjoint _ _ _ d3)
      (fun _ => flag_set_and_not_of_disjoint _ _ _ d4)
      (flag_set_and_not_of_disjoint _ _ _ d5)
      (flag_set_and_not_of_disjoint _ _ _ d6)
      (flag_set_and_not_of_disjoint _ _ _ d7)
      (flag_set_and_not_of_disjoint _ _ _ d8)
      (flag_set_and_not_of_disjoint _ _ _ d9)
      (flag_set_and_not_of_disjoint _ _ _ d10)
      (by rw [hhi]; exact (hzero _).symm)
      (by rw [hlo]; exact (hzero _).symm)]

theorem pre_init_warm_cold_witness :
    ((flag_set (⟨3, 4, 80⟩ : gpio_info).flags sample_flag_bits.GPIO_DEFAULT = false ∧
        flag_set (⟨3, 4, 80⟩ : gpio_info).flags sample_flag_bits.GPIO_HIGH = true ∧
        2 < 8 ∧ (⟨3, 4, 80⟩ : gpio_info).mask.testBit 2 = true ∧
        (∀ x, x ∈ [(⟨5, 1, 4096 + 80⟩ : gpio_info), ⟨5, 2, 2⟩] →
          x.port = (⟨3, 4, 80⟩ : gpio_info).port →
          flag_set x.flags sample_flag_bits.GPIO_DEFAULT = false →
          flag_set x.flags sample_flag_bits.GPIO_HIGH = false →
          flag_set x.flags sample_flag_bits.GPIO_LOW = true → x.mask.testBit 2 = false)) ∧
      bit_of (gpio_pre_init mem_bus sample_flag_bits sample_config zero_devalt_bits
        ([] ++ ⟨3, 4, 80⟩ :: [(⟨5, 1, 4096 + 80⟩ : gpio_info), ⟨5, 2, 2⟩]) sample_wui_table
        sample_alt_table gpio_lvol_table false (Machine.start zero_regs)).regs
        (Reg.PDOUT (⟨3, 4, 80⟩ : gpio_info).port) 2 = true) ∧
    (flag_bits_disjoint sample_flag_bits ∧
      pre_init_signal mem_bus sample_flag_bits sample_gpio_list sample_wui_table
          sample_alt_table gpio_lvol_table true (Machine.start zero_regs) ⟨3, 4, 80⟩
        = pre_init_signal mem_bus { sample_flag_bits with GPIO_LOW := 0, GPIO_HIGH := 0 }
            sample_gpio_list sample_wui_table sample_alt_table gpio_lvol_table false
            (Machine.start zero_regs) ⟨3, 4, 80⟩) :=
  ⟨⟨⟨by decide, by decide, by decide, by decide, by decide⟩,
    (pre_init_warm_cold sample_flag_bits sample_config zero_devalt_bits sample_gpio_list []
      [⟨5, 1, 4096 + 80⟩, ⟨5, 2, 2⟩] sample_wui_table sample_alt_table gpio_lvol_table
      ⟨3, 4, 80⟩ (Machine.start zero_regs)).2.1 (by decide) (by decide) 2 (by decide)
      (by decide) (by decide)⟩,
   ⟨by unfold flag_bits_disjoint; decide,
    (pre_init_warm_cold sample_flag_bits sample_config zero_devalt_bits sample_gpio_list []
      [⟨5, 1, 4096 + 80⟩, ⟨5, 2, 2⟩] sample_wui_table sample_alt_table gpio_lvol_table
      ⟨3, 4, 80⟩ (Machine.start zero_regs)).2.2 (by unfold flag_bits_disjoint; decide)⟩⟩

/-! ## Uniqueness of pins in the static tables -/

theorem gpio_match_iff (port mask : Nat) (g : npcx_gpio) :
    gpio_match port mask g = true ↔
      g.valid = true ∧ g.port.val = port ∧ 1 <<< g.bit.val = mask := by
  unfold gpio_match
  simp [and_assoc]

theorem one_shl_injective (a b : Nat) (h : 1 <<< a = 1 <<< b) : a = b := by
  rw [Nat.one_shiftLeft, Nat.one_shiftLeft] at h
  exact Nat.pow_right_injective (le_refl 2) h

theorem filter_match_le_one (l : List npcx_gpio) (port mask : Nat)
    (hn : (valid_pins l).Nodup) : (l.filter (gpio_match port mask)).length ≤ 1 := by
  induction l with
  | nil => simp
  | cons g rest ih =>
    have hrest : (valid_pins rest).Nodup := by
      unfold valid_pins at hn ⊢
      rw [List.filter_cons] at hn
      split at hn
      · rw [List.map_cons] at hn
        exact (List.nodup_cons.mp hn).2
      · exact hn
    rw [List.filter_cons]
    split
    · rename_i hg
      obtain ⟨hv, hp, hb⟩ := (gpio_match_iff port mask g).mp hg
      have hnone : rest.filter (gpio_match port mask) = [] := by
        rw [List.filter_eq_nil_iff]
        intro x hx hxm
        obtain ⟨hxv, hxp, hxb⟩ := (gpio_match_iff port mask x).mp hxm
        have hkey : (x.port, x.bit) = (g.port, g.bit) := by
          have h1 : x.port = g.port := Fin.ext (hxp.trans hp.symm)
          have h2 : x.bit = g.bit := Fin.ext (one_shl_injective _ _ (hxb.trans hb.symm))
          rw [h1, h2]
        have hmem : (g.port, g.bit) ∈ valid_pins rest := by
          unfold valid_pins
          rw [← hkey]
          exact List.mem_map.mpr ⟨x, List.mem_filter.mpr ⟨hx, by simpa using hxv⟩, rfl⟩
        unfold valid_pins at hn
        rw [List.filter_cons] at hn
        simp only [hv, if_true, List.map_cons] at hn
        exact (List.nodup_cons.mp hn).1 hmem
      rw [List.length_cons, hnone]
      rfl
    · exact ih hrest

theorem alt_filter_length (tbl : List gpio_alt_map) (port mask : Nat) :
    (tbl.filter (fun r => gpio_match port mask r.gpio)).length
      = ((alt_table_gpios tbl).filter (gpio_match port mask)).length := by
  unfold alt_table_gpios
  rw [List.filter_map, List.length_map]
  rfl

theorem alt_table_gpios_eq (cfg : build_config) (D : devalt_bits) :
    alt_table_gpios (gpio_alt_table cfg D)
      = alt_table_gpios (gpio_alt_table ⟨cfg.NPCX_UART_MODULE2, cfg.NPCX_TACH_SEL2, false, false⟩
          zero_devalt_bits) := by
  rcases cfg with ⟨u, t, p, s⟩
  cases u <;> cases t <;> rfl

theorem filter_match_drop_uart1 (l : List npcx_gpio) (port mask : Nat)
    (h : ¬ (port = 1 ∧ (mask = 1 ∨ mask = 2))) :
    l.filter (gpio_match port mask)
      = (l.filter (fun g => !is_uart1_pin g)).filter (gpio_match port mask) := by
  rw [List.filter_filter]
  apply List.filter_congr
  intro x _
  cases hx : gpio_match port mask x
  · rfl
  · obtain ⟨_, hp, hb⟩ := (gpio_match_iff port mask x).mp hx
    have hu : is_uart1_pin x = false := by
      unfold is_uart1_pin
      by_contra hc
      simp only [Bool.not_eq_false, Bool.and_eq_true, Bool.or_eq_true, beq_iff_eq] at hc
      apply h
      refine ⟨hp.symm.trans hc.1, ?_⟩
      rcases hc.2 with h0 | h1
      · left
        rw [← hb, h0]
        rfl
      · right
        rw [← hb, h1]
        rfl
    simp [hu]

theorem alt_table_uart2_nodup (t : Bool) :
    (valid_pins (alt_table_gpios (gpio_alt_table ⟨true, t, false, false⟩ zero_devalt_bits))).Nodup := by
  cases t <;> decide

theorem alt_table_uart1_rest_nodup (t : Bool) :
    (valid_pins ((alt_table_gpios (gpio_alt_table ⟨false, t, false, false⟩
      zero_devalt_bits)).filter (fun g => !is_uart1_pin g))).Nodup := by
  cases t <;> decide

theorem lvol_table_nodup : (valid_pins (lvol_table_gpios gpio_lvol_table)).Nodup := by
  decide

/-- C15, counterexample.  Built with `NPCX_UART_MODULE2` and `NPCX_TACH_SEL2`
both 0, `gpio_alt_table` has valid rows 15 and 48 on port 1 bit 0 and valid
rows 16 and 47 on port 1 bit 1, so two rows satisfy `gpio_match` for each of
these pins. -/
theorem alt_table_uart1_two_rows :
    ((gpio_alt_table sample_config zero_devalt_bits).map (fun r => r.gpio))[15]?
      = some ⟨1, 0, true⟩ ∧
    ((gpio_alt_table sample_config zero_devalt_bits).map (fun r => r.gpio))[48]?
      = some ⟨1, 0, true⟩ ∧
    ((gpio_alt_table sample_config zero_devalt_bits).map (fun r => r.gpio))[16]?
      = some ⟨1, 1, true⟩ ∧
    ((gpio_alt_table sample_config zero_devalt_bits).map (fun r => r.gpio))[47]?
      = some ⟨1, 1, true⟩ ∧
    ((gpio_alt_table sample_config zero_devalt_bits).filter
      (fun r => gpio_match 1 (1 <<< 0) r.gpio)).length = 2 ∧
    ((gpio_alt_table sample_config zero_devalt_bits).filter
      (fun r => gpio_match 1 (1 <<< 1) r.gpio)).length = 2 ∧
    ¬ (valid_pins (alt_table_gpios (gpio_alt_table sample_config zero_devalt_bits))).Nodup := by
  decide

/-- C15, as amended.  In `gpio_alt_table` built with `NPCX_UART_MODULE2` set
(either setting of `NPCX_TACH_SEL2`) no two valid rows have the same
`(port, bit)`, and at most one row satisfies `gpio_match` for any port and
mask.  Built with `NPCX_UART_MODULE2` clear, exactly two rows match port 1
bit 0 and exactly two match port 1 bit 1, and at most one row matches any
other port and mask.  In `gpio_lvol_table` no two valid entries across the
four blocks have the same `(port, bit)` and at most one entry matches any port
and mask. -/
theorem table_uniqueness (cfg : build_config) (D : devalt_bits) (port mask : Nat) :
    (cfg.NPCX_UART_MODULE2 = true →
      (valid_pins (alt_table_gpios (gpio_alt_table cfg D))).Nodup ∧
      ((gpio_alt_table cfg D).filter (fun r => gpio_match port mask r.gpio)).length ≤ 1) ∧
    (cfg.NPCX_UART_MODULE2 = false →
      ((gpio_alt_table cfg D).filter (fun r => gpio_match 1 (1 <<< 0) r.gpio)).length = 2 ∧
      ((gpio_alt_table cfg D).filter (fun r => gpio_match 1 (1 <<< 1) r.gpio)).length = 2 ∧
      (¬ (port = 1 ∧ (mask = 1 ∨ mask = 2)) →
        ((gpio_alt_table cfg D).filter (fun r => gpio_match port mask r.gpio)).length ≤ 1)) ∧
    (valid_pins (lvol_table_gpios gpio_lvol_table)).Nodup ∧
    ((lvol_table_gpios gpio_lvol_table).filter (gpio_match port mask)).length ≤ 1 := by
  refine ⟨?_, ?_, lvol_table_nodup, filter_match_le_one _ port mask lvol_table_nodup⟩
  · intro hu
    have hn : (valid_pins (alt_table_gpios (gpio_alt_table cfg D))).Nodup := by
      rw [alt_table_gpios_eq, hu]
      exact alt_table_uart2_nodup _
    exact ⟨hn, by rw [alt_filter_length]; exact filter_match_le_one _ port mask hn⟩
  · intro hu
    refine ⟨?_, ?_, ?_⟩
    · rw [alt_filter_length, alt_table_gpios_eq, hu]
      cases cfg.NPCX_TACH_SEL2 <;> decide
    · rw [alt_filter_length, alt_table_gpios_eq, hu]
      cases cfg.NPCX_TACH_SEL2 <;> decide
    · intro hne
      rw [alt_filter_length, alt_table_gpios_eq, hu, filter_match_drop_uart1 _ port mask hne]
      exact filter_match_le_one _ port mask (alt_table_uart1_rest_nodup _)

theorem table_uniqueness_witness :
    ((⟨true, false, false, false⟩ : build_config).NPCX_UART_MODULE2 = true ∧
      (valid_pins (alt_table_gpios
        (gpio_alt_table ⟨true, false, false, false⟩ zero_devalt_bits))).Nodup ∧
      ((gpio_alt_table ⟨true, false, false, false⟩ zero_devalt_bits).filter
        (fun r => gpio_match 6 16 r.gpio)).length ≤ 1) ∧
    (sample_config.NPCX_UART_MODULE2 = false ∧ ¬ (4 = 1 ∧ (1 = 1 ∨ 1 = 2)) ∧
      ((gpio_alt_table sample_config zero_devalt_bits).filter
        (fun r => gpio_match 4 1 r.gpio)).length ≤ 1) :=
  ⟨⟨rfl, (table_uniqueness ⟨true, false, false, false⟩ zero_devalt_bits 6 16).1 rfl⟩,
   ⟨rfl, by decide,
    ((table_uniqueness sample_config zero_devalt_bits 4 1).2.1 rfl).2.2 (by decide)⟩⟩

/-! ## Dispatch and the enable register -/

theorem mem_stores_scan (table group : Nat) (rows : List npcx_wui) (i wui_mask : Nat)
    (r : Reg) (v : Nat) (h : (r, v) ∈ stores (scan_events table group rows i wui_mask)) :
    r = Reg.WKPCL table group ∧ ∃ w, w ∈ rows ∧ w.table.val = table ∧ w.group.val = group ∧
      v = (1 <<< w.bit.val) % 256 ∧ wui_mask.testBit w.bit.val = true := by
  induction rows generalizing i wui_mask with
  | nil => simp [scan_events, stores] at h
  | cons row rest ih =>
    unfold scan_events at h
    by_cases h0 : wui_mask = 0
    · simp [h0, stores] at h
    · by_cases hm : row.table.val = table ∧ row.group.val = group
          ∧ wui_mask &&& ((1 <<< row.bit.val) % 256) ≠ 0
      · simp only [h0, if_false, if_pos hm, stores, List.mem_cons, Prod.mk.injEq] at h
        rcases h with ⟨hr, hv⟩ | h
        · exact ⟨hr, row, List.mem_cons_self row rest, hm.1, hm.2.1, hv,
            (and_pin_ne_zero wui_mask row.bit.val row.bit.isLt).1 hm.2.2⟩
        · obtain ⟨hr, w, hw, ht, hg, hv, hb⟩ := ih _ _ h
          rw [testBit_mask_clear _ _ _ w.bit.isLt] at hb
          simp only [Bool.and_eq_true] at hb
          exact ⟨hr, w, List.mem_cons_of_mem row hw, ht, hg, hv, hb.1⟩
      · simp only [h0, if_false, if_neg hm] at h
        obtain ⟨hr, w, hw, ht, hg, hv, hb⟩ := ih _ _ h
        exact ⟨hr, w, List.mem_cons_of_mem row hw, ht, hg, hv, hb⟩

theorem interrupt_log (bus : Bus) (handlers : Nat → Regs → Regs) (tbl : List npcx_wui)
    (wui_int : npcx_wui) (m : Machine) :
    (gpio_interrupt bus tbl handlers wui_int m).log
      = m.log ++ scan_events wui_int.table.val wui_int.group.val tbl 0
          (reg_read m (Reg.WKPND wui_int.table.val wui_int.group.val)
            &&& reg_read m (Reg.WKEN wui_int.table.val wui_int.group.val)) := by
  unfold gpio_interrupt
  simp only [scan_log]

theorem interrupt_of_mask_zero (bus : Bus) (handlers : Nat → Regs → Regs)
    (tbl : List npcx_wui) (wui_int : npcx_wui) (m : Machine)
    (h : reg_read m (Reg.WKPND wui_int.table.val wui_int.group.val)
      &&& reg_read m (Reg.WKEN wui_int.table.val wui_int.group.val) = 0) :
    gpio_interrupt bus tbl handlers wui_int m = m := by
  unfold gpio_interrupt
  simp only [h]
  cases tbl with
  | nil => rfl
  | cons row rest => simp [gpio_interrupt_scan]

/-- C19.  For every bus, table, handlers, machine state and pair
`(table, group)` of `wui_int`, `gpio_interrupt` appends events `d` to the log
such that: a handler is called for signal `i` only if row `i` is on that pair
and its bit is set in both `WKPND` and `WKEN` of the pair at entry; every store
of the call goes to `WKPCL` of the pair; for a bit `b` whose `WKEN` bit is clear
at entry (pending or not) no handler of a row on bit `b` is called and no store
has bit `b` set; and when `WKPND & WKEN` is zero the machine, log included, is
unchanged. -/
theorem dispatch_gated_by_enable (bus : Bus) (gpio_wui_table : List npcx_wui)
    (gpio_irq_handlers : Nat → Regs → Regs) (wui_int : npcx_wui) (m : Machine) :
    (gpio_interrupt bus gpio_wui_table gpio_irq_handlers wui_int m).log
      = m.log ++ (gpio_interrupt bus gpio_wui_table gpio_irq_handlers wui_int m).log.drop
          m.log.length ∧
    (∀ i, i ∈ calls ((gpio_interrupt bus gpio_wui_table gpio_irq_handlers wui_int m).log.drop
        m.log.length) →
      i < gpio_wui_table.length ∧
      (wui_at gpio_wui_table i).table = wui_int.table ∧
      (wui_at gpio_wui_table i).group = wui_int.group ∧
      bit_of m.regs (Reg.WKPND wui_int.table.val wui_int.group.val)
        (wui_at gpio_wui_table i).bit.val = true ∧
      bit_of m.regs (Reg.WKEN wui_int.table.val wui_int.group.val)
        (wui_at gpio_wui_table i).bit.val = true) ∧
    (∀ r v, (r, v) ∈ stores ((gpio_interrupt bus gpio_wui_table gpio_irq_handlers wui_int
        m).log.drop m.log.length) →
      r = Reg.WKPCL wui_int.table.val wui_int.group.val) ∧
    (∀ b, bit_of m.regs (Reg.WKEN wui_int.table.val wui_int.group.val) b = false →
      (∀ i, i ∈ calls ((gpio_interrupt bus gpio_wui_table gpio_irq_handlers wui_int
          m).log.drop m.log.length) → (wui_at gpio_wui_table i).bit.val ≠ b) ∧
      (∀ r v, (r, v) ∈ stores ((gpio_interrupt bus gpio_wui_table gpio_irq_handlers wui_int
          m).log.drop m.log.length) → v.testBit b = false)) ∧
    (reg_read m (Reg.WKPND wui_int.table.val wui_int.group.val)
        &&& reg_read m (Reg.WKEN wui_int.table.val wui_int.group.val) = 0 →
      gpio_interrupt bus gpio_wui_table gpio_irq_handlers wui_int m = m) := by
  have hlog := interrupt_log bus gpio_irq_handlers gpio_wui_table wui_int m
  have hdrop : (gpio_interrupt bus gpio_wui_table gpio_irq_handlers wui_int m).log.drop
      m.log.length = scan_events wui_int.table.val wui_int.group.val gpio_wui_table 0
        (reg_read m (Reg.WKPND wui_int.table.val wui_int.group.val)
          &&& reg_read m (Reg.WKEN wui_int.table.val wui_int.group.val)) := by
    rw [hlog, List.drop_left]
  rw [hdrop]
  have hcalls : ∀ i, i ∈ calls (scan_events wui_int.table.val wui_int.group.val
      gpio_wui_table 0 (reg_read m (Reg.WKPND wui_int.table.val wui_int.group.val)
        &&& reg_read m (Reg.WKEN wui_int.table.val wui_int.group.val))) →
      i < gpio_wui_table.length ∧
      (wui_at gpio_wui_table i).table = wui_int.table ∧
      (wui_at gpio_wui_table i).group = wui_int.group ∧
      bit_of m.regs (Reg.WKPND wui_int.table.val wui_int.group.val)
        (wui_at gpio_wui_table i).bit.val = true ∧
      bit_of m.regs (Reg.WKEN wui_int.table.val wui_int.group.val)
        (wui_at gpio_wui_table i).bit.val = true := by
    intro i hi
    have hmem : i ∈ interrupt_calls gpio_wui_table wui_int m.regs := hi
    obtain ⟨h1, h2, h3, h4, h5, _⟩ := (mem_interrupt_calls _ _ _ _).1 hmem
    exact ⟨h1, h2, h3, h4, h5⟩
  refine ⟨hlog, hcalls, ?_, ?_, interrupt_of_mask_zero bus gpio_irq_handlers gpio_wui_table
    wui_int m⟩
  · intro r v h
    exact (mem_stores_scan _ _ _ _ _ r v h).1
  · intro b hb
    constructor
    · intro i hi heq
      have h5 := (hcalls i hi).2.2.2.2
      rw [heq, hb] at h5
      exact absurd h5 (by simp)
    · intro r v h
      obtain ⟨_, w, _, _, _, hv, hbit⟩ := mem_stores_scan _ _ _ _ _ r v h
      rw [hv, testBit_pin_mask]
      have hne : w.bit.val ≠ b := by
        intro heq
        rw [Nat.testBit_and, heq] at hbit
        unfold bit_of at hb
        unfold reg_read at hbit
        rw [hb] at hbit
        simp at hbit
      simp [hne]

theorem dispatch_gated_by_enable_witness :
    (bit_of (Machine.start partly_enabled_regs).regs (Reg.WKPND 0 2) 1 = true ∧
      bit_of (Machine.start partly_enabled_regs).regs (Reg.WKEN 0 2) 1 = false ∧
      (∀ i, i ∈ calls ((gpio_interrupt miwu_bus plain_wui_table idle_handlers ⟨0, 2, 0⟩
          (Machine.start partly_enabled_regs)).log.drop
            (Machine.start partly_enabled_regs).log.length) →
        (wui_at plain_wui_table i).bit.val ≠ 1) ∧
      (∀ r v, (r, v) ∈ stores ((gpio_interrupt miwu_bus plain_wui_table idle_handlers ⟨0, 2, 0⟩
          (Machine.start partly_enabled_regs)).log.drop
            (Machine.start partly_enabled_regs).log.length) →
        v.testBit 1 = false)) ∧
    calls (gpio_interrupt miwu_bus plain_wui_table idle_handlers ⟨0, 2, 0⟩
      (Machine.start partly_enabled_regs)).log = [0, 5] ∧
    (reg_read (Machine.start partly_enabled_regs) (Reg.WKPND 1 2)
        &&& reg_read (Machine.start partly_enabled_regs) (Reg.WKEN 1 2) = 0 ∧
      gpio_interrupt miwu_bus plain_wui_table idle_handlers ⟨1, 2, 0⟩
        (Machine.start partly_enabled_regs) = Machine.start partly_enabled_regs) :=
  ⟨⟨by decide, by decide,
    (dispatch_gated_by_enable miwu_bus plain_wui_table idle_handlers ⟨0, 2, 0⟩
      (Machine.start partly_enabled_regs)).2.2.2.1 1 (by decide)⟩,
   by decide,
   ⟨by decide,
    (dispatch_gated_by_enable miwu_bus plain_wui_table idle_handlers ⟨1, 2, 0⟩
      (Machine.start partly_enabled_regs)).2.2.2.2 (by decide)⟩⟩


/-! ## Configuration and the wake-unit registers -/

theorem flag_set_eq_false (flags bits : Nat) : flag_set flags bits = false ↔ flags &&& bits = 0 := by
  unfold flag_set
  simp

theorem flag_set_int_any (F : gpio_flag_bits) (flags : Nat) (hF : int_any_is_triggers F)
    (h : flag_set flags F.GPIO_INT_ANY = true) :
    (flag_set flags F.GPIO_INT_F_HIGH || flag_set flags F.GPIO_INT_F_LOW
      || flag_set flags F.GPIO_INT_F_RISING || flag_set flags F.GPIO_INT_F_FALLING) = true := by
  by_contra hc
  simp only [Bool.or_eq_true, not_or, Bool.not_eq_true] at hc
  obtain ⟨⟨⟨hH, hL⟩, hR⟩, hFa⟩ := hc
  rw [flag_set_eq_false] at hH hL hR hFa
  have hz : flag_set flags F.GPIO_INT_ANY = false := by
    rw [flag_set_eq_false, hF]
    exact and_or_eq_zero _ _ _ (and_or_eq_zero _ _ _ (and_or_eq_zero _ _ _ hR hFa) hH) hL
  rw [hz] at h
  exact absurd h (by simp)

theorem footprint_type_sel_trigger (F : gpio_flag_bits) (tbl : List npcx_wui)
    (signal flags : Nat) (m : Machine)
    (ht : (flag_set flags F.GPIO_INT_F_HIGH || flag_set flags F.GPIO_INT_F_LOW
      || flag_set flags F.GPIO_INT_F_RISING || flag_set flags F.GPIO_INT_F_FALLING) = true) :
    footprint (fun r => ∀ t g, r ≠ Reg.WKEN t g) m
      (gpio_interrupt_type_sel mem_bus F tbl signal flags m) := by
  unfold gpio_interrupt_type_sel
  by_cases hs : signal ≥ tbl.length
  · simp only [hs, if_true]
    exact footprint_refl _ m
  · simp only [hs, if_false]
    revert ht
    cases hH : flag_set flags F.GPIO_INT_F_HIGH <;>
    cases hL : flag_set flags F.GPIO_INT_F_LOW <;>
    cases hR : flag_set flags F.GPIO_INT_F_RISING <;>
    cases hF : flag_set flags F.GPIO_INT_F_FALLING <;>
    intro ht <;>
    simp only [Bool.or_false, Bool.or_true, Bool.true_or, Bool.and_true, Bool.and_false,
      Bool.false_and, Bool.or_self, Bool.and_self, Bool.false_eq_true, if_false, if_true] at ht ⊢ <;>
    repeat (first
      | exact footprint_refl _ _
      | exact footprint_set_bits _ _ _ _ (by simp)
      | exact footprint_clear_bits _ _ _ _ (by simp)
      | refine footprint_trans ?_ (footprint_set_bits _ _ _ _ (by simp))
      | refine footprint_trans ?_ (footprint_clear_bits _ _ _ _ (by simp)))

theorem footprint_set_flags_front_with (P : Reg → Prop) (F : gpio_flag_bits)
    (lt : List gpio_lvol_item) (port mask flags : Nat) (m : Machine)
    (hP : ∀ r, r = Reg.PDIR port ∨ r = Reg.PTYPE port ∨ r = Reg.PPUD port
      ∨ r = Reg.PPULL port → P r)
    (hlv : ∀ lv x, footprint P x
      (gpio_low_voltage_level_sel mem_bus lt (port % 256) (mask % 256) lv x)) :
    footprint P m
      (set_flags_voltage mem_bus F lt port mask flags
        (set_flags_pull mem_bus F port mask flags
          (set_flags_type mem_bus F port mask flags
            (set_flags_input mem_bus F port mask flags m)))) := by
  have hdir : P (Reg.PDIR port) := hP _ (Or.inl rfl)
  have htype : P (Reg.PTYPE port) := hP _ (Or.inr (Or.inl rfl))
  have hpud : P (Reg.PPUD port) := hP _ (Or.inr (Or.inr (Or.inl rfl)))
  have hpull : P (Reg.PPULL port) := hP _ (Or.inr (Or.inr (Or.inr rfl)))
  have h1 : footprint P m (set_flags_input mem_bus F port mask flags m) := by
    unfold set_flags_input
    split
    · exact footprint_clear_bits _ _ _ _ hdir
    · exact footprint_refl _ m
  have h2 : ∀ x, footprint P x (set_flags_type mem_bus F port mask flags x) := by
    intro x
    unfold set_flags_type
    split
    · exact footprint_set_bits _ _ _ _ htype
    · exact footprint_clear_bits _ _ _ _ htype
  have h3 : ∀ x, footprint P x (set_flags_pull mem_bus F port mask flags x) := by
    intro x
    unfold set_flags_pull
    split
    · exact footprint_trans (footprint_clear_bits _ _ _ _ hpud)
        (footprint_set_bits _ _ _ _ hpull)
    · split
      · exact footprint_trans (footprint_set_bits _ _ _ _ hpud)
          (footprint_set_bits _ _ _ _ hpull)
      · exact footprint_clear_bits _ _ _ _ hpull
  have h4 : ∀ x, footprint P x (set_flags_voltage mem_bus F lt port mask flags x) := by
    intro x
    unfold set_flags_voltage
    split
    · exact footprint_trans (footprint_trans
        (footprint_set_bits _ _ _ _ htype)
        (footprint_clear_bits _ _ _ _ hpull)) (hlv _ _)
    · exact hlv _ _
  exact footprint_trans (footprint_trans (footprint_trans h1 (h2 _)) (h3 _)) (h4 _)

theorem footprint_set_flags_front (F : gpio_flag_bits) (lt : List gpio_lvol_item)
    (port mask flags : Nat) (m : Machine) :
    footprint (fun r => ¬ is_wake_reg r) m
      (set_flags_voltage mem_bus F lt port mask flags
        (set_flags_pull mem_bus F port mask flags
          (set_flags_type mem_bus F port mask flags
            (set_flags_input mem_bus F port mask flags m)))) := by
  apply footprint_set_flags_front_with
  · rintro r (h | h | h | h) <;> rw [h] <;> simp [is_wake_reg]
  · intro lv x
    refine footprint_mono ?_ (footprint_lvol_sel lt _ _ lv x)
    rintro r ⟨i, rfl⟩
    simp [is_wake_reg]

theorem footprint_set_flags_with (P : Reg → Prop) (hP : ∀ r, ¬ is_wake_reg r → P r)
    (F : gpio_flag_bits) (gl : List gpio_info) (wt : List npcx_wui)
    (lt : List gpio_lvol_item) (port mask flags : Nat) (m : Machine)
    (hint : ∀ x, footprint P x
      (if flag_set flags F.GPIO_INT_ANY then
        set_flags_interrupts mem_bus F gl wt port mask flags x else x)) :
    footprint P m (gpio_set_flags_by_mask mem_bus F gl wt lt port mask flags m) := by
  rw [set_flags_eq_tail]
  have hfront := footprint_mono hP (footprint_set_flags_front F lt port mask flags m)
  have hlevel : ∀ x, footprint P x (set_flags_level mem_bus F port mask flags x) := by
    intro x
    unfold set_flags_level
    split
    · exact footprint_set_bits _ _ _ _ (hP _ (by simp [is_wake_reg]))
    · split
      · exact footprint_clear_bits _ _ _ _ (hP _ (by simp [is_wake_reg]))
      · exact footprint_refl _ x
  have hmid := footprint_trans (footprint_trans hfront (hint _)) (hlevel _)
  by_cases hO : flag_set flags F.GPIO_OUTPUT = true
  · rw [if_pos hO]
    exact footprint_trans hmid (footprint_set_bits _ _ _ _ (hP _ (by simp [is_wake_reg])))
  · rw [if_neg hO]
    exact hmid


/-- C21.  When `flags` has no bit of `GPIO_INT_ANY`, `gpio_set_flags_by_mask`
makes no store to a wake-unit register and leaves every wake-unit register
(`WKEN`, `WKINEN`, `WKMOD`, `WKEDG`, `WKAEDG`, `WKPCL`, and `WKPND`) unchanged:
`gpio_interrupt_type_sel` is not called, so its disable branch is not reached.
When `GPIO_INT_ANY` is the union of the four trigger flags, no call of
`gpio_set_flags_by_mask`, whatever the flags, makes a store to a `WKEN`
register: the disable branch, the only store to `WKEN` in
`gpio_interrupt_type_sel`, is never reached through the configurator. -/
theorem set_flags_without_trigger_keeps_wake_unit (F : gpio_flag_bits)
    (gpio_list : List gpio_info) (gpio_wui_table : List npcx_wui)
    (lvol_table : List gpio_lvol_item) (port mask flags : Nat) (m : Machine) :
    (flag_set flags F.GPIO_INT_ANY = false →
      footprint (fun r => ¬ is_wake_reg r) m
        (gpio_set_flags_by_mask mem_bus F gpio_list gpio_wui_table lvol_table port mask flags m) ∧
      ∀ t g,
        (gpio_set_flags_by_mask mem_bus F gpio_list gpio_wui_table lvol_table port mask flags
          m).regs (Reg.WKEN t g) = m.regs (Reg.WKEN t g) ∧
        (gpio_set_flags_by_mask mem_bus F gpio_list gpio_wui_table lvol_table port mask flags
          m).regs (Reg.WKINEN t g) = m.regs (Reg.WKINEN t g) ∧
        (gpio_set_flags_by_mask mem_bus F gpio_list gpio_wui_table lvol_table port mask flags
          m).regs (Reg.WKMOD t g) = m.regs (Reg.WKMOD t g) ∧
        (gpio_set_flags_by_mask mem_bus F gpio_list gpio_wui_table lvol_table port mask flags
          m).regs (Reg.WKEDG t g) = m.regs (Reg.WKEDG t g) ∧
        (gpio_set_flags_by_mask mem_bus F gpio_list gpio_wui_table lvol_table port mask flags
          m).regs (Reg.WKAEDG t g) = m.regs (Reg.WKAEDG t g) ∧
        (gpio_set_flags_by_mask mem_bus F gpio_list gpio_wui_table lvol_table port mask flags
          m).regs (Reg.WKPCL t g) = m.regs (Reg.WKPCL t g) ∧
        (gpio_set_flags_by_mask mem_bus F gpio_list gpio_wui_table lvol_table port mask flags
          m).regs (Reg.WKPND t g) = m.regs (Reg.WKPND t g)) ∧
    (int_any_is_triggers F →
      footprint (fun r => ∀ t g, r ≠ Reg.WKEN t g) m
        (gpio_set_flags_by_mask mem_bus F gpio_list gpio_wui_table lvol_table port mask
          flags m)) := by
  constructor
  · intro hany
    have hfp : footprint (fun r => ¬ is_wake_reg r) m
        (gpio_set_flags_by_mask mem_bus F gpio_list gpio_wui_table lvol_table port mask
          flags m) := by
      apply footprint_set_flags_with _ (fun r hr => hr)
      intro x
      rw [hany]
      exact footprint_refl _ x
    refine ⟨hfp, ?_⟩
    intro t g
    refine ⟨hfp.2 _ ?_, hfp.2 _ ?_, hfp.2 _ ?_, hfp.2 _ ?_, hfp.2 _ ?_, hfp.2 _ ?_, hfp.2 _ ?_⟩ <;>
      simp [is_wake_reg]
  · intro hF
    apply footprint_set_flags_with
    · intro r hr t g hrt
      rw [hrt] at hr
      exact hr (by simp [is_wake_reg])
    · intro x
      by_cases hany : flag_set flags F.GPIO_INT_ANY = true
      · rw [if_pos hany]
        have ht := flag_set_int_any F flags hF hany
        unfold set_flags_interrupts
        apply footprint_foldl
        intro y b _
        by_cases h : (gpio_list_at gpio_list b).port = port
            ∧ (gpio_list_at gpio_list b).mask &&& mask ≠ 0
        · rw [if_pos h]
          exact footprint_type_sel_trigger F gpio_wui_table b flags y ht
        · rw [if_neg h]
          exact footprint_refl _ y
      · rw [if_neg hany]
        exact footprint_refl _ x

theorem set_flags_without_trigger_keeps_wake_unit_witness :
    (flag_set 80 sample_flag_bits.GPIO_INT_ANY = false ∧
      (gpio_set_flags_by_mask mem_bus sample_flag_bits sample_gpio_list sample_wui_table
        gpio_lvol_table 3 4 80 (Machine.start all_pending_regs)).regs (Reg.WKEN 0 2)
        = (Machine.start all_pending_regs).regs (Reg.WKEN 0 2)) ∧
    (int_any_is_triggers sample_flag_bits ∧
      (gpio_set_flags_by_mask mem_bus sample_flag_bits sample_gpio_list sample_wui_table
        gpio_lvol_table 3 4 256 (Machine.start all_pending_regs)).regs (Reg.WKEN 0 2)
        = (Machine.start all_pending_regs).regs (Reg.WKEN 0 2)) :=
  ⟨⟨by decide,
    (((set_flags_without_trigger_keeps_wake_unit sample_flag_bits sample_gpio_list
      sample_wui_table gpio_lvol_table 3 4 80 (Machine.start all_pending_regs)).1
        (by decide)).2 0 2).1⟩,
   ⟨by unfold int_any_is_triggers; decide,
    ((set_flags_without_trigger_keeps_wake_unit sample_flag_bits sample_gpio_list
      sample_wui_table gpio_lvol_table 3 4 256 (Machine.start all_pending_regs)).2
        (by unfold int_any_is_triggers; decide)).2 (Reg.WKEN 0 2) (fun h => h 0 2 rfl)⟩⟩


theorem set_flags_wide_int_any_reaches_disable :
    ¬ int_any_is_triggers wide_int_any_flag_bits ∧
    bit_of all_pending_regs (Reg.WKEN 0 2) 3 = true ∧
    bit_of (gpio_set_flags_by_mask mem_bus wide_int_any_flag_bits sample_gpio_list
      sample_wui_table gpio_lvol_table 3 4 32 (Machine.start all_pending_regs)).regs
      (Reg.WKEN 0 2) 3 = false := by
  refine ⟨by unfold int_any_is_triggers; decide, by decide, by decide⟩

/-! ## Masks that are not a single bit -/

theorem gpio_match_not_single_bit (port mask : Nat) (g : npcx_gpio)
    (h : ∀ b, b < 8 → mask ≠ 1 <<< b) : gpio_match port mask g = false := by
  cases hg : gpio_match port mask g
  · rfl
  · obtain ⟨_, _, hb⟩ := (gpio_match_iff port mask g).mp hg
    exact absurd hb.symm (h g.bit.val g.bit.isLt)

theorem lvol_sel_not_single_bit (bus : Bus) (tbl : List gpio_lvol_item)
    (port mask lv : Nat) (m : Machine) (h : ∀ b, b < 8 → mask ≠ 1 <<< b) :
    gpio_low_voltage_level_sel bus tbl port mask lv m = m := by
  unfold gpio_low_voltage_level_sel
  exact lvol_table_no_match bus port mask lv tbl 0 m
    (fun _ _ x _ => gpio_match_not_single_bit port mask x h)

theorem regs_set_flags_LV_no_match (F : gpio_flag_bits) (gl : List gpio_info)
    (wt : List npcx_wui) (lt : List gpio_lvol_item) (port mask flags : Nat) (m : Machine)
    (hno : ∀ lv x, gpio_low_voltage_level_sel mem_bus lt (port % 256) (mask % 256) lv x = x)
    (i : Nat) :
    (gpio_set_flags_by_mask mem_bus F gl wt lt port mask flags m).regs (Reg.LV_GPIO_CTL i)
      = m.regs (Reg.LV_GPIO_CTL i) := by
  have hfront : footprint (fun r => ∀ j, r ≠ Reg.LV_GPIO_CTL j) m
      (set_flags_voltage mem_bus F lt port mask flags
        (set_flags_pull mem_bus F port mask flags
          (set_flags_type mem_bus F port mask flags
            (set_flags_input mem_bus F port mask flags m)))) := by
    apply footprint_set_flags_front_with
    · rintro r (h | h | h | h) j <;> rw [h] <;> simp
    · intro lv x
      rw [hno]
      exact footprint_refl _ x
  have htail := footprint_set_flags_tail F gl wt port mask flags
    (set_flags_voltage mem_bus F lt port mask flags
      (set_flags_pull mem_bus F port mask flags
        (set_flags_type mem_bus F port mask flags
          (set_flags_input mem_bus F port mask flags m))))
  rw [set_flags_eq_tail, htail.2 (Reg.LV_GPIO_CTL i) (by simp [is_wake_reg])]
  exact hfront.2 (Reg.LV_GPIO_CTL i) (fun h => h i rfl)

theorem set_flags_1p8v_forces (F : gpio_flag_bits) (gl : List gpio_info)
    (wt : List npcx_wui) (lt : List gpio_lvol_item) (port mask flags : Nat) (m : Machine)
    (hv : flag_set flags F.GPIO_SEL_1P8V = true) :
    (∀ k, k < 8 → mask.testBit k = true →
      bit_of (gpio_set_flags_by_mask mem_bus F gl wt lt port mask flags m).regs
        (Reg.PTYPE port) k = true) ∧
    (∀ k, mask.testBit k = true →
      bit_of (gpio_set_flags_by_mask mem_bus F gl wt lt port mask flags m).regs
        (Reg.PPULL port) k = false) := by
  have htail := footprint_set_flags_tail F gl wt port mask flags
    (set_flags_voltage mem_bus F lt port mask flags
      (set_flags_pull mem_bus F port mask flags
        (set_flags_type mem_bus F port mask flags
          (set_flags_input mem_bus F port mask flags m))))
  have hv4 : ∀ x q, (∀ j, q ≠ Reg.LV_GPIO_CTL j) →
      (set_flags_voltage mem_bus F lt port mask flags x).regs q
        = (reg_clear_bits mem_bus (Reg.PPULL port) mask
            (reg_set_bits mem_bus (Reg.PTYPE port) mask x)).regs q := by
    intro x q hq
    unfold set_flags_voltage
    rw [if_pos hv]
    exact regs_lvol_sel_other lt _ _ 1 _ q hq
  rw [set_flags_eq_tail]
  constructor
  · intro k hk hmk
    unfold bit_of
    rw [htail.2 (Reg.PTYPE port) (by simp [is_wake_reg]), hv4 _ _ (by simp)]
    show bit_of _ (Reg.PTYPE port) k = true
    rw [bit_of_clear_bits_mem, bit_of_set_bits_mem]
    simp [hk, hmk]
  · intro k hmk
    unfold bit_of
    rw [htail.2 (Reg.PPULL port) (by simp [is_wake_reg]), hv4 _ _ (by simp)]
    show bit_of _ (Reg.PPULL port) k = false
    rw [bit_of_clear_bits_mem]
    by_cases hk : k < 8
    · simp [hk, hmk]
    · simp only [hk, false_and, and_false, if_false]
      exact bit_of_ge_eight _ _ _ (by omega)

/-- C22, counterexample.  Mask `0x101` has two bits set (bits 0 and 8) and is
not a single bit; `gpio_set_flags_by_mask` on port 0 with `GPIO_SEL_1P8V` hands
its low eight bits, `0x01`, to `gpio_low_voltage_level_sel`, which finds pin 0
of port 0 at block 0, position 6 of `gpio_lvol_table` and sets bit 6 of
`LV_GPIO_CTL(0)`: 1.8V is selected on that pin. -/
theorem set_flags_wide_mask_selects_1p8v :
    (257 : Nat).testBit 0 = true ∧ (257 : Nat).testBit 8 = true ∧
    (∀ b, b < 32 → (257 : Nat) ≠ 1 <<< b) ∧
    flag_set 32768 sample_flag_bits.GPIO_SEL_1P8V = true ∧
    bit_of zero_regs (Reg.LV_GPIO_CTL 0) 6 = false ∧
    bit_of (gpio_set_flags_by_mask mem_bus sample_flag_bits sample_gpio_list sample_wui_table
      gpio_lvol_table 0 257 32768 (Machine.start zero_regs)).regs (Reg.LV_GPIO_CTL 0) 6
      = true := by
  decide

/-- C22, as amended.  For every port and every mask that is not a single bit
among bits 0..7 (two or more bits set, or none), `gpio_low_voltage_level_sel`
leaves the machine, hence every `LV_GPIO_CTL` register, unchanged, whatever
the table holds for the individual bits.  `gpio_set_flags_by_mask` hands the
low eight bits of its mask to the selector: when those are not a single bit
and `flags` has `GPIO_SEL_1P8V`, every `LV_GPIO_CTL` register is unchanged,
the mask bits of `PTYPE(port)` end set (open-drain) and the mask bits of
`PPULL(port)` end clear. -/
theorem multi_bit_mask_skips_voltage_select (bus : Bus) (F : gpio_flag_bits)
    (gpio_list : List gpio_info) (gpio_wui_table : List npcx_wui)
    (lvol_table : List gpio_lvol_item) (port mask flags lv : Nat) (m : Machine) :
    ((∀ b, b < 8 → mask ≠ 1 <<< b) →
      gpio_low_voltage_level_sel bus lvol_table port mask lv m = m) ∧
    ((∀ b, b < 8 → mask % 256 ≠ 1 <<< b) → flag_set flags F.GPIO_SEL_1P8V = true →
      (∀ i, (gpio_set_flags_by_mask mem_bus F gpio_list gpio_wui_table lvol_table port mask
          flags m).regs (Reg.LV_GPIO_CTL i) = m.regs (Reg.LV_GPIO_CTL i)) ∧
      (∀ k, k < 8 → mask.testBit k = true →
        bit_of (gpio_set_flags_by_mask mem_bus F gpio_list gpio_wui_table lvol_table port mask
          flags m).regs (Reg.PTYPE port) k = true) ∧
      (∀ k, mask.testBit k = true →
        bit_of (gpio_set_flags_by_mask mem_bus F gpio_list gpio_wui_table lvol_table port mask
          flags m).regs (Reg.PPULL port) k = false)) := by
  constructor
  · exact lvol_sel_not_single_bit bus lvol_table port mask lv m
  · intro hmask hv
    refine ⟨?_, set_flags_1p8v_forces F gpio_list gpio_wui_table lvol_table port mask flags m hv⟩
    intro i
    apply regs_set_flags_LV_no_match
    intro lv2 x
    exact lvol_sel_not_single_bit mem_bus lvol_table _ _ lv2 x hmask

theorem multi_bit_mask_skips_voltage_select_witness :
    ((∀ b, b < 8 → (48 : Nat) ≠ 1 <<< b) ∧
      gpio_match 11 (1 <<< 4) ( NPCX_GPIO 0xB 4) = true ∧
      gpio_match 11 (1 <<< 5) ( NPCX_GPIO 0xB 5) = true ∧
      gpio_low_voltage_level_sel mem_bus gpio_lvol_table 11 48 1 (Machine.start zero_regs)
        = Machine.start zero_regs) ∧
    ((∀ b, b < 8 → (48 : Nat) % 256 ≠ 1 <<< b) ∧
      flag_set 32768 sample_flag_bits.GPIO_SEL_1P8V = true ∧
      ∀ i, (gpio_set_flags_by_mask mem_bus sample_flag_bits sample_gpio_list sample_wui_table
          gpio_lvol_table 11 48 32768 (Machine.start zero_regs)).regs (Reg.LV_GPIO_CTL i)
        = (Machine.start zero_regs).regs (Reg.LV_GPIO_CTL i)) :=
  ⟨⟨by decide, by decide, by decide,
    (multi_bit_mask_skips_voltage_select mem_bus sample_flag_bits sample_gpio_list
      sample_wui_table gpio_lvol_table 11 48 32768 1 (Machine.start zero_regs)).1 (by decide)⟩,
   ⟨by decide, by decide,
    ((multi_bit_mask_skips_voltage_select mem_bus sample_flag_bits sample_gpio_list
      sample_wui_table gpio_lvol_table 11 48 32768 1 (Machine.start zero_regs)).2 (by decide)
        (by decide)).1⟩⟩


/-! ## The enable registers after `gpio_pre_init` -/

theorem foldl_establishes {α β : Type} (Q : α → Prop) (f : α → β → α) (l : List β) (a : α)
    (b0 : β) (hb : b0 ∈ l) (hset : ∀ x, Q (f x b0))
    (hkeep : ∀ x b, b ∈ l → Q x → Q (f x b)) : Q (l.foldl f a) := by
  induction l generalizing a with
  | nil => simp at hb
  | cons b rest ih =>
    rw [List.foldl_cons]
    rcases List.mem_cons.1 hb with h | h
    · subst h
      exact foldl_invariant Q f rest (f a b0) (hset a)
        (fun x c hc hx => hkeep x c (List.mem_cons_of_mem b0 hc) hx)
    · exact ih (f a b) h (fun x c hc hx => hkeep x c (List.mem_cons_of_mem b hc) hx)

theorem clear_wake_step_sets (i j : Nat) (x : Machine) :
    (reg_write mem_bus (Reg.WKEN i j) 0 (reg_write mem_bus (Reg.WKPCL i j) 0xFF x)).regs
      (Reg.WKEN i j) = 0 := by
  rw [regs_reg_write_mem, Function.update_same]
  rfl

theorem clear_wake_step_keeps (i j t g : Nat) (x : Machine) (hx : x.regs (Reg.WKEN t g) = 0) :
    (reg_write mem_bus (Reg.WKEN i j) 0 (reg_write mem_bus (Reg.WKPCL i j) 0xFF x)).regs
      (Reg.WKEN t g) = 0 := by
  by_cases h : Reg.WKEN t g = Reg.WKEN i j
  · rw [h]
    exact clear_wake_step_sets i j x
  · rw [regs_reg_write_mem, Function.update_noteq h, regs_reg_write_mem,
      Function.update_noteq (by simp)]
    exact hx

theorem regs_clear_wake_WKEN (t g : Nat) (ht : t < 2) (hg : g < 8) (m : Machine) :
    (pre_init_clear_wake mem_bus m).regs (Reg.WKEN t g) = 0 := by
  unfold pre_init_clear_wake
  refine foldl_establishes (fun x : Machine => x.regs (Reg.WKEN t g) = 0) _ _ _ t
    (List.mem_range.2 ht) ?_ ?_
  · intro x
    refine foldl_establishes (fun y : Machine => y.regs (Reg.WKEN t g) = 0) _ _ _ g
      (List.mem_range.2 hg) ?_ ?_
    · intro y
      exact clear_wake_step_sets t g y
    · intro y j _ hy
      exact clear_wake_step_keeps t j t g y hy
  · intro x i _ hx
    refine foldl_invariant (fun y : Machine => y.regs (Reg.WKEN t g) = 0) _ _ _ hx ?_
    intro y j _ hy
    exact clear_wake_step_keeps i j t g y hy

theorem type_sel_keeps_WKEN_zero (F : gpio_flag_bits) (tbl : List npcx_wui)
    (signal flags : Nat) (m : Machine) (t g : Nat) (h : m.regs (Reg.WKEN t g) = 0) :
    (gpio_interrupt_type_sel mem_bus F tbl signal flags m).regs (Reg.WKEN t g) = 0 := by
  by_cases ht : (flag_set flags F.GPIO_INT_F_HIGH || flag_set flags F.GPIO_INT_F_LOW
      || flag_set flags F.GPIO_INT_F_RISING || flag_set flags F.GPIO_INT_F_FALLING) = true
  · rw [(footprint_type_sel_trigger F tbl signal flags m ht).2 (Reg.WKEN t g)
      (fun hc => hc t g rfl)]
    exact h
  · simp only [Bool.or_eq_true, not_or, Bool.not_eq_true] at ht
    obtain ⟨⟨⟨hH, hL⟩, hR⟩, hFa⟩ := ht
    unfold gpio_interrupt_type_sel
    by_cases hs : signal ≥ tbl.length
    · simp only [hs, if_true]
      exact h
    · simp only [hs, if_false, hH, hL, hR, hFa, Bool.or_self, Bool.false_eq_true]
      unfold reg_clear_bits
      rw [regs_reg_write_mem]
      by_cases hq : Reg.WKEN t g
          = Reg.WKEN (wui_at tbl signal).table.val (wui_at tbl signal).group.val
      · rw [← hq, Function.update_same]
        unfold reg_read
        rw [h]
        simp [u8]
      · rw [Function.update_noteq hq]
        exact h

theorem set_flags_keeps_WKEN_zero (F : gpio_flag_bits) (gl : List gpio_info)
    (wt : List npcx_wui) (lt : List gpio_lvol_item) (port mask flags : Nat) (m : Machine)
    (t g : Nat) (h : m.regs (Reg.WKEN t g) = 0) :
    (gpio_set_flags_by_mask mem_bus F gl wt lt port mask flags m).regs (Reg.WKEN t g) = 0 := by
  rw [set_flags_eq_tail]
  have hfront := (footprint_set_flags_front F lt port mask flags m).2 (Reg.WKEN t g)
    (by simp [is_wake_reg])
  have hint : ∀ x : Machine, x.regs (Reg.WKEN t g) = 0 →
      (if flag_set flags F.GPIO_INT_ANY then
        set_flags_interrupts mem_bus F gl wt port mask flags x else x).regs (Reg.WKEN t g)
        = 0 := by
    intro x hx
    by_cases hany : flag_set flags F.GPIO_INT_ANY = true
    · rw [if_pos hany]
      unfold set_flags_interrupts
      refine foldl_invariant (fun y : Machine => y.regs (Reg.WKEN t g) = 0) _ _ _ hx ?_
      intro y b _ hy
      by_cases hb : (gpio_list_at gl b).port = port ∧ (gpio_list_at gl b).mask &&& mask ≠ 0
      · rw [if_pos hb]
        exact type_sel_keeps_WKEN_zero F wt b flags y t g hy
      · rw [if_neg hb]
        exact hy
    · rw [if_neg hany]
      exact hx
  have hlevel : ∀ x : Machine, (set_flags_level mem_bus F port mask flags x).regs
      (Reg.WKEN t g) = x.regs (Reg.WKEN t g) := by
    intro x
    unfold set_flags_level
    split
    · exact (footprint_set_bits (fun r => r = Reg.PDOUT port) _ mask x rfl).2 _ (by simp)
    · split
      · exact (footprint_clear_bits (fun r => r = Reg.PDOUT port) _ mask x rfl).2 _ (by simp)
      · rfl
  have hmid := hint _ (hfront.trans h)
  by_cases hO : flag_set flags F.GPIO_OUTPUT = true
  · rw [if_pos hO, (footprint_set_bits (fun r => r = Reg.PDIR port) _ mask _ rfl).2 _ (by simp),
      hlevel]
    exact hmid
  · rw [if_neg hO, hlevel]
    exact hmid

theorem pre_init_signal_keeps_WKEN_zero (F : gpio_flag_bits) (gl : List gpio_info)
    (wt : List npcx_wui) (alt : List gpio_alt_map) (lt : List gpio_lvol_item)
    (is_warm : Bool) (m : Machine) (b : gpio_info) (t g : Nat)
    (h : m.regs (Reg.WKEN t g) = 0) :
    (pre_init_signal mem_bus F gl wt alt lt is_warm m b).regs (Reg.WKEN t g) = 0 := by
  unfold pre_init_signal
  split
  · exact h
  · rw [(footprint_set_alternate_function alt b.port b.mask (-1) _).2 (Reg.WKEN t g)
      (by simp)]
    exact set_flags_keeps_WKEN_zero F gl wt lt _ _ _ m t g h

/-- C23.  For every flag assignment, build configuration, `gpio_list` (entries
with trigger flags included), wake, alternate-function and low-voltage table,
starting state and both values of `system_is_reboot_warm()`: after
`gpio_pre_init` every register `WKEN(table, group)` with `table` in 0..1 and
`group` in 0..7 is zero; and in that state `gpio_interrupt` on any such pair
changes nothing, on every bus and for every handlers: it calls no handler and
makes no store. -/
theorem pre_init_disables_all_interrupts (bus : Bus) (gpio_irq_handlers : Nat → Regs → Regs)
    (F : gpio_flag_bits) (cfg : build_config) (D : devalt_bits) (gpio_list : List gpio_info)
    (gpio_wui_table : List npcx_wui) (alt_table : List gpio_alt_map)
    (lvol_table : List gpio_lvol_item) (is_warm : Bool) (m : Machine) (wui_int : npcx_wui) :
    (∀ t g, t < 2 → g < 8 →
      (gpio_pre_init mem_bus F cfg D gpio_list gpio_wui_table alt_table lvol_table is_warm
        m).regs (Reg.WKEN t g) = 0) ∧
    (wui_int.table.val < 2 →
      gpio_interrupt bus gpio_wui_table gpio_irq_handlers wui_int
          (gpio_pre_init mem_bus F cfg D gpio_list gpio_wui_table alt_table lvol_table is_warm m)
        = gpio_pre_init mem_bus F cfg D gpio_list gpio_wui_table alt_table lvol_table
            is_warm m) := by
  have hz : ∀ t g, t < 2 → g < 8 →
      (gpio_pre_init mem_bus F cfg D gpio_list gpio_wui_table alt_table lvol_table is_warm
        m).regs (Reg.WKEN t g) = 0 := by
    intro t g ht hg
    unfold gpio_pre_init
    refine foldl_invariant (fun x : Machine => x.regs (Reg.WKEN t g) = 0) _ _ _
      (regs_clear_wake_WKEN t g ht hg _) ?_
    intro x b _ hx
    exact pre_init_signal_keeps_WKEN_zero F gpio_list gpio_wui_table alt_table lvol_table
      is_warm x b t g hx
  refine ⟨hz, ?_⟩
  intro ht
  apply interrupt_of_mask_zero
  unfold reg_read
  rw [hz _ _ ht wui_int.group.isLt]
  simp

theorem pre_init_disables_all_interrupts_witness :
    ((0 < 2 ∧ 2 < 8) ∧
      (gpio_pre_init mem_bus sample_flag_bits sample_config zero_devalt_bits
        [⟨3, 4, 256⟩, ⟨5, 2, 2⟩] plain_wui_table sample_alt_table gpio_lvol_table false
        (Machine.start all_pending_regs)).regs (Reg.WKEN 0 2) = 0) ∧
    ((⟨0, 2, 0⟩ : npcx_wui).table.val < 2 ∧
      gpio_interrupt miwu_bus plain_wui_table idle_handlers ⟨0, 2, 0⟩
          (gpio_pre_init mem_bus sample_flag_bits sample_config zero_devalt_bits
            [⟨3, 4, 256⟩, ⟨5, 2, 2⟩] plain_wui_table sample_alt_table gpio_lvol_table false
            (Machine.start all_pending_regs))
        = gpio_pre_init mem_bus sample_flag_bits sample_config zero_devalt_bits
            [⟨3, 4, 256⟩, ⟨5, 2, 2⟩] plain_wui_table sample_alt_table gpio_lvol_table false
            (Machine.start all_pending_regs)) :=
  ⟨⟨⟨by decide, by decide⟩,
    (pre_init_disables_all_interrupts miwu_bus idle_handlers sample_flag_bits sample_config
      zero_devalt_bits [⟨3, 4, 256⟩, ⟨5, 2, 2⟩] plain_wui_table sample_alt_table gpio_lvol_table
      false (Machine.start all_pending_regs) ⟨0, 2, 0⟩).1 0 2 (by decide) (by decide)⟩,
   ⟨by decide,
    (pre_init_disables_all_interrupts miwu_bus idle_handlers sample_flag_bits sample_config
      zero_devalt_bits [⟨3, 4, 256⟩, ⟨5, 2, 2⟩] plain_wui_table sample_alt_table gpio_lvol_table
      false (Machine.start all_pending_regs) ⟨0, 2, 0⟩).2 (by decide)⟩⟩

end Npcx
